import Mathlib

/-! # Mini Metro: water geometry, line editing, trains, passengers and game time

A shallow embedding of the simulation core of the Mini Metro clone.

* `MiniMetro` holds what the variants share: shapes, the city configuration of
  `city-maps.js`, and the point-to-segment distance.
* `MiniMetro.GameRealistic` embeds `game-realistic.js`: `isInWater`, `crossesWater`,
  `recalculateLineSegments`, the mouse and touch handlers that edit lines,
  `generateInitialStations`, `spawnPassenger`, `updateTrains`, `updatePassengers`,
  `updateGameTime`, `calculateSpawnRate` and `gameLoop`.
* `MiniMetro.GameJs` embeds `game.js`: the mouse handlers, `spawnPassenger`, the train
  logic (`updateTrains`, `loadPassengers`, `unloadPassengers`), `updatePassengers`,
  `updateGameTime` and `gameLoop`.
* `MiniMetro.GameFixed` embeds the water test and the mouse handlers of `game-fixed.js`.

JavaScript numbers are modelled by an ordered field (exact arithmetic, no rounding):
the definitions are generic in the field, they are evaluated over `ℚ`, and the facts
that mention `Math.sqrt` are stated over `ℝ`. Values of `Math.random()` are arguments.
Where a result depends on the rounding of doubles, in the strict edge of the river test
of `isInWater` (game-realistic.js) and in the accumulated overcrowding of
`updatePassengers` (game.js), the functions are embedded a second time in the namespaces
`Rounded`, with every `+`, `-`, `*`, `/` and `Math.sqrt` of the source taken from a
`JsArith` parameter; `doubleArith` is the arithmetic of IEEE 754 doubles on the rationals
(round to nearest, ties to even, gradual underflow; overflow and `NaN` are not modelled).
References to objects are modelled by values that carry the object's identity: in
`GameRealistic` and `GameFixed` a station reference is the station's immutable record
(its `id`, position and shape), in `GameJs` it is the station's index in `stations`; a
line reference is the line's index in `lines`.
-/

namespace MiniMetro

/-- Station shapes: `stationShapes` and `rareShapes` of the game constructors. -/
inductive Shape where
  | circle | triangle | square
  | diamond | cross | star | pentagon | teardrop | oval | fan
deriving DecidableEq, Repr

section Geometry

variable {α : Type} [LinearOrderedField α]

/-- The foot point `(xx, yy)` that `distanceToLineSegment` (game-realistic.js 307-335)
and `distanceFromLineSegment` (game.js 241-269) compute: the projection parameter,
`-1` for a degenerate segment, clamped to the segment. -/
def closestOnSegment (px py x1 y1 x2 y2 : α) : α × α :=
  let A := px - x1
  let B := py - y1
  let C := x2 - x1
  let D := y2 - y1
  let dot := A * C + B * D
  let lenSq := C * C + D * D
  let param : α := if lenSq ≠ 0 then dot / lenSq else -1
  if param < 0 then (x1, y1)
  else if param > 1 then (x2, y2)
  else (x1 + param * C, y1 + param * D)

/-- The number `dx * dx + dy * dy` that `distanceToLineSegment` hands to `Math.sqrt`. -/
def distSqToLineSegment (px py x1 y1 x2 y2 : α) : α :=
  let p := closestOnSegment px py x1 y1 x2 y2
  let dx := px - p.1
  let dy := py - p.2
  dx * dx + dy * dy

/-- Decides `Math.sqrt(d2) * w < h` for `d2 ≥ 0` without taking the root, by comparing
squares after a case split on the signs of `w` and `h`
(see `sqrtTimesLt_iff` for the proof over the reals). -/
def sqrtTimesLt (d2 w h : α) : Bool :=
  if 0 ≤ w then decide (0 < h ∧ d2 * (w * w) < h * h)
  else decide (0 < h ∨ h * h < d2 * (w * w))

/-- Decides `Math.hypot(dx, dy) < r`. -/
def hypotLt (dx dy r : α) : Bool :=
  sqrtTimesLt (dx * dx + dy * dy) 1 r

/-- The pairs `(l[i], l[i + 1])` for `i = 0 .. l.length - 2`, in order: what a loop
`for (let i = 0; i < l.length - 1; i++)` visits. -/
def consecutivePairs {β : Type} (l : List β) : List (β × β) :=
  l.zip l.tail

end Geometry

/-- `distanceToLineSegment` of game-realistic.js (307-335) over the reals. -/
noncomputable def distanceToLineSegment (px py x1 y1 x2 y2 : ℝ) : ℝ :=
  let A := px - x1
  let B := py - y1
  let C := x2 - x1
  let D := y2 - y1
  let dot := A * C + B * D
  let lenSq := C * C + D * D
  let param : ℝ := if lenSq ≠ 0 then dot / lenSq else -1
  let p : ℝ × ℝ :=
    if param < 0 then (x1, y1)
    else if param > 1 then (x2, y2)
    else (x1 + param * C, y1 + param * D)
  let dx := px - p.1
  let dy := py - p.2
  Real.sqrt (dx * dx + dy * dy)

/-- `distanceFromLineSegment` of game.js (241-269) over the reals: the same body. -/
noncomputable def distanceFromLineSegment (px py x1 y1 x2 y2 : ℝ) : ℝ :=
  let A := px - x1
  let B := py - y1
  let C := x2 - x1
  let D := y2 - y1
  let dot := A * C + B * D
  let lenSq := C * C + D * D
  let param : ℝ := if lenSq ≠ 0 then dot / lenSq else -1
  let p : ℝ × ℝ :=
    if param < 0 then (x1, y1)
    else if param > 1 then (x2, y2)
    else (x1 + param * C, y1 + param * D)
  let dx := px - p.1
  let dy := py - p.2
  Real.sqrt (dx * dx + dy * dy)

/-- The functions and the constant of the JavaScript `Math` object whose value (and not
only a comparison with it) enters the simulation: `Math.hypot`, `Math.atan2`, `Math.cos`,
`Math.sin`, `Math.round` and `Math.PI`. They are not part of the repository and have no
exact counterpart over `ℚ`, so they are a parameter of the model. -/
structure JsMath (α : Type) where
  hypot : α → α → α
  atan2 : α → α → α
  cos : α → α
  sin : α → α
  round : α → α
  PI : α

/-- The values of `Math` on the arguments that occur for stations placed from left to
right on one horizontal line: `hypot(dx, 0) = |dx|` and `hypot(0, dy) = |dy|`,
`atan2(0, dx) = 0` for `dx > 0`, `cos(0) = 1`, `sin(0) = 0`, `round` exact. On other
arguments (none occurs below) `hypot` is exact when the root is rational, and `PI` is
only used through `0 / (PI / 4)` and `0 * (PI / 4)`. -/
def flatMath : JsMath ℚ where
  hypot := fun dx dy =>
    if dy = 0 then |dx| else if dx = 0 then |dy| else Rat.sqrt (dx * dx + dy * dy)
  atan2 := fun _ _ => 0
  cos := fun _ => 1
  sin := fun _ => 0
  round := fun a => (round a : ℤ)
  PI := 355 / 113

/-! ## Doubles -/

/-- The arithmetic of JavaScript numbers: `+`, `-`, `*`, `/` and `Math.sqrt`, each with its
rounding. The comparisons of numbers are exact. -/
structure JsArith (α : Type) where
  add : α → α → α
  sub : α → α → α
  mul : α → α → α
  div : α → α → α
  sqrt : α → α

/-- The integer nearest to `numerator / denominator`, the even one of two nearest. -/
def roundHalfEven (numerator denominator : Nat) : Nat :=
  let f := numerator / denominator
  let r := numerator % denominator
  if 2 * r < denominator then f
  else if 2 * r > denominator then f + 1
  else if f % 2 = 0 then f else f + 1

/-- The recursion of `log2`; the first argument bounds the number of steps. -/
def log2Aux : Nat → Nat → Nat
  | 0, _ => 0
  | fuel + 1, n => if n < 2 then 0 else log2Aux fuel (n / 2) + 1

/-- The exponent `⌊log₂ n⌋` of the leading binary digit of `n > 0` (0 for `n = 0`). -/
def log2 (n : Nat) : Nat := log2Aux n n

/-- The exponent `⌊log₂ (n / d)⌋` for positive `n` and `d`. -/
def floorLog2 (n d : Nat) : Int :=
  let e0 : Int := (log2 n : Int) - (log2 d : Int)
  if (if 0 ≤ e0 then decide (d * 2 ^ e0.toNat ≤ n) else decide (d ≤ n * 2 ^ (-e0).toNat)) then e0
  else e0 - 1

/-- The rational `m * 2 ^ e`. -/
def scaleByPowerOfTwo (m : Nat) (e : Int) : ℚ :=
  if 0 ≤ e then ((m * 2 ^ e.toNat : Nat) : ℚ) else (m : ℚ) / ((2 ^ (-e).toNat : Nat) : ℚ)

/-- The double (IEEE 754 binary64: 53 binary digits, least exponent `-1074`) nearest to the
rational `q`, the one with an even last digit of two nearest. Overflow is not modelled:
`|q| < 2 ^ 1024`. -/
def roundToDouble (q : ℚ) : ℚ :=
  if q = 0 then 0
  else
    let n := q.num.natAbs
    let d := q.den
    let ulpExponent : Int := max (floorLog2 n d - 52) (-1074)
    let m : Nat :=
      if 0 ≤ ulpExponent then roundHalfEven n (d * 2 ^ ulpExponent.toNat)
      else roundHalfEven (n * 2 ^ (-ulpExponent).toNat) d
    if 0 < q then scaleByPowerOfTwo m ulpExponent else -scaleByPowerOfTwo m ulpExponent

/-- The recursion of `floorSqrt`: the binary digits of the root from digit `k - 1` down. -/
def floorSqrtAux (n : Nat) : Nat → Nat → Nat
  | 0, r => r
  | k + 1, r =>
    if (r + 2 ^ k) * (r + 2 ^ k) ≤ n then floorSqrtAux n k (r + 2 ^ k) else floorSqrtAux n k r

/-- The integer square root `⌊√n⌋`. -/
def floorSqrt (n : Nat) : Nat :=
  floorSqrtAux n (log2 n / 2 + 1) 0

/-- The double nearest to `√q` for `q > 0` (`Math.sqrt` is correctly rounded). For `q ≤ 0`
the value is 0 (`Math.sqrt` of a negative number is `NaN`, which is not modelled). -/
def sqrtToDouble (q : ℚ) : ℚ :=
  if q ≤ 0 then 0
  else
    let n := q.num.natAbs
    let d := q.den
    let ulpExponent : Int := floorLog2 n d / 2 - 52
    let numerator : Nat := if 0 ≤ ulpExponent then n else n * 2 ^ (2 * (-ulpExponent).toNat)
    let denominator : Nat := if 0 ≤ ulpExponent then d * 2 ^ (2 * ulpExponent.toNat) else d
    let f := floorSqrt (numerator / denominator)
    let m : Nat :=
      if 4 * numerator < (2 * f + 1) * (2 * f + 1) * denominator then f
      else if 4 * numerator > (2 * f + 1) * (2 * f + 1) * denominator then f + 1
      else if f % 2 = 0 then f else f + 1
    scaleByPowerOfTwo m ulpExponent

/-- The arithmetic of the program: JavaScript numbers are doubles, and every operation
returns the double nearest to the exact result. -/
def doubleArith : JsArith ℚ where
  add := fun a b => roundToDouble (a + b)
  sub := fun a b => roundToDouble (a - b)
  mul := fun a b => roundToDouble (a * b)
  div := fun a b => roundToDouble (a / b)
  sqrt := sqrtToDouble

/-! ## City configuration (city-maps.js) -/

/-- A `Point` of a river polyline, in fractions of the canvas. -/
structure Point (α : Type) where
  x : α
  y : α
deriving DecidableEq, Repr

/-- A `River`: its width in pixels and its polyline. -/
structure River (α : Type) where
  width : α
  points : List (Point α)
deriving DecidableEq, Repr

/-- An `Island`: centre, width and height, and the `isLand` flag (absent = false). -/
structure Island (α : Type) where
  x : α
  y : α
  width : α
  height : α
  isLand : Bool
deriving DecidableEq, Repr

/-- The `type` of the `water` entry; only `'bay'` is tested by the code. -/
inductive WaterType where
  | bay | other
deriving DecidableEq, Repr

/-- The `water` entry of a city: a rectangle in fractions of the canvas. -/
structure Water (α : Type) where
  type : WaterType
  x : α
  y : α
  width : α
  height : α
deriving DecidableEq, Repr

/-- A `SpawnZone`: a rectangle in fractions of the canvas (the name is left out). -/
structure SpawnZone (α : Type) where
  x : α
  y : α
  w : α
  h : α
deriving DecidableEq, Repr

/-- The fields of a `CityConfig` that the simulation reads; an optional field that is
absent is `none`. -/
structure CityConfig (α : Type) where
  rivers : Option (List (River α))
  islands : Option (List (Island α))
  water : Option (Water α)
  initialBridges : α
  bridgesPerWeek : α
  spawnZones : Option (List (SpawnZone α))
deriving DecidableEq, Repr

/-- The rivers and islands of `CityMaps.newyork`. -/
def newyork : CityConfig ℚ where
  rivers := some [
    { width := 80, points := [⟨32/100, 0⟩, ⟨32/100, 2/10⟩, ⟨31/100, 4/10⟩,
        ⟨32/100, 6/10⟩, ⟨33/100, 8/10⟩, ⟨32/100, 1⟩] },
    { width := 60, points := [⟨68/100, 0⟩, ⟨68/100, 2/10⟩, ⟨67/100, 4/10⟩,
        ⟨68/100, 6/10⟩, ⟨69/100, 8/10⟩, ⟨68/100, 1⟩] },
    { width := 40, points := [⟨32/100, 15/100⟩, ⟨4/10, 12/100⟩, ⟨5/10, 1/10⟩,
        ⟨6/10, 8/100⟩, ⟨68/100, 1/10⟩] }]
  islands := some [
    { x := 5/10, y := 5/10, width := 32/100, height := 85/100, isLand := true },
    { x := 72/100, y := 4/10, width := 2/100, height := 15/100, isLand := true }]
  water := none
  initialBridges := 4
  bridgesPerWeek := 1
  spawnZones := some [
    { x := 2/100, y := 15/100, w := 25/100, h := 7/10 },
    { x := 36/100, y := 15/100, w := 28/100, h := 7/10 },
    { x := 72/100, y := 15/100, w := 25/100, h := 7/10 },
    { x := 36/100, y := 2/100, w := 28/100, h := 8/100 }]

/-- The city of the spec's scenario A: one horizontal river at `y = 0.5`, 80 px wide. -/
def riverCity : CityConfig ℚ where
  rivers := some [{ width := 80, points := [⟨0, 1/2⟩, ⟨1, 1/2⟩] }]
  islands := none
  water := none
  initialBridges := 3
  bridgesPerWeek := 1
  spawnZones := none

/-- The river and the bay of `CityMaps.osaka`, over any field. -/
def osaka (α : Type) [LinearOrderedField α] : CityConfig α where
  rivers := some [
    { width := 85, points := [⟨7/10, 0⟩, ⟨68/100, 15/100⟩, ⟨65/100, 3/10⟩, ⟨6/10, 45/100⟩,
        ⟨55/100, 6/10⟩, ⟨5/10, 75/100⟩, ⟨45/100, 9/10⟩, ⟨4/10, 1⟩] }]
  islands := none
  water := some { type := WaterType.bay, x := 0, y := 5/10, width := 35/100, height := 1 }
  initialBridges := 3
  bridgesPerWeek := 1
  spawnZones := some [
    { x := 4/10, y := 2/10, w := 25/100, h := 6/10 },
    { x := 72/100, y := 2/10, w := 25/100, h := 6/10 },
    { x := 1/10, y := 3/10, w := 2/10, h := 4/10 }]

/-- The rivers, spawn zones and bridge numbers of `CityMaps.berlin`. -/
def berlin : CityConfig ℚ where
  rivers := some [
    { width := 55, points := [⟨0, 4/10⟩, ⟨1/10, 38/100⟩, ⟨18/100, 4/10⟩, ⟨25/100, 44/100⟩,
        ⟨32/100, 46/100⟩, ⟨38/100, 44/100⟩, ⟨45/100, 4/10⟩, ⟨52/100, 38/100⟩,
        ⟨58/100, 4/10⟩, ⟨65/100, 44/100⟩, ⟨72/100, 48/100⟩, ⟨78/100, 5/10⟩,
        ⟨85/100, 48/100⟩, ⟨92/100, 45/100⟩, ⟨1, 43/100⟩] },
    { width := 35, points := [⟨35/100, 55/100⟩, ⟨42/100, 58/100⟩, ⟨5/10, 6/10⟩,
        ⟨58/100, 58/100⟩, ⟨65/100, 54/100⟩] }]
  islands := none
  water := none
  initialBridges := 2
  bridgesPerWeek := 1/2
  spawnZones := some [
    { x := 35/100, y := 5/100, w := 3/10, h := 3/10 },
    { x := 5/100, y := 2/10, w := 25/100, h := 25/100 },
    { x := 4/10, y := 65/100, w := 3/10, h := 3/10 },
    { x := 7/10, y := 25/100, w := 25/100, h := 2/10 }]

/-! ## game-realistic.js -/

namespace GameRealistic

/-- A station reference: the station's `id`, position and shape. These fields are set
once in `generateInitialStations` and never assigned again, and `id` is the slot index,
so the record identifies the station object (`===` is modelled by `=`). -/
structure Station (α : Type) where
  id : Nat
  x : α
  y : α
  shape : Shape
deriving DecidableEq, Repr

/-- A passenger object. -/
structure Passenger (α : Type) where
  id : Nat
  station : Nat
  targetShape : Shape
  waitTime : α
deriving DecidableEq, Repr

/-- An entry of `line.segments`; `from_`, `to_` are the fields `from`, `to`. -/
structure Segment (α : Type) where
  from_ : Station α
  to_ : Station α
  needsBridge : Bool
deriving DecidableEq, Repr

/-- An entry of `line.bridges`; `from_`, `to_` are the fields `from`, `to`. -/
structure Bridge (α : Type) where
  from_ : Station α
  to_ : Station α
deriving DecidableEq, Repr

/-- An entry of the game-wide `bridges` list (pushed by `onTouchEnd` only). -/
structure GameBridge (α : Type) where
  from_ : Station α
  to_ : Station α
  line : Nat
deriving DecidableEq, Repr

/-- A train. `line` is the index of its line in `lines`; `id` is absent on the trains
that `onTouchEnd` creates. -/
structure Train (α : Type) where
  id : Option Nat
  line : Nat
  position : α
  direction : Int
  speed : α
  passengers : List (Passenger α)
  capacity : Nat
deriving DecidableEq, Repr

/-- A line as `createInitialLines` builds it (the colour is left out). -/
structure Line (α : Type) where
  id : Nat
  stations : List (Station α)
  segments : List (Segment α)
  trains : List (Train α)
  bridges : List (Bridge α)
deriving DecidableEq, Repr

/-- The part of the `MiniMetro` object that the geometry and the line-editing handlers
read or write. `Ro` is `designTokens.Ro`, `touchDevice` is `'ontouchstart' in window`;
`drawingLine` refers to a line by its index in `lines`. `waiting` holds the queues
`station.passengers`, the queue of `stations[i]` at index `i`; `passengers` is the
game-wide passenger list, as the list of the passengers' `id`s (it only grows).
`overcrowding` holds `station.overcrowding` in the same way as `waiting`; the fields
`capacity` (6) and `maxOvercrowding` (8000) of a station are set when it is created and
never assigned again. -/
structure Game (α : Type) where
  canvasWidth : α
  canvasHeight : α
  Ro : α
  touchDevice : Bool
  cityConfig : Option (CityConfig α)
  paused : Bool
  gameOver : Bool
  stations : List (Station α)
  lines : List (Line α)
  trains : List (Train α)
  bridges : List (GameBridge α)
  availableTrains : Int
  availableBridges : Int
  drawingLine : Option Nat
  selectedStation : Option (Station α)
  lastTouchEnd : Int
  waiting : List (List (Passenger α))
  passengers : List Nat
  score : Int
  overcrowding : List α
  gameSpeed : α
  week : Nat
  day : Nat
  dayProgress : α
  dayDuration : α
  lastFrameTime : α
deriving DecidableEq, Repr

section Defs

variable {α : Type} [LinearOrderedField α]

/-- The river test of `isInWater` (250-260) for one river: some pair of consecutive
points has `dist * canvas.width < river.width / 2`. -/
def riverHit (relX relY canvasWidth : α) (river : River α) : Bool :=
  (consecutivePairs river.points).any fun p =>
    sqrtTimesLt (distSqToLineSegment relX relY p.1.x p.1.y p.2.x p.2.y)
      canvasWidth (river.width / 2)

/-- The bay test of `isInWater` (263-271). -/
def bayHit (relX relY : α) (water : Water α) : Bool :=
  water.type == WaterType.bay &&
    decide (relX ≥ water.x ∧ relX ≤ water.x + water.width ∧
      relY ≥ water.y ∧ relY ≤ water.y + water.height)

/-- The island test of `isInWater` (274-292) for one island. -/
def islandHit (relX relY canvasWidth canvasHeight : α) (island : Island α) : Bool :=
  island.isLand &&
    (let islandRelX := island.x
     let islandRelY := island.y
     let islandRelW := if island.width < 1 then island.width else island.width / canvasWidth
     let islandRelH :=
       if island.height < 1 then island.height else island.height / canvasHeight
     decide (relX ≥ islandRelX - islandRelW / 2 ∧ relX ≤ islandRelX + islandRelW / 2 ∧
       relY ≥ islandRelY - islandRelH / 2 ∧ relY ≤ islandRelY + islandRelH / 2))

/-- `isInWater(x, y)` (243-295): rivers first, then the bay, then the islands. -/
def isInWater (g : Game α) (x y : α) : Bool :=
  match g.cityConfig with
  | none => false
  | some cfg =>
    match cfg.rivers with
    | none => false
    | some rivers =>
      let relX := x / g.canvasWidth
      let relY := y / g.canvasHeight
      if rivers.any (riverHit relX relY g.canvasWidth) then true
      else if (match cfg.water with
        | some water => bayHit relX relY water
        | none => false) then true
      else if (match cfg.islands with
        | some islands => islands.any (islandHit relX relY g.canvasWidth g.canvasHeight)
        | none => false) then false
      else false

/-- The point `(x, y)` that `crossesWater` tests in iteration `i`, with `steps = 20`. -/
def samplePoint (x1 y1 x2 y2 : α) (i : Nat) : α × α :=
  let steps : α := 20
  let t : α := (i : α) / steps
  (x1 + (x2 - x1) * t, y1 + (y2 - y1) * t)

/-- The points that the loop `for (let i = 0; i <= steps; i++)` of `crossesWater` visits,
in order. -/
def samplePoints (x1 y1 x2 y2 : α) : List (α × α) :=
  (List.range (20 + 1)).map (samplePoint x1 y1 x2 y2)

/-- `crossesWater(x1, y1, x2, y2)` (773-784): true at the first sample in water. -/
def crossesWater (g : Game α) (x1 y1 x2 y2 : α) : Bool :=
  (samplePoints x1 y1 x2 y2).any fun p => isInWater g p.1 p.2

/-- `getStationAt(x, y)` (751-763): the first station within the touch radius. -/
def getStationAt (g : Game α) (x y : α) : Option (Station α) :=
  let touchRadius := if g.touchDevice then g.Ro + 25 else g.Ro + 5
  g.stations.find? fun station => hypotLt (station.x - x) (station.y - y) touchRadius

/-- `recalculateLineSegments(line)` (816-831). -/
def recalculateLineSegments (g : Game α) (line : Line α) : Line α :=
  { line with
    segments := (consecutivePairs line.stations).map fun p =>
      { from_ := p.1, to_ := p.2, needsBridge := crossesWater g p.1.x p.1.y p.2.x p.2.y } }

/-- `addTrainToLine(line)` (837-853) for the line at index `li`. -/
def addTrainToLine (g : Game α) (li : Nat) : Game α :=
  match g.lines[li]? with
  | none => g
  | some line =>
    if g.availableTrains > 0 then
      let train : Train α :=
        { id := some g.trains.length, line := li, position := 0, direction := 1,
          speed := 5 / 10000, passengers := [], capacity := 6 }
      { g with
        trains := g.trains ++ [train]
        lines := g.lines.set li { line with trains := line.trains ++ [train] }
        availableTrains := g.availableTrains - 1 }
    else g

/-- The test of `handleRightClick` for one line: it has at least 2 stations and the click
is closer than 10 px to one of its station-to-station connections. -/
def lineHit (g : Game α) (x y : α) (line : Line α) : Bool :=
  decide (¬ line.stations.length < 2) &&
    (consecutivePairs line.stations).any fun p =>
      sqrtTimesLt
        (distSqToLineSegment (x / g.canvasWidth) (y / g.canvasHeight)
          (p.1.x / g.canvasWidth) (p.1.y / g.canvasHeight)
          (p.2.x / g.canvasWidth) (p.2.y / g.canvasHeight))
        g.canvasWidth 10

/-- `handleRightClick(x, y)` (439-471): the first line hit is cleared (its stations and
segments emptied, its trains removed) and the handler returns. -/
def handleRightClick (g : Game α) (x y : α) : Game α :=
  match g.lines.findIdx? (lineHit g x y) with
  | none => g
  | some li =>
    match g.lines[li]? with
    | none => g
    | some line =>
      { g with
        lines := g.lines.set li { line with stations := [], segments := [], trains := [] }
        trains := g.trains.filter fun t => t.line ≠ li }

/-- `onMouseDown(e)` (399-432) with `button = e.button` and `(x, y)` the canvas
coordinates of the event. -/
def onMouseDown (g : Game α) (button : Nat) (x y : α) : Game α :=
  if g.paused || g.gameOver then g
  else
    match getStationAt g x y with
    | some station =>
      if button = 0 then
        match g.lines.findIdx? (fun l =>
            decide (l.stations.length > 0) && decide (l.stations.getLast? = some station)) with
        | some li => { g with drawingLine := some li, selectedStation := some station }
        | none =>
          match g.lines.findIdx? (fun l => decide (l.stations.length = 0)) with
          | some li =>
            match g.lines[li]? with
            | some emptyLine =>
              { g with
                drawingLine := some li
                selectedStation := some station
                lines := g.lines.set li { emptyLine with stations := [station] } }
            | none => g
          | none => g
      else if button = 2 then handleRightClick g x y
      else g
    | none => if button = 2 then handleRightClick g x y else g

/-- `onTouchStart(e)` (494-558) with the touch at canvas coordinates `(x, y)`. The
long-press timer it starts is not modelled: when it fires it is a later call of
`handleRightClick`. -/
def onTouchStart (g : Game α) (x y : α) : Game α :=
  if g.paused || g.gameOver then g
  else
    match getStationAt g x y with
    | none => g
    | some station =>
      match g.lines.findIdx? (fun l =>
          decide (l.stations.length > 0) &&
            (decide (l.stations.getLast? = some station) ||
              decide (l.stations.head? = some station))) with
      | some li => { g with drawingLine := some li, selectedStation := some station }
      | none =>
        match g.lines.findIdx? (fun l => decide (l.stations.length = 0)) with
        | some li =>
          match g.lines[li]? with
          | some emptyLine =>
            { g with
              drawingLine := some li
              selectedStation := some station
              lines := g.lines.set li
                { emptyLine with
                  stations :=
                    if ¬ station ∈ emptyLine.stations then emptyLine.stations ++ [station]
                    else emptyLine.stations } }
          | none => g
        | none => g

/-- The last four assignments of `onMouseUp` and `onTouchEnd`: the drawing state is
cleared (`tempMouseX`, `tempMouseY` are not modelled). -/
def clearDrawing (g : Game α) : Game α :=
  { g with drawingLine := none, selectedStation := none }

/-- `onMouseUp(e)` (701-743) released at canvas coordinates `(x, y)`. The result is `none`
when the JavaScript throws (`lastStation` is `undefined` because the drawn line has no
station) or when `drawingLine` refers to no line. -/
def onMouseUp (g : Game α) (x y : α) : Option (Game α) :=
  match g.drawingLine with
  | none => some g
  | some li =>
    match g.lines[li]? with
    | none => none
    | some drawingLine =>
      let otherwise : Game α :=
        if drawingLine.stations.length = 1 then
          { g with lines := g.lines.set li { drawingLine with stations := [] } }
        else g
      match getStationAt g x y with
      | none => some (clearDrawing otherwise)
      | some station =>
        if some station ≠ g.selectedStation ∧ ¬ station ∈ drawingLine.stations then
          match drawingLine.stations.getLast? with
          | none => none
          | some lastStation =>
            let needsBridge := crossesWater g lastStation.x lastStation.y station.x station.y
            if needsBridge && decide (g.availableBridges ≤ 0) then
              some (clearDrawing g)
            else
              let availableBridges :=
                if needsBridge then g.availableBridges - 1 else g.availableBridges
              let bridges :=
                if needsBridge then
                  drawingLine.bridges ++ [{ from_ := lastStation, to_ := station }]
                else drawingLine.bridges
              let line := recalculateLineSegments g
                { drawingLine with
                  bridges := bridges
                  stations := drawingLine.stations ++ [station] }
              let g1 : Game α :=
                { g with availableBridges := availableBridges, lines := g.lines.set li line }
              let g2 :=
                if line.stations.length ≥ 2 ∧ line.trains.length = 0 then addTrainToLine g1 li
                else g1
              some (clearDrawing g2)
        else some (clearDrawing otherwise)

/-- `onTouchEnd(e)` (591-695) at time `now = Date.now()` with the touch released at canvas
coordinates `(x, y)`. Timers and touch tracking are not modelled. The result is `none`
when the JavaScript throws (`selectedStation` is `null`) or when `drawingLine` refers to
no line. -/
def onTouchEnd (g : Game α) (now : Int) (x y : α) : Option (Game α) :=
  let tapGap := now - g.lastTouchEnd
  let g0 := if tapGap < 300 ∧ tapGap > 0 then handleRightClick g x y else g
  let g0 : Game α := { g0 with lastTouchEnd := now }
  match g0.drawingLine with
  | none => some g0
  | some li =>
    match g0.lines[li]? with
    | none => none
    | some drawingLine =>
      match getStationAt g0 x y with
      | none => some (clearDrawing g0)
      | some station =>
        if some station ≠ g0.selectedStation then
          match g0.selectedStation with
          | none => none
          | some selectedStation =>
            let needsBridge :=
              crossesWater g0 selectedStation.x selectedStation.y station.x station.y
            if needsBridge && decide (¬ g0.availableBridges > 0) then
              some (clearDrawing g0)
            else
              let availableBridges :=
                if needsBridge then g0.availableBridges - 1 else g0.availableBridges
              let gameBridges :=
                if needsBridge then
                  g0.bridges ++ [{ from_ := selectedStation, to_ := station, line := li }]
                else g0.bridges
              let lineBridges :=
                if needsBridge then
                  drawingLine.bridges ++ [{ from_ := selectedStation, to_ := station }]
                else drawingLine.bridges
              let stations :=
                if ¬ station ∈ drawingLine.stations then
                  if drawingLine.stations.head? = some selectedStation then
                    station :: drawingLine.stations
                  else drawingLine.stations ++ [station]
                else drawingLine.stations
              let addTrain : Bool :=
                decide (stations.length = 2) && decide (drawingLine.trains.length = 0)
              let train : Train α :=
                { id := none, line := li, position := 0, direction := 1,
                  speed := 3 / 10000, capacity := 6, passengers := [] }
              let line : Line α :=
                { drawingLine with
                  bridges := lineBridges
                  stations := stations
                  trains := if addTrain then drawingLine.trains ++ [train]
                    else drawingLine.trains }
              some (clearDrawing
                { g0 with
                  availableBridges := availableBridges
                  bridges := gameBridges
                  lines := g0.lines.set li line
                  trains := if addTrain then g0.trains ++ [train] else g0.trains })
        else some (clearDrawing g0)

end Defs

/-! ### The water test with rounding -/

namespace Rounded

section Defs

variable {α : Type} [LinearOrderedField α]

/-- `distanceToLineSegment(px, py, x1, y1, x2, y2)` (game-realistic.js 307-335) with the
arithmetic `F`. -/
def distanceToLineSegment (F : JsArith α) (px py x1 y1 x2 y2 : α) : α :=
  let A := F.sub px x1
  let B := F.sub py y1
  let C := F.sub x2 x1
  let D := F.sub y2 y1
  let dot := F.add (F.mul A C) (F.mul B D)
  let lenSq := F.add (F.mul C C) (F.mul D D)
  let param : α := if lenSq ≠ 0 then F.div dot lenSq else -1
  let p : α × α :=
    if param < 0 then (x1, y1)
    else if param > 1 then (x2, y2)
    else (F.add x1 (F.mul param C), F.add y1 (F.mul param D))
  let dx := F.sub px p.1
  let dy := F.sub py p.2
  F.sqrt (F.add (F.mul dx dx) (F.mul dy dy))

/-- The river test of `isInWater` (250-260) for one river with the arithmetic `F`: some
pair of consecutive points has `dist * canvas.width < river.width / 2`. -/
def riverHit (F : JsArith α) (relX relY canvasWidth : α) (river : River α) : Bool :=
  (consecutivePairs river.points).any fun p =>
    decide (F.mul (distanceToLineSegment F relX relY p.1.x p.1.y p.2.x p.2.y) canvasWidth
      < F.div river.width 2)

/-- The bay test of `isInWater` (263-271) with the arithmetic `F`. -/
def bayHit (F : JsArith α) (relX relY : α) (water : Water α) : Bool :=
  water.type == WaterType.bay &&
    decide (relX ≥ water.x ∧ relX ≤ F.add water.x water.width ∧
      relY ≥ water.y ∧ relY ≤ F.add water.y water.height)

/-- The island test of `isInWater` (274-292) for one island with the arithmetic `F`. -/
def islandHit (F : JsArith α) (relX relY canvasWidth canvasHeight : α) (island : Island α) :
    Bool :=
  island.isLand &&
    (let islandRelX := island.x
     let islandRelY := island.y
     let islandRelW :=
       if island.width < 1 then island.width else F.div island.width canvasWidth
     let islandRelH :=
       if island.height < 1 then island.height else F.div island.height canvasHeight
     decide (relX ≥ F.sub islandRelX (F.div islandRelW 2)
       ∧ relX ≤ F.add islandRelX (F.div islandRelW 2)
       ∧ relY ≥ F.sub islandRelY (F.div islandRelH 2)
       ∧ relY ≤ F.add islandRelY (F.div islandRelH 2)))

/-- `isInWater(x, y)` (243-295) with the arithmetic `F`: rivers first, then the bay, then
the islands. The numbers of the game and of the city config are used as they are. -/
def isInWater (F : JsArith α) (g : Game α) (x y : α) : Bool :=
  match g.cityConfig with
  | none => false
  | some cfg =>
    match cfg.rivers with
    | none => false
    | some rivers =>
      let relX := F.div x g.canvasWidth
      let relY := F.div y g.canvasHeight
      if rivers.any (riverHit F relX relY g.canvasWidth) then true
      else if (match cfg.water with
        | some water => bayHit F relX relY water
        | none => false) then true
      else if (match cfg.islands with
        | some islands => islands.any (islandHit F relX relY g.canvasWidth g.canvasHeight)
        | none => false) then false
      else false

end Defs

end Rounded

section Simulation

variable {α : Type} [LinearOrderedField α] [FloorRing α]

/-- The JavaScript remainder `x % 1`: it has the sign of `x`. -/
def mod1 (x : α) : α :=
  if 0 ≤ x then x - (⌊x⌋ : α) else x - (⌈x⌉ : α)

/-- `spawnPassenger()` (game-realistic.js 1325-1345); `r1` and `r2` are the values of the
two calls of `Math.random()`, numbers in `[0, 1)`. -/
def spawnPassenger (g : Game α) (r1 r2 : α) : Game α :=
  if g.stations.length < 2 then g
  else
    let stationIndex := ⌊r1 * (g.stations.length : α)⌋₊
    match g.stations[stationIndex]? with
    | none => g
    | some _ =>
      let targetShapes := (g.stations.eraseIdx stationIndex).map fun s => s.shape
      if targetShapes.length > 0 then
        match targetShapes[⌊r2 * (targetShapes.length : α)⌋₊]? with
        | none => g
        | some targetShape =>
          let passenger : Passenger α :=
            { id := g.passengers.length, station := stationIndex, targetShape := targetShape,
              waitTime := 0 }
          { g with
            waiting := g.waiting.set stationIndex
              ((g.waiting.getD stationIndex []) ++ [passenger])
            passengers := g.passengers ++ [passenger.id] }
      else g

/-- The callback of `station.passengers.filter` in `updateTrains` (1377-1386), run over the
queue from its front: a passenger whose target shape is on the line boards while
`train.passengers.length + boarding.length < train.capacity`. The result is (passengers
kept at the station, `boarding`). -/
def boardLoop (onLine : Passenger α → Bool) (capacity onTrain : Nat) :
    List (Passenger α) → List (Passenger α) → List (Passenger α) × List (Passenger α)
  | [], boarding => ([], boarding)
  | p :: rest, boarding =>
    if onLine p && decide (onTrain + boarding.length < capacity) then
      boardLoop onLine capacity onTrain rest (boarding ++ [p])
    else
      let r := boardLoop onLine capacity onTrain rest boarding
      (p :: r.1, r.2)

/-- The body of the loop of `updateTrains` (game-realistic.js 1352-1399) for the train at
index `ti`. The second component is true when the JavaScript throws a `TypeError`
(`station` is `undefined` and `station.shape` or `station.passengers` is read); the state
is then the one at the throw. -/
def updateTrain (deltaTime : α) (g : Game α) (ti : Nat) : Game α × Bool :=
  match g.trains[ti]? with
  | none => (g, false)
  | some train =>
    match g.lines[train.line]? with
    | none => (g, false)
    | some line =>
      if line.stations.length < 2 then (g, false)
      else
        let position := train.position + (train.direction : α) * train.speed * deltaTime
        let scaled := position * ((line.stations.length : α) - 1)
        let stationIndex : Int := ⌊scaled⌋
        let positionAtStation : Bool := decide (mod1 scaled < 5 / 100)
        let atEnds (t : Train α) : Train α :=
          if t.position ≥ 1 then { t with position := 1, direction := -1 }
          else if t.position ≤ 0 then { t with position := 0, direction := 1 }
          else t
        let moved : Train α := { train with position := position }
        if positionAtStation then
          match (if 0 ≤ stationIndex then line.stations[stationIndex.toNat]? else none) with
          | none =>
            if train.passengers.length > 0 ∨ train.passengers.length < train.capacity then
              ({ g with trains := g.trains.set ti moved }, true)
            else ({ g with trains := g.trains.set ti (atEnds moved) }, false)
          | some station =>
            let kept := train.passengers.filter fun p => decide (¬ p.targetShape = station.shape)
            let delivered := train.passengers.filter fun p => decide (p.targetShape = station.shape)
            let score := g.score + (delivered.length : Int)
            if kept.length < train.capacity then
              let k := g.stations.indexOf station
              let r := boardLoop
                (fun p => line.stations.any fun s => decide (s.shape = p.targetShape))
                train.capacity kept.length (g.waiting.getD k []) []
              ({ g with
                  score := score
                  waiting := g.waiting.set k r.1
                  trains := g.trains.set ti (atEnds { moved with passengers := kept ++ r.2 }) },
                false)
            else
              ({ g with
                  score := score
                  trains := g.trains.set ti (atEnds { moved with passengers := kept }) },
                false)
        else ({ g with trains := g.trains.set ti (atEnds moved) }, false)

/-- The loop `for (let train of this.trains)` of `updateTrains` over the remaining train
indices; it ends at the first throw. -/
def updateTrainsFrom (deltaTime : α) : List Nat → Game α → Game α × Bool
  | [], g => (g, false)
  | ti :: rest, g =>
    let r := updateTrain deltaTime g ti
    if r.2 then r else updateTrainsFrom deltaTime rest r.1

/-- `updateTrains(deltaTime)` (game-realistic.js 1351-1401): the state after the call and
whether the call threw. -/
def updateTrains (g : Game α) (deltaTime : α) : Game α × Bool :=
  updateTrainsFrom deltaTime (List.range g.trains.length) g

end Simulation

section Clock

variable {α : Type} [LinearOrderedField α] [FloorRing α]

/-- `updatePassengers(deltaTime)` (game-realistic.js 1407-1418): the loop body for the
station at index `i`; `endGame()` sets `gameOver` (its DOM updates are not modelled). -/
def updatePassengersAt (deltaTime : α) (g : Game α) (i : Nat) : Game α :=
  if (g.waiting.getD i []).length > 6 then
    let overcrowding := g.overcrowding.getD i 0 + deltaTime
    let g1 : Game α := { g with overcrowding := g.overcrowding.set i overcrowding }
    if overcrowding ≥ 8000 then { g1 with gameOver := true } else g1
  else
    { g with overcrowding := g.overcrowding.set i (max 0 (g.overcrowding.getD i 0 - deltaTime)) }

/-- `updatePassengers(deltaTime)` (game-realistic.js 1407-1418). -/
def updatePassengers (g : Game α) (deltaTime : α) : Game α :=
  (List.range g.stations.length).foldl (updatePassengersAt deltaTime) g

/-- `calculateSpawnRate()` (game-realistic.js 1453-1466). -/
def calculateSpawnRate (g : Game α) : α :=
  let rate : α := 3 / 10 + (g.week : α) * (1 / 10)
  let timeProgress := g.dayProgress / g.dayDuration
  let currentHour := 6 + 16 * timeProgress
  let rate :=
    if (currentHour ≥ 7 ∧ currentHour ≤ 9) ∨ (currentHour ≥ 17 ∧ currentHour ≤ 19) then
      rate * (3 / 2)
    else rate
  min rate 2

/-- `updateGameTime(deltaTime)` (game-realistic.js 1424-1447); `r0` is the value of
`Math.random()` in the spawn test, `r1`, `r2` are the values that `spawnPassenger` draws.
The second component is true when the call throws a `TypeError` (`cityConfig` is `null`
when `bridgesPerWeek` is read); the state is then the one at the throw. -/
def updateGameTime (g : Game α) (deltaTime r0 r1 r2 : α) : Game α × Bool :=
  if g.paused || g.gameOver then (g, false)
  else
    let dayProgress := g.dayProgress + deltaTime * g.gameSpeed
    let rolled : Game α × Bool :=
      if dayProgress ≥ g.dayDuration then
        if g.day + 1 > 7 then
          let g1 : Game α := { g with dayProgress := 0, day := 1, week := g.week + 1 }
          match g.cityConfig with
          | none => (g1, true)
          | some cfg =>
            let bridgesPerWeek : α := if cfg.bridgesPerWeek = 0 then 1 else cfg.bridgesPerWeek
            ({ g1 with availableBridges := g.availableBridges + ⌊bridgesPerWeek⌋ }, false)
        else ({ g with dayProgress := 0, day := g.day + 1 }, false)
      else ({ g with dayProgress := dayProgress }, false)
    if rolled.2 then rolled
    else if r0 < calculateSpawnRate rolled.1 * deltaTime / 1000 then
      (spawnPassenger rolled.1 r1 r2, false)
    else rolled

/-- `cycleSpeed()` (game-realistic.js 1490-1498). -/
def cycleSpeed (g : Game α) : Game α :=
  if g.gameSpeed = 1 then { g with gameSpeed := 2 }
  else if g.gameSpeed = 2 then { g with gameSpeed := 0 }
  else { g with gameSpeed := 1 }

/-- `gameLoop(currentTime)` (game-realistic.js 1559-1571) up to `render()`, which reads the
state only. The second component is true when one of the updates throws; the loop then
ends there (no later update, no `requestAnimationFrame`). -/
def gameLoop (g : Game α) (currentTime r0 r1 r2 : α) : Game α × Bool :=
  let deltaTime := currentTime - g.lastFrameTime
  let g0 : Game α := { g with lastFrameTime := currentTime }
  if !g0.paused && !g0.gameOver && decide (deltaTime < 100) then
    let a := updateGameTime g0 deltaTime r0 r1 r2
    if a.2 then a
    else
      let b := updateTrains a.1 deltaTime
      if b.2 then b else (updatePassengers b.1 deltaTime, false)
  else (g0, false)

/-- The games after each of the frames at the times `times` (with the same draws in every
frame), while no frame throws. -/
def frames (r0 r1 r2 : α) : List α → Game α → Game α × Bool
  | [], g => (g, false)
  | currentTime :: rest, g =>
    let r := gameLoop g currentTime r0 r1 r2
    if r.2 then r else frames r0 r1 r2 rest r.1

end Clock

section Generation

variable {α : Type} [LinearOrderedField α] [FloorRing α]

/-- `isValidStationPosition(x, y, minDistance)` (game-realistic.js 343-351). -/
def isValidStationPosition (g : Game α) (x y minDistance : α) : Bool :=
  g.stations.all fun station => !hypotLt (station.x - x) (station.y - y) minDistance

/-- The list `this.stationShapes` (game-realistic.js 100). -/
def stationShapes : List Shape := [Shape.circle, Shape.triangle, Shape.square]

/-- The list `this.rareShapes` (game-realistic.js 102). -/
def rareShapes : List Shape :=
  [Shape.diamond, Shape.cross, Shape.star, Shape.pentagon, Shape.fan]

/-- The loop `while (!placed && attempts < 100)` of `generateInitialStations`
(game-realistic.js 200-233) for slot `i`. The first argument is `100 - attempts`;
`rand k` is the value of the `k`-th call of `Math.random()` and `cursor` the number of
calls made so far. The result is the game, the number of attempts made and the cursor at
the end of the loop, or `none` when the zone or the shape picked is `undefined` (a draw
outside `[0, 1)`, or an empty zone list, where reading `zone.x` throws). -/
def placeStation (isMobile : Bool) (minDistance : α) (spawnZones : List (SpawnZone α))
    (i : Nat) (rand : Nat → α) : Nat → Game α → Nat → Nat → Option (Game α × Nat × Nat)
  | 0, g, attempts, cursor => some (g, attempts, cursor)
  | remaining + 1, g, attempts, cursor =>
    match spawnZones[⌊rand cursor * (spawnZones.length : α)⌋₊]? with
    | none => none
    | some zone =>
      let x0 := (zone.x + rand (cursor + 1) * zone.w) * g.canvasWidth
      let y0 := (zone.y + rand (cursor + 2) * zone.h) * g.canvasHeight
      let x := if isMobile then max 40 (min x0 (g.canvasWidth - 40)) else x0
      let y := if isMobile then max (40 + 60) (min y0 (g.canvasHeight - 40 - 60)) else y0
      if !isInWater g x y && isValidStationPosition g x y minDistance then
        let shapes := if i < 3 then stationShapes else stationShapes ++ rareShapes
        match shapes[⌊rand (cursor + 3) * (shapes.length : α)⌋₊]? with
        | none => none
        | some shape =>
          some
            ({ g with
                stations := g.stations ++ [{ id := i, x := x, y := y, shape := shape }]
                waiting := g.waiting ++ [[]]
                overcrowding := g.overcrowding ++ [0] },
              attempts + 1, cursor + 4)
      else
        placeStation isMobile minDistance spawnZones i rand remaining g (attempts + 1)
          (cursor + 3)

/-- The loop `for (let i = 0; i < stationCount; i++)` of `generateInitialStations` over the
remaining slots: the game, the attempts made for each slot and the cursor. -/
def placeStations (isMobile : Bool) (minDistance : α) (spawnZones : List (SpawnZone α))
    (rand : Nat → α) : List Nat → Game α → Nat → Option (Game α × List Nat × Nat)
  | [], g, cursor => some (g, [], cursor)
  | i :: rest, g, cursor =>
    match placeStation isMobile minDistance spawnZones i rand 100 g 0 cursor with
    | none => none
    | some r =>
      match placeStations isMobile minDistance spawnZones rand rest r.1 r.2.2 with
      | none => none
      | some rs => some (rs.1, r.2.1 :: rs.2.1, rs.2.2)

/-- `generateInitialStations()` (game-realistic.js 185-235); `isMobile` is
`window.innerWidth < 768`. The result is the game and the number of attempts made for
each of the slots, or `none` when the call throws or picks an `undefined` shape. -/
def generateInitialStations (g : Game α) (isMobile : Bool) (rand : Nat → α) :
    Option (Game α × List Nat) :=
  let minDistance : α := if isMobile then 200 else 120
  let stationCount : Nat := if isMobile then 3 else 6
  match g.cityConfig with
  | none => none
  | some cfg =>
    let spawnZones : List (SpawnZone α) :=
      match cfg.spawnZones with
      | some zones => zones
      | none =>
        if isMobile then [{ x := 1 / 10, y := 18 / 100, w := 8 / 10, h := 6 / 10 }]
        else [{ x := 1 / 10, y := 1 / 10, w := 8 / 10, h := 8 / 10 }]
    (placeStations isMobile minDistance spawnZones rand (List.range stationCount)
      { g with stations := [], waiting := [], overcrowding := [] } 0).map
      fun r => (r.1, r.2.1)

end Generation

/-- What station generation keeps and establishes for a list of stations: no station is
in water and every two are at squared distance at least `minDistance` squared. -/
def WellPlaced {α : Type} [LinearOrderedField α] (g : Game α) (minDistance : α)
    (stations : List (Station α)) : Prop :=
  (∀ s ∈ stations, isInWater g s.x s.y = false)
  ∧ stations.Pairwise fun s t =>
      minDistance * minDistance ≤ (s.x - t.x) * (s.x - t.x) + (s.y - t.y) * (s.y - t.y)

/-- The number of passengers waiting in station queues. -/
def waitingCount {α : Type} (g : Game α) : Int :=
  ((g.waiting.map fun q => q.length).sum : Nat)

/-- The number of passengers on board the trains of the game. -/
def onBoardCount {α : Type} (g : Game α) : Int :=
  ((g.trains.map fun t => t.passengers.length).sum : Nat)

/-- The left side of the conservation law of the spec: waiting + on board + delivered. -/
def accounted {α : Type} (g : Game α) : Int :=
  waitingCount g + onBoardCount g + g.score

/-- The number of passengers spawned so far: `this.passengers.length` (the list only
grows). -/
def spawned {α : Type} (g : Game α) : Int :=
  (g.passengers.length : Nat)

/-- The number of passengers on board the trains of `g` that are not trains of `g2`. -/
def lostOnBoard {α : Type} [DecidableEq α] (g g2 : Game α) : Int :=
  (((g.trains.filter fun t => decide (t ∉ g2.trains)).map fun t =>
    t.passengers.length).sum : Nat)


/-! ### Concrete games -/

/-- The lines that `createInitialLines` builds for `availableLines = 3`. -/
def initialLines : List (Line ℚ) :=
  [{ id := 0, stations := [], segments := [], trains := [], bridges := [] },
   { id := 1, stations := [], segments := [], trains := [], bridges := [] },
   { id := 2, stations := [], segments := [], trains := [], bridges := [] }]

/-- Station 0 at `(100, 100)`, north of the river of `riverCity`. -/
def stationA : Station ℚ := { id := 0, x := 100, y := 100, shape := Shape.circle }

/-- Station 1 at `(900, 900)`, south of the river of `riverCity`. -/
def stationB : Station ℚ := { id := 1, x := 900, y := 900, shape := Shape.square }

/-- Station 2 at `(900, 100)`, north of the river of `riverCity`. -/
def stationC : Station ℚ := { id := 2, x := 900, y := 100, shape := Shape.triangle }

/-- A fresh desktop game on a 1000 x 1000 canvas in `riverCity` with the three stations
above and `availableBridges` bridges. -/
def riverGame (availableBridges : Int) : Game ℚ where
  canvasWidth := 1000
  canvasHeight := 1000
  Ro := 24
  touchDevice := false
  cityConfig := some riverCity
  paused := false
  gameOver := false
  stations := [stationA, stationB, stationC]
  lines := initialLines
  trains := []
  bridges := []
  availableTrains := 3
  availableBridges := availableBridges
  drawingLine := none
  selectedStation := none
  lastTouchEnd := 0
  waiting := [[], [], []]
  passengers := []
  score := 0
  overcrowding := [0, 0, 0]
  gameSpeed := 1
  week := 1
  day := 1
  dayProgress := 0
  dayDuration := 20000
  lastFrameTime := 0

/-- A desktop game on a 1000 x 1000 canvas in New York (no stations are needed for the
water test). -/
def newyorkGame : Game ℚ where
  canvasWidth := 1000
  canvasHeight := 1000
  Ro := 24
  touchDevice := false
  cityConfig := some newyork
  paused := false
  gameOver := false
  stations := []
  lines := initialLines
  trains := []
  bridges := []
  availableTrains := 3
  availableBridges := 4
  drawingLine := none
  selectedStation := none
  lastTouchEnd := 0
  waiting := []
  passengers := []
  score := 0
  overcrowding := []
  gameSpeed := 1
  week := 1
  day := 1
  dayProgress := 0
  dayDuration := 20000
  lastFrameTime := 0

/-- A desktop game on a 1000 x 1000 canvas in Osaka, over any field. -/
def osakaGame (α : Type) [LinearOrderedField α] : Game α where
  canvasWidth := 1000
  canvasHeight := 1000
  Ro := 24
  touchDevice := false
  cityConfig := some (osaka α)
  paused := false
  gameOver := false
  stations := []
  lines := []
  trains := []
  bridges := []
  availableTrains := 3
  availableBridges := 3
  drawingLine := none
  selectedStation := none
  lastTouchEnd := 0
  waiting := []
  passengers := []
  score := 0
  overcrowding := []
  gameSpeed := 1
  week := 1
  day := 1
  dayProgress := 0
  dayDuration := 20000
  lastFrameTime := 0

/-- The invariant of the spec for one line:
`segments.length == max(0, stations.length - 1)`. -/
def segmentsInSync {α : Type} (line : Line α) : Prop :=
  (line.segments.length : Int) = max 0 ((line.stations.length : Int) - 1)

instance {α : Type} (line : Line α) : Decidable (segmentsInSync line) := by
  unfold segmentsInSync; infer_instance

/-- The segments of `line` that join the two stations of the bridge record `b` (in
either direction) and are marked `needsBridge`. -/
def bridgeSegments {α : Type} [DecidableEq α] (line : Line α) (b : Bridge α) :
    List (Segment α) :=
  line.segments.filter fun s =>
    s.needsBridge &&
      (decide (s.from_ = b.from_ ∧ s.to_ = b.to_) || decide (s.from_ = b.to_ ∧ s.to_ = b.from_))

/-- The invariant of the spec for one line: every bridge record corresponds to exactly
one segment of the line marked `needsBridge`. -/
def bridgesMatchSegments {α : Type} [DecidableEq α] (line : Line α) : Prop :=
  ∀ b ∈ line.bridges, (bridgeSegments line b).length = 1

instance {α : Type} [DecidableEq α] (line : Line α) : Decidable (bridgesMatchSegments line) := by
  unfold bridgesMatchSegments; infer_instance

/-- The fresh river game after a line was drawn with the mouse from station 0 at
`(100, 100)` to station 2 at `(900, 100)`; both are north of the river. -/
def lineAC : Game ℚ :=
  (onMouseUp (onMouseDown (riverGame 3) 0 100 100) 900 100).getD (riverGame 3)

/-- The game `lineAC` after a passenger for the shape of station 2 was spawned at station 0
(random draws `0` and `1/2`) and one frame of 16 ms moved the train. -/
def boardedGame : Game ℚ :=
  (updateTrains (spawnPassenger lineAC 0 (1 / 2)) 16).1

/-- The game `lineAC` with the speed control at 0 (second press of `cycleSpeed`). -/
def stillGame : Game ℚ := { lineAC with gameSpeed := 0 }

/-- A fresh game in Berlin (2 bridges) on the last day of week 1, 10 ms before the end of
the day. -/
def berlinGame : Game ℚ :=
  { riverGame 2 with cityConfig := some berlin, day := 7, dayProgress := 19990 }

/-- The times of `n` frames that are `deltaTime` apart, the first one at `deltaTime`. -/
def frameTimes (n : Nat) (deltaTime : ℚ) : List ℚ :=
  (List.range n).map fun k => ((k : ℚ) + 1) * deltaTime

/-- The game `lineAC` after 267 frames of 15 ms without a spawn: the train has been to the
end of the line and is on its way back. -/
def returningGame : Game ℚ := (frames (99 / 100) 0 0 (frameTimes 267 15) lineAC).1

/-- A sequence of draws in `[0, 1)`. -/
def sampleDraws (k : Nat) : ℚ := (((k * 37 + 11) % 100 : Nat) : ℚ) / 100

end GameRealistic

/-! ## game.js -/

namespace GameJs

/-- A passenger object; `station` refers to the origin station. `ref` is not a field of
the source: it is the identity of the object (passenger number `ref` created in this
game), needed because `id` is `this.passengers.length` at creation and can repeat after
deliveries. `boardingAnimation` is absent (here `false`) until `loadPassengers` sets it. -/
structure Passenger (α : Type) where
  id : Nat
  station : Nat
  targetShape : Shape
  waitTime : α
  ref : Nat
  boardingAnimation : Bool
deriving DecidableEq, Repr

/-- A station object as `generateInitialStations` (game.js 193-203) builds it. -/
structure Station (α : Type) where
  id : Nat
  x : α
  y : α
  shape : Shape
  passengers : List (Passenger α)
  capacity : Nat
  isInterchange : Bool
  overcrowding : α
  maxOvercrowding : α
deriving DecidableEq, Repr

/-- An entry of `line.segments` (game.js 479-483): `from_` is the position of the station
object `from` (positions are never reassigned), `to_` is `adjustedTo`. -/
structure Segment (α : Type) where
  from_ : Point α
  to_ : Point α
  angle : α
deriving DecidableEq, Repr

/-- The `state` of a train: `'moving'` or `'stopped'`. -/
inductive TrainState where
  | moving | stopped
deriving DecidableEq, Repr

/-- A train as `addTrainToLine` (game.js 489-501) builds it. `line` refers to its line by
the line's index in `lines`. -/
structure Train (α : Type) where
  id : Nat
  line : Nat
  position : α
  currentSegment : Nat
  direction : Int
  speed : α
  capacity : Nat
  passengers : List (Passenger α)
  carriages : Nat
  state : TrainState
  stationStopTime : α
deriving DecidableEq, Repr

/-- A line as `createInitialLines` (game.js 273-279) builds it, without its colour.
`stations` refers to station objects by their index in the game's `stations`, `trains`
to train objects by their index in the game's `trains` (neither list ever shrinks during
a game). -/
structure Line (α : Type) where
  id : Nat
  stations : List Nat
  trains : List Nat
  segments : List (Segment α)
deriving DecidableEq, Repr

/-- The value of `draggedHandle`: `{ line, isStart }`. -/
structure Handle where
  line : Nat
  isStart : Bool
deriving DecidableEq, Repr

/-- The part of the game object that the simulation and the mouse handlers read or
write. `passengers` is the game-wide passenger list, as a list of passenger identities
(`Passenger.ref`); `nextRef` counts the passenger objects created so far; `Ro` is
`designTokens.Ro`. -/
structure Game (α : Type) where
  stations : List (Station α)
  gameOver : Bool
  paused : Bool
  Ro : α
  lines : List (Line α)
  trains : List (Train α)
  passengers : List Nat
  nextRef : Nat
  score : Int
  availableTrains : Int
  draggedHandle : Option Handle
  availableLines : Int
  availableCarriages : Int
  availableBridges : Int
  availableInterchanges : Int
  gameSpeed : α
  week : Nat
  day : Nat
  dayProgress : α
  dayDuration : α
  timeOfDay : α
  lastFrameTime : α
deriving DecidableEq, Repr

section Defs

variable {α : Type} [LinearOrderedField α]

/-- The body of the loop of `updatePassengers` (game.js 641-655) for one station: the new
station and the new value of `gameOver` (`endGame()` sets it; its DOM updates are not
modelled). -/
def updateStation (deltaTime : α) (station : Station α) (gameOver : Bool) :
    Station α × Bool :=
  let r : α × Bool :=
    if station.passengers.length > station.capacity then
      let overcrowding := station.overcrowding + deltaTime
      if overcrowding ≥ station.maxOvercrowding ∧ ¬ gameOver = true then (overcrowding, true)
      else (overcrowding, gameOver)
    else (max 0 (station.overcrowding - deltaTime), gameOver)
  ({ station with
      overcrowding := r.1
      passengers := station.passengers.map fun passenger =>
        { passenger with waitTime := passenger.waitTime + deltaTime } },
    r.2)

/-- The test of the loop body for one station that decides whether the game is over
after it: the queue exceeds the capacity and the increased overcrowding is at least
`maxOvercrowding` (then `endGame()` is called unless `gameOver` is set already). -/
def reachesMax (deltaTime : α) (station : Station α) : Bool :=
  decide (station.passengers.length > station.capacity ∧
    station.overcrowding + deltaTime ≥ station.maxOvercrowding)

/-- The loop `for (let station of this.stations)` of `updatePassengers`, threading
`gameOver` from station to station. -/
def updatePassengersLoop (deltaTime : α) : List (Station α) → Bool → List (Station α) × Bool
  | [], gameOver => ([], gameOver)
  | station :: rest, gameOver =>
    let r := updateStation deltaTime station gameOver
    let rs := updatePassengersLoop deltaTime rest r.2
    (r.1 :: rs.1, rs.2)

/-- `updatePassengers(deltaTime)` (game.js 640-656). -/
def updatePassengers (g : Game α) (deltaTime : α) : Game α :=
  let r := updatePassengersLoop deltaTime g.stations g.gameOver
  { g with stations := r.1, gameOver := r.2 }

end Defs

/-! ### `updatePassengers` with rounding -/

namespace Rounded

section Defs

variable {α : Type} [LinearOrderedField α]

/-- The body of the loop of `updatePassengers` (game.js 641-655) for one station with the
arithmetic `F`: the new station and the new value of `gameOver`. -/
def updateStation (F : JsArith α) (deltaTime : α) (station : Station α) (gameOver : Bool) :
    Station α × Bool :=
  let r : α × Bool :=
    if station.passengers.length > station.capacity then
      let overcrowding := F.add station.overcrowding deltaTime
      if overcrowding ≥ station.maxOvercrowding ∧ ¬ gameOver = true then (overcrowding, true)
      else (overcrowding, gameOver)
    else (max 0 (F.sub station.overcrowding deltaTime), gameOver)
  ({ station with
      overcrowding := r.1
      passengers := station.passengers.map fun passenger =>
        { passenger with waitTime := F.add passenger.waitTime deltaTime } },
    r.2)

/-- The test of the loop body for one station that decides whether the game is over
after it, with the arithmetic `F`: the queue exceeds the capacity and the increased
overcrowding is at least `maxOvercrowding`. -/
def reachesMax (F : JsArith α) (deltaTime : α) (station : Station α) : Bool :=
  decide (station.passengers.length > station.capacity ∧
    F.add station.overcrowding deltaTime ≥ station.maxOvercrowding)

/-- The loop `for (let station of this.stations)` of `updatePassengers` with the
arithmetic `F`, threading `gameOver` from station to station. -/
def updatePassengersLoop (F : JsArith α) (deltaTime : α) :
    List (Station α) → Bool → List (Station α) × Bool
  | [], gameOver => ([], gameOver)
  | station :: rest, gameOver =>
    let r := updateStation F deltaTime station gameOver
    let rs := updatePassengersLoop F deltaTime rest r.2
    (r.1 :: rs.1, rs.2)

/-- `updatePassengers(deltaTime)` (game.js 640-656) with the arithmetic `F`. -/
def updatePassengers (F : JsArith α) (g : Game α) (deltaTime : α) : Game α :=
  let r := updatePassengersLoop F deltaTime g.stations g.gameOver
  { g with stations := r.1, gameOver := r.2 }

end Defs

end Rounded

section Handlers

variable {α : Type} [LinearOrderedField α]

/-- `getStationAt(x, y)` (game.js 401-409): the first station with
`Math.hypot(station.x - x, station.y - y) < designTokens.Ro`, as a reference. -/
def getStationAt (g : Game α) (x y : α) : Option Nat :=
  g.stations.findIdx? fun station => hypotLt (station.x - x) (station.y - y) g.Ro

/-- The test of `getLineHandleAt` for one line: `some true` when the click is within
`handleRadius = 15` of the first station, else `some false` when it is within 15 of the
last station, else `none`. -/
def handleOfLine (g : Game α) (x y : α) (line : Line α) : Option Bool :=
  match line.stations.head?.bind (g.stations[·]?), line.stations.getLast?.bind (g.stations[·]?) with
  | some firstStation, some lastStation =>
    if hypotLt (firstStation.x - x) (firstStation.y - y) 15 then some true
    else if hypotLt (lastStation.x - x) (lastStation.y - y) 15 then some false
    else none
  | _, _ => none

/-- `getLineHandleAt(x, y)` (game.js 411-429). -/
def getLineHandleAt (g : Game α) (x y : α) : Option Handle :=
  (List.range g.lines.length).findSome? fun li =>
    (g.lines[li]?).bind fun line =>
      (handleOfLine g x y line).map fun isStart => { line := li, isStart := isStart }

/-- `recalculateLineSegments(line)` (game.js 462-485): one segment for each pair of
consecutive stations. -/
def recalculateLineSegments (M : JsMath α) (g : Game α) (line : Line α) : Line α :=
  { line with
    segments := (consecutivePairs line.stations).filterMap fun p =>
      match g.stations[p.1]?, g.stations[p.2]? with
      | some fromStation, some toStation =>
        let angle := M.atan2 (toStation.y - fromStation.y) (toStation.x - fromStation.x)
        let snappedAngle := M.round (angle / (M.PI / 4)) * (M.PI / 4)
        let distance := M.hypot (toStation.x - fromStation.x) (toStation.y - fromStation.y)
        some
          { from_ := { x := fromStation.x, y := fromStation.y }
            to_ :=
              { x := fromStation.x + M.cos snappedAngle * distance
                y := fromStation.y + M.sin snappedAngle * distance }
            angle := snappedAngle }
      | _, _ => none }

/-- `addTrainToLine(line)` (game.js 487-507) for the line at index `li`. -/
def addTrainToLine (g : Game α) (li : Nat) : Game α :=
  match g.lines[li]? with
  | none => g
  | some line =>
    if g.availableTrains > 0 then
      let train : Train α :=
        { id := g.trains.length, line := li, position := 0, currentSegment := 0,
          direction := 1, speed := 1 / 2, capacity := 6, passengers := [], carriages := 0,
          state := TrainState.moving, stationStopTime := 0 }
      { g with
        trains := g.trains ++ [train]
        lines := g.lines.set li { line with trains := line.trains ++ [train.id] }
        availableTrains := g.availableTrains - 1 }
    else g

/-- `startDrawingLine(line, station)` (game.js 431-434) for the line at index `li`. -/
def startDrawingLine (g : Game α) (li : Nat) (station : Nat) : Game α :=
  match g.lines[li]? with
  | none => g
  | some line =>
    { g with
      lines := g.lines.set li { line with stations := [station] }
      draggedHandle := some { line := li, isStart := false } }

/-- The stations of a line after a right click on its station at `index`
(game.js 337-346): `shift()` for the first station, `pop()` for the last one,
`slice(0, index)` otherwise. -/
def removeStationAt (stations : List Nat) (index : Nat) : List Nat :=
  if index = 0 then stations.tail
  else if index = stations.length - 1 then stations.dropLast
  else stations.take index

/-- The right-click branch of `onMouseDown` (game.js 333-350) on the station `station`:
the first line that has the station loses it, and its segments are recomputed. -/
def removeStation (M : JsMath α) (g : Game α) (station : Nat) : Game α :=
  match g.lines.findIdx? (fun line => line.stations.contains station) with
  | none => g
  | some li =>
    match g.lines[li]? with
    | none => g
    | some line =>
      let index := line.stations.indexOf station
      { g with
        lines := g.lines.set li
          (recalculateLineSegments M g
            { line with stations := removeStationAt line.stations index }) }

/-- `onMouseDown(e)` (game.js 290-353) with `button = e.button` and `(x, y)` the canvas
coordinates of the event. -/
def onMouseDown (M : JsMath α) (g : Game α) (button : Nat) (x y : α) : Game α :=
  if g.paused || g.gameOver then g
  else
    let station := getStationAt g x y
    if button = 0 then
      match station with
      | some station =>
        match g.lines.findIdx? (fun line => decide (line.stations.length = 0)) with
        | none =>
          match getLineHandleAt g x y with
          | some handle => { g with draggedHandle := some handle }
          | none => g
        | some lineToUse => startDrawingLine g lineToUse station
      | none =>
        match getLineHandleAt g x y with
        | some handle => { g with draggedHandle := some handle }
        | none => g
    else if button = 2 then
      match station with
      | some station => removeStation M g station
      | none => g
    else g

/-- `onMouseUp(e)` (game.js 367-399) released at canvas coordinates `(x, y)`. -/
def onMouseUp (M : JsMath α) (g : Game α) (x y : α) : Game α :=
  match g.draggedHandle with
  | none => g
  | some draggedHandle =>
    match g.lines[draggedHandle.line]? with
    | none => { g with draggedHandle := none }
    | some line =>
      let otherwise : Game α :=
        if line.stations.length < 2 then
          { g with
            lines := g.lines.set draggedHandle.line { line with stations := [], segments := [] } }
        else g
      let g1 : Game α :=
        match getStationAt g x y with
        | none => otherwise
        | some station =>
          if ¬ station ∈ line.stations then
            let stations :=
              if draggedHandle.isStart then station :: line.stations
              else line.stations ++ [station]
            let line1 := recalculateLineSegments M g { line with stations := stations }
            let g2 : Game α := { g with lines := g.lines.set draggedHandle.line line1 }
            if line1.trains.length = 0 ∧ line1.stations.length ≥ 2 then
              addTrainToLine g2 draggedHandle.line
            else g2
          else otherwise
      { g1 with draggedHandle := none }

end Handlers

section Spawn

variable {α : Type} [LinearOrderedField α] [FloorRing α]

/-- `spawnPassenger()` (game.js 509-531); `r1` and `r2` are the values of the two calls of
`Math.random()`, numbers in `[0, 1)`. -/
def spawnPassenger (g : Game α) (r1 r2 : α) : Game α :=
  if g.stations.length < 2 then g
  else
    let stationIndex := ⌊r1 * (g.stations.length : α)⌋₊
    match g.stations[stationIndex]? with
    | none => g
    | some station =>
      let targetShapes := (g.stations.eraseIdx stationIndex).map fun s => s.shape
      if targetShapes.length > 0 then
        match targetShapes[⌊r2 * (targetShapes.length : α)⌋₊]? with
        | none => g
        | some targetShape =>
          let passenger : Passenger α :=
            { id := g.passengers.length, station := stationIndex, targetShape := targetShape,
              waitTime := 0, ref := g.nextRef, boardingAnimation := false }
          { g with
            stations := g.stations.set stationIndex
              { station with passengers := station.passengers ++ [passenger] }
            passengers := g.passengers ++ [passenger.ref]
            nextRef := g.nextRef + 1 }
      else g

end Spawn

section Trains

variable {α : Type} [LinearOrderedField α]

/-- The station reference `line.stations[train.currentSegment + 1]` that `updateTrains`
reads as `currentStation` when the train reaches the end of its segment. -/
def currentStationRef (line : Line α) (train : Train α) : Option Nat :=
  line.stations[train.currentSegment + 1]?

/-- The station reference `line.stations[stationIndex]` of `loadPassengers` and
`unloadPassengers`, with
`stationIndex = train.direction === 1 ? train.currentSegment + 1 : train.currentSegment`. -/
def servedStationRef (line : Line α) (train : Train α) : Option Nat :=
  line.stations[if train.direction = 1 then train.currentSegment + 1 else train.currentSegment]?

/-- `canReachShape(line, fromStation, targetShape)` (game.js 631-638). -/
def canReachShape (g : Game α) (line : Line α) (targetShape : Shape) : Bool :=
  line.stations.any fun r =>
    match g.stations[r]? with
    | some station => decide (station.shape = targetShape)
    | none => false

/-- The loop of `unloadPassengers` (game.js 615-628), run on the passengers still to be
visited, last one first: a passenger whose target shape is the station's shape is dropped,
the score grows by one and the passenger is taken out of the game-wide list; the others are
kept in their order. The state is (kept passengers, score, game-wide list). -/
def unloadLoop (shape : Shape) :
    List (Passenger α) → List (Passenger α) × Int × List Nat → List (Passenger α) × Int × List Nat
  | [], acc => acc
  | passenger :: rest, (kept, score, passengers) =>
    if passenger.targetShape = shape then
      unloadLoop shape rest (kept, score + 1, passengers.erase passenger.ref)
    else unloadLoop shape rest (passenger :: kept, score, passengers)

/-- `unloadPassengers(train)` (game.js 608-629) for the train at index `ti`. -/
def unloadPassengers (g : Game α) (ti : Nat) : Game α :=
  match g.trains[ti]? with
  | none => g
  | some train =>
    match g.lines[train.line]? with
    | none => g
    | some line =>
      match (servedStationRef line train).bind (g.stations[·]?) with
      | none => g
      | some station =>
        let r := unloadLoop station.shape train.passengers.reverse ([], g.score, g.passengers)
        { g with
          trains := g.trains.set ti { train with passengers := r.1 }
          score := r.2.1
          passengers := r.2.2 }

/-- The loop of `loadPassengers` (game.js 593-605), run on the waiting passengers still to
be visited, last one first, while `availableSpace > 0`: a passenger who can reach the
target boards (`boardingAnimation` is set). The state is (passengers kept in the queue,
passengers boarded so far in boarding order, available space). When the loop ends early the
passengers not visited stay in front of the kept ones. -/
def loadLoop (canReach : Passenger α → Bool) :
    List (Passenger α) → List (Passenger α) × List (Passenger α) × Int →
      List (Passenger α) × List (Passenger α)
  | [], (kept, boarded, _) => (kept, boarded)
  | passenger :: rest, (kept, boarded, availableSpace) =>
    if availableSpace > 0 then
      if canReach passenger then
        loadLoop canReach rest
          (kept, boarded ++ [{ passenger with boardingAnimation := true }], availableSpace - 1)
      else loadLoop canReach rest (passenger :: kept, boarded, availableSpace)
    else ((passenger :: rest).reverse ++ kept, boarded)

/-- `loadPassengers(train)` (game.js 584-606) for the train at index `ti`. -/
def loadPassengers (g : Game α) (ti : Nat) : Game α :=
  match g.trains[ti]? with
  | none => g
  | some train =>
    match g.lines[train.line]? with
    | none => g
    | some line =>
      match servedStationRef line train with
      | none => g
      | some stationRef =>
        match g.stations[stationRef]? with
        | none => g
        | some station =>
          let availableSpace : Int :=
            (train.capacity : Int) + (train.carriages : Int) * 4 - (train.passengers.length : Int)
          let r := loadLoop (fun passenger => canReachShape g line passenger.targetShape)
            station.passengers.reverse ([], [], availableSpace)
          { g with
            stations := g.stations.set stationRef { station with passengers := r.1 }
            trains := g.trains.set ti { train with passengers := train.passengers ++ r.2 } }

/-- The body of the loop of `updateTrains` (game.js 535-580) for the train at index `ti`. -/
def updateTrain (M : JsMath α) (deltaTime : α) (g : Game α) (ti : Nat) : Game α :=
  match g.trains[ti]? with
  | none => g
  | some train =>
    match train.state with
    | TrainState.stopped =>
      let stationStopTime := train.stationStopTime - deltaTime
      if stationStopTime ≤ 0 then
        let g1 : Game α :=
          { g with
            trains := g.trains.set ti
              { train with stationStopTime := stationStopTime, state := TrainState.moving } }
        loadPassengers (unloadPassengers g1 ti) ti
      else
        { g with trains := g.trains.set ti { train with stationStopTime := stationStopTime } }
    | TrainState.moving =>
      match g.lines[train.line]? with
      | none => g
      | some line =>
        if line.segments.length = 0 then g
        else
          match line.segments[train.currentSegment]? with
          | none => g
          | some segment =>
            let segmentLength :=
              M.hypot (segment.to_.x - segment.from_.x) (segment.to_.y - segment.from_.y)
            let position := train.position + train.speed * deltaTime / segmentLength
            if position ≥ 1 then
              let stop : TrainState × α :=
                match (currentStationRef line train).bind (g.stations[·]?) with
                | some currentStation =>
                  (TrainState.stopped, if currentStation.isInterchange then 400 else 700)
                | none => (train.state, train.stationStopTime)
              let next : Nat × Int :=
                if train.direction = 1 then
                  if train.currentSegment + 1 ≥ line.segments.length then
                    (line.segments.length - 1, -1)
                  else (train.currentSegment + 1, train.direction)
                else if train.currentSegment = 0 then (0, 1)
                else (train.currentSegment - 1, train.direction)
              { g with
                trains := g.trains.set ti
                  { train with
                    position := 0
                    state := stop.1
                    stationStopTime := stop.2
                    currentSegment := next.1
                    direction := next.2 } }
            else { g with trains := g.trains.set ti { train with position := position } }

/-- `updateTrains(deltaTime)` (game.js 533-582): the loop over `this.trains`. -/
def updateTrains (M : JsMath α) (g : Game α) (deltaTime : α) : Game α :=
  (List.range g.trains.length).foldl (updateTrain M deltaTime) g

/-- What a step of another train leaves untouched, as far as a moving train can see. -/
structure SameForTrain (ti : Nat) (g g' : Game α) : Prop where
  train : g'.trains[ti]? = g.trains[ti]?
  lines : g'.lines = g.lines
  interchange : ∀ r : Nat, (g'.stations[r]?).map (fun s : Station α => s.isInterchange)
      = (g.stations[r]?).map (fun s : Station α => s.isInterchange)

end Trains

section Loop

variable {α : Type} [LinearOrderedField α] [FloorRing α]

/-- The JavaScript remainder `x % m` of numbers (`m` not 0): `x` minus `m` times the
quotient `x / m` rounded towards zero, so it has the sign of `x`. -/
def jsMod (x m : α) : α :=
  if 0 ≤ x / m then x - m * (⌊x / m⌋ : α) else x - m * (⌈x / m⌉ : α)

/-- `getSpawnRateForTime()` (game.js 690-701). -/
def getSpawnRateForTime (g : Game α) : α :=
  let hour : Int := ⌊g.timeOfDay⌋
  if (hour ≥ 7 ∧ hour < 9) ∨ (hour ≥ 17 ∧ hour < 19) then 2
  else if hour < 6 ∨ hour ≥ 22 then 1 / 2
  else 1

/-- `updateGameTime(deltaTime)` (game.js 658-688); `r0` is the value of `Math.random()` in
the spawn test, `r1`, `r2` are the values that `spawnPassenger` draws. Of
`showUpgradeModal()` only `this.paused = true` is modelled (the rest builds the dialog). -/
def updateGameTime (g : Game α) (deltaTime r0 r1 r2 : α) : Game α :=
  if g.gameOver then g
  else if g.paused || decide (g.gameSpeed = 0) then g
  else
    let adjustedDelta := deltaTime * g.gameSpeed
    let dayProgress := g.dayProgress + adjustedDelta
    let hoursPerDay : α := 24
    let hourProgress := dayProgress / g.dayDuration * hoursPerDay
    let g1 : Game α :=
      { g with dayProgress := dayProgress, timeOfDay := jsMod (6 + hourProgress) 24 }
    let g2 : Game α :=
      if dayProgress ≥ g.dayDuration then
        if g.day + 1 > 7 then
          { g1 with dayProgress := 0, day := 1, week := g.week + 1, paused := true }
        else { g1 with dayProgress := 0, day := g.day + 1 }
      else g1
    if r0 < adjustedDelta * getSpawnRateForTime g2 / 1000 then spawnPassenger g2 r1 r2 else g2

/-- `gameLoop(currentTime)` (game.js 1415-1432) up to rendering, which reads the simulation
state only (`needsRedraw` is a flag of the renderer and is not modelled). -/
def gameLoop (M : JsMath α) (g : Game α) (currentTime r0 r1 r2 : α) : Game α :=
  let deltaTime := currentTime - g.lastFrameTime
  let g0 : Game α := { g with lastFrameTime := currentTime }
  if !g0.paused && !g0.gameOver && decide (deltaTime < 100) then
    updatePassengers (updateTrains M (updateGameTime g0 deltaTime r0 r1 r2) deltaTime) deltaTime
  else g0

/-- The game after the calls `updateGameTime(deltaTime)` with the draws of `draws`, one
triple for each call. -/
def clockRun (deltaTime : α) (draws : List (α × α × α)) (g : Game α) : Game α :=
  draws.foldl (fun g r => updateGameTime g deltaTime r.1 r.2.1 r.2.2) g

end Loop

/-- A waiting passenger with the given id at station 0. -/
def waiting (id : Nat) : Passenger ℚ :=
  { id := id, station := 0, targetShape := Shape.square, waitTime := 0, ref := id,
    boardingAnimation := false }

/-- A station of capacity 6 with 7 waiting passengers, as in the spec's scenario C, with
the given overcrowding. -/
def crowdedStation (overcrowding : ℚ) : Station ℚ where
  id := 0
  x := 100
  y := 100
  shape := Shape.circle
  passengers := [waiting 0, waiting 1, waiting 2, waiting 3, waiting 4, waiting 5, waiting 6]
  capacity := 6
  isInterchange := false
  overcrowding := overcrowding
  maxOvercrowding := 8000

/-- A running game whose only station is `crowdedStation overcrowding`. -/
def crowdedGame (overcrowding : ℚ) : Game ℚ :=
  { stations := [crowdedStation overcrowding], gameOver := false, paused := false, Ro := 24,
    lines := [], trains := [], passengers := [0, 1, 2, 3, 4, 5, 6], nextRef := 7, score := 0,
    availableTrains := 3, draggedHandle := none, availableLines := 3, availableCarriages := 0,
    availableBridges := 0, availableInterchanges := 0, gameSpeed := 1, week := 1, day := 1,
    dayProgress := 0, dayDuration := 20000, timeOfDay := 6, lastFrameTime := 0 }

/-- The double `94.11764705882354`, the double nearest to `8000 / 85`: a frame time in
milliseconds. -/
def frameTime : ℚ := 827867578560753 / 8796093022208

/-- The list `l` without its first `n` elements that satisfy `p`. -/
def withoutFirst {β : Type} (p : β → Bool) : Nat → List β → List β
  | 0, l => l
  | _ + 1, [] => []
  | n + 1, a :: l => if p a then withoutFirst p n l else a :: withoutFirst p (n + 1) l

/-- The station references at which the train `ti` stops during the first `n` calls
`updateTrains(deltaTime)`: for every call that takes the train from `'moving'` to
`'stopped'`, the reference `currentStation` read by that call. -/
def stopsWithin {α : Type} [LinearOrderedField α] (M : JsMath α) (deltaTime : α) (ti : Nat) :
    Nat → Game α → List (Option Nat)
  | 0, _ => []
  | n + 1, g =>
    let g1 := updateTrains M g deltaTime
    match g.trains[ti]?, g1.trains[ti]? with
    | some train, some train1 =>
      if train.state = TrainState.moving ∧ train1.state = TrainState.stopped then
        ((g.lines[train.line]?).bind fun line => currentStationRef line train)
          :: stopsWithin M deltaTime ti n g1
      else stopsWithin M deltaTime ti n g1
    | _, _ => stopsWithin M deltaTime ti n g1

/-- The station references that `unloadPassengers` and `loadPassengers` serve for the
train `ti` during the first `n` calls `updateTrains(deltaTime)`: for every call that takes
the train from `'stopped'` to `'moving'`, the reference at `stationIndex`. -/
def servedWithin {α : Type} [LinearOrderedField α] (M : JsMath α) (deltaTime : α) (ti : Nat) :
    Nat → Game α → List (Option Nat)
  | 0, _ => []
  | n + 1, g =>
    let g1 := updateTrains M g deltaTime
    match g.trains[ti]?, g1.trains[ti]? with
    | some train, some train1 =>
      if train.state = TrainState.stopped ∧ train1.state = TrainState.moving then
        ((g1.lines[train1.line]?).bind fun line => servedStationRef line train1)
          :: servedWithin M deltaTime ti n g1
      else servedWithin M deltaTime ti n g1
    | _, _ => servedWithin M deltaTime ti n g1

/-- The `k`-th term of the ping-pong enumeration `0, 1, ..., n - 1, n - 2, ..., 1, 0, 1, ...`
of the station indices of a line with `n` stations; its period is `2 * (n - 1)`. -/
def pingPong (n k : Nat) : Nat :=
  if k % (2 * (n - 1)) < n then k % (2 * (n - 1)) else 2 * (n - 1) - k % (2 * (n - 1))

/-- The values of `currentSegment` and `direction` of a train after `j` arrivals on a line
with `m` segments, for a train that started on segment 0 with direction 1. -/
def legAfter (m j : Nat) : Nat × Int :=
  if j % (2 * m) < m then (j % (2 * m), 1) else (2 * m - 1 - j % (2 * m), -1)

/-- The game after the calls `updateTrains(deltaTime)` for the frame times of the list. -/
def trainRun {α : Type} [LinearOrderedField α] (M : JsMath α) (deltaTimes : List α)
    (g : Game α) : Game α :=
  deltaTimes.foldl (updateTrains M) g

/-- The station references that `unloadPassengers` and `loadPassengers` serve for the
train `ti` during the calls `updateTrains(deltaTime)` for the frame times of the list, in
order: for every call that takes the train from `'stopped'` to `'moving'`, the reference
at `stationIndex`. -/
def servedDuring {α : Type} [LinearOrderedField α] (M : JsMath α) (ti : Nat) :
    List α → Game α → List (Option Nat)
  | [], _ => []
  | deltaTime :: rest, g =>
    let g1 := updateTrains M g deltaTime
    match g.trains[ti]?, g1.trains[ti]? with
    | some train, some train1 =>
      if train.state = TrainState.stopped ∧ train1.state = TrainState.moving then
        ((g1.lines[train1.line]?).bind fun line => servedStationRef line train1)
          :: servedDuring M ti rest g1
      else servedDuring M ti rest g1
    | _, _ => servedDuring M ti rest g1

/-- The length `Math.hypot(...)` of the segment at index `s` of the line, as `updateTrains`
computes it (0 when there is no such segment). -/
def segmentLength {α : Type} [LinearOrderedField α] (M : JsMath α) (line : Line α) (s : Nat) : α :=
  match line.segments[s]? with
  | some segment => M.hypot (segment.to_.x - segment.from_.x) (segment.to_.y - segment.from_.y)
  | none => 0

/-- The train `ti` of the game is `train`, it runs on the line `line` (at index `li`) whose
stations all exist, and it has made `j` arrivals since it started on segment 0 with
direction 1. -/
structure Rides {α : Type} (g : Game α) (ti li : Nat) (line : Line α) (train : Train α)
    (j : Nat) : Prop where
  train_eq : g.trains[ti]? = some train
  line_eq : train.line = li
  lines : g.lines[li]? = some line
  refs : ∀ r ∈ line.stations, ∃ station, g.stations[r]? = some station
  leg : (train.currentSegment, train.direction) = legAfter line.segments.length j

/-- A station at `(x, 300)` with capacity 6. -/
def stationOnRow (id : Nat) (x : ℚ) (shape : Shape) (passengers : List (Passenger ℚ))
    (isInterchange : Bool) : Station ℚ :=
  { id := id, x := x, y := 300, shape := shape, passengers := passengers, capacity := 6,
    isInterchange := isInterchange, overcrowding := 0, maxOvercrowding := 8000 }

/-- Stations A (circle), B (triangle, an interchange) and C (square) at `x = 100`, `1100`
and `2100` on one row; one passenger for a square waits at B and one passenger for a
circle waits at C. No line yet. -/
def rowGame : Game ℚ where
  stations :=
    [stationOnRow 0 100 Shape.circle [] false,
     stationOnRow 1 1100 Shape.triangle
       [{ id := 0, station := 1, targetShape := Shape.square, waitTime := 0, ref := 0,
          boardingAnimation := false }] true,
     stationOnRow 2 2100 Shape.square
       [{ id := 1, station := 2, targetShape := Shape.circle, waitTime := 0, ref := 1,
          boardingAnimation := false }] false]
  gameOver := false
  paused := false
  Ro := 24
  lines := []
  trains := []
  passengers := [0, 1]
  nextRef := 2
  score := 0
  availableTrains := 3
  draggedHandle := none
  availableLines := 3
  availableCarriages := 0
  availableBridges := 0
  availableInterchanges := 0
  gameSpeed := 1
  week := 1
  day := 1
  dayProgress := 0
  dayDuration := 20000
  timeOfDay := 6
  lastFrameTime := 0

/-- The game `rowGame` with the line A-B-C (two segments of length 1000) and the train
that `addTrainToLine` puts on it (segment 0, direction 1, speed 0.5). -/
def lineGame : Game ℚ :=
  addTrainToLine
    { rowGame with
      lines := [recalculateLineSegments flatMath rowGame
        { id := 0, stations := [0, 1, 2], trains := [], segments := [] }] } 0

/-- The game after `n` calls `updateTrains(100)`. -/
def ticks (n : Nat) (g : Game ℚ) : Game ℚ :=
  (List.replicate n (100 : ℚ)).foldl (updateTrains flatMath) g

/-- The game `rowGame` with the three empty lines of `createInitialLines`. -/
def startGame : Game ℚ :=
  { rowGame with
    lines :=
      [{ id := 0, stations := [], trains := [], segments := [] },
       { id := 1, stations := [], trains := [], segments := [] },
       { id := 2, stations := [], trains := [], segments := [] }] }

/-- The line A-B-C of `lineGame`. -/
def lineABC : Line ℚ :=
  { id := 0, stations := [0, 1, 2], trains := [0],
    segments :=
      [{ from_ := { x := 100, y := 300 }, to_ := { x := 1100, y := 300 }, angle := 0 },
       { from_ := { x := 1100, y := 300 }, to_ := { x := 2100, y := 300 }, angle := 0 }] }

/-- The train of `lineGame` in a later state. -/
def trainOnABC (position : ℚ) (currentSegment : Nat) (direction : Int) (state : TrainState)
    (stationStopTime : ℚ) (passengers : List (Passenger ℚ)) : Train ℚ :=
  { id := 0, line := 0, position := position, currentSegment := currentSegment,
    direction := direction, speed := 1 / 2, capacity := 6, passengers := passengers,
    carriages := 0, state := state, stationStopTime := stationStopTime }

/-- The passenger of `rowGame` who started at B, once on board. -/
def riderFromB : Passenger ℚ :=
  { id := 0, station := 1, targetShape := Shape.square, waitTime := 0, ref := 0,
    boardingAnimation := true }

/-- The passenger of `rowGame` who started at C, once on board. -/
def riderFromC : Passenger ℚ :=
  { id := 1, station := 2, targetShape := Shape.circle, waitTime := 0, ref := 1,
    boardingAnimation := true }

/-- The game `lineGame` after 20 frames of 100 ms (the train has arrived at B and is on
segment 1) and a right click on station C at `(2100, 300)`. -/
def cutGame : Game ℚ := onMouseDown flatMath (ticks 20 lineGame) 2 2100 300

end GameJs

/-! ## game-fixed.js -/

namespace GameFixed

/-- A station reference: the station's `id`, position and shape, which are set once when
the station is created, so the record identifies the station object. -/
structure Station (α : Type) where
  id : Nat
  x : α
  y : α
  shape : Shape
deriving DecidableEq, Repr

/-- A passenger object. -/
structure Passenger (α : Type) where
  id : Nat
  station : Nat
  targetShape : Shape
  waitTime : α
deriving DecidableEq, Repr

/-- An entry of `line.segments` (game-fixed.js 444-448). -/
structure Segment (α : Type) where
  from_ : Station α
  to_ : Station α
  needsBridge : Bool
deriving DecidableEq, Repr

/-- The `state` of a train: `'moving'` or `'stopped'`. -/
inductive TrainState where
  | moving | stopped
deriving DecidableEq, Repr

/-- A train as `addTrainToLine` (game-fixed.js 468-480) builds it. `line` refers to its
line by the line's index in `lines`. -/
structure Train (α : Type) where
  id : Nat
  line : Nat
  position : α
  currentSegment : Nat
  direction : Int
  speed : α
  capacity : Nat
  passengers : List (Passenger α)
  carriages : Nat
  state : TrainState
  stationStopTime : α
deriving DecidableEq, Repr

/-- A line as `createInitialLines` (game-fixed.js 283-289) builds it, without its colour.
`trains` refers to train objects by their index in the game's `trains`. -/
structure Line (α : Type) where
  id : Nat
  stations : List (Station α)
  segments : List (Segment α)
  trains : List Nat
deriving DecidableEq, Repr

/-- The value of `draggedEndpoint`: `'end'` or `'start'`. -/
inductive Endpoint where
  | atEnd | atStart
deriving DecidableEq, Repr

/-- The `water` entry of the current city in `cityConfigs`: one river (`type: 'river'`
with a `path`), several rivers (`type: 'rivers'`), or something the water test ignores. -/
inductive Water (α : Type) where
  | river (path : List (Point α)) (width : α)
  | rivers (rivers : List (River α))
  | other
deriving DecidableEq, Repr

/-- The part of the game object that the water test and the mouse handlers read or
write. `water` is `cityConfigs[currentCity].water` (absent = `none`), `Ro` is
`designTokens.Ro`, `drawingLine` refers to a line by its index in `lines`. -/
structure Game (α : Type) where
  canvasWidth : α
  canvasHeight : α
  Ro : α
  water : Option (Water α)
  paused : Bool
  gameOver : Bool
  stations : List (Station α)
  lines : List (Line α)
  trains : List (Train α)
  availableTrains : Int
  drawingLine : Option Nat
  selectedStation : Option (Station α)
  draggedEndpoint : Option Endpoint
deriving DecidableEq, Repr

section Defs

variable {α : Type} [LinearOrderedField α]

/-- The river test of `isInWater` (game-fixed.js 216-223, 228-235) for one path. -/
def pathHit (relX relY canvasWidth : α) (path : List (Point α)) (width : α) : Bool :=
  (consecutivePairs path).any fun p =>
    sqrtTimesLt (distSqToLineSegment relX relY p.1.x p.1.y p.2.x p.2.y) canvasWidth (width / 2)

/-- `isInWater(x, y)` (game-fixed.js 205-240). -/
def isInWater (g : Game α) (x y : α) : Bool :=
  match g.water with
  | none => false
  | some water =>
    let relX := x / g.canvasWidth
    let relY := y / g.canvasHeight
    match water with
    | Water.river path width => pathHit relX relY g.canvasWidth path width
    | Water.rivers rivers =>
      rivers.any fun river => pathHit relX relY g.canvasWidth river.points river.width
    | Water.other => false

/-- `crossesWater(x1, y1, x2, y2)` (game-fixed.js 452-464), with `steps = 10`. -/
def crossesWater (g : Game α) (x1 y1 x2 y2 : α) : Bool :=
  (List.range (10 + 1)).any fun i =>
    let t : α := (i : α) / 10
    isInWater g (x1 + (x2 - x1) * t) (y1 + (y2 - y1) * t)

/-- `getStationAt(x, y)` (game-fixed.js 426-434). -/
def getStationAt (g : Game α) (x y : α) : Option (Station α) :=
  g.stations.find? fun station => hypotLt (station.x - x) (station.y - y) (g.Ro + 5)

/-- `recalculateLineSegments(line)` (game-fixed.js 436-450). -/
def recalculateLineSegments (g : Game α) (line : Line α) : Line α :=
  { line with
    segments := (consecutivePairs line.stations).map fun p =>
      { from_ := p.1, to_ := p.2, needsBridge := crossesWater g p.1.x p.1.y p.2.x p.2.y } }

/-- `addTrainToLine(line)` (game-fixed.js 466-486) for the line at index `li`. -/
def addTrainToLine (g : Game α) (li : Nat) : Game α :=
  match g.lines[li]? with
  | none => g
  | some line =>
    if g.availableTrains > 0 then
      let train : Train α :=
        { id := g.trains.length, line := li, position := 0, currentSegment := 0,
          direction := 1, speed := 1 / 2, capacity := 6, passengers := [], carriages := 0,
          state := TrainState.moving, stationStopTime := 0 }
      { g with
        trains := g.trains ++ [train]
        lines := g.lines.set li { line with trains := line.trains ++ [train.id] }
        availableTrains := g.availableTrains - 1 }
    else g

/-- The stations of a line after a right click on its station at `index`
(game-fixed.js 349-359): `shift()` for the first station, `pop()` for the last one,
`slice(0, index)` otherwise. -/
def removeStationAt (stations : List (Station α)) (index : Nat) : List (Station α) :=
  if index = 0 ∨ index = stations.length - 1 then
    if index = 0 then stations.tail else stations.dropLast
  else stations.take index

/-- The right-click branch of `onMouseDown` (game-fixed.js 344-368) on the station
`station`: the first line that has the station loses it, its segments are recomputed, and
`line.trains` is emptied when fewer than 2 stations are left. -/
def removeStation (g : Game α) (station : Station α) : Game α :=
  match g.lines.findIdx? (fun line => decide (station ∈ line.stations)) with
  | none => g
  | some li =>
    match g.lines[li]? with
    | none => g
    | some line =>
      let index := line.stations.indexOf station
      let line1 := recalculateLineSegments g
        { line with stations := removeStationAt line.stations index }
      let line2 := if line1.stations.length < 2 then { line1 with trains := [] } else line1
      { g with lines := g.lines.set li line2 }

/-- The endpoint test of the left-click branch of `onMouseDown` (game-fixed.js 311-331)
for one line. -/
def endpointOfLine (station : Station α) (line : Line α) : Option Endpoint :=
  if line.stations.length > 0 then
    if line.stations.getLast? = some station then some Endpoint.atEnd
    else if line.stations.head? = some station then some Endpoint.atStart
    else none
  else none

/-- `onMouseDown(e)` (game-fixed.js 300-370) with `button = e.button` and `(x, y)` the
canvas coordinates of the event. -/
def onMouseDown (g : Game α) (button : Nat) (x y : α) : Game α :=
  if g.paused || g.gameOver then g
  else
    let station := getStationAt g x y
    if button = 0 then
      match station with
      | none => g
      | some station =>
        match (List.range g.lines.length).findSome? fun li =>
            (g.lines[li]?).bind fun line =>
              (endpointOfLine station line).map fun endpoint => (li, endpoint) with
        | some (li, endpoint) =>
          { g with
            drawingLine := some li
            selectedStation := some station
            draggedEndpoint := some endpoint }
        | none =>
          match g.lines.findIdx? (fun l => decide (l.stations.length = 0)) with
          | none => g
          | some li =>
            match g.lines[li]? with
            | none => g
            | some emptyLine =>
              { g with
                drawingLine := some li
                selectedStation := some station
                lines := g.lines.set li { emptyLine with stations := [station] }
                draggedEndpoint := some Endpoint.atEnd }
    else if button = 2 then
      match station with
      | none => g
      | some station => removeStation g station
    else g

/-- `onMouseUp(e)` (game-fixed.js 385-424) released at canvas coordinates `(x, y)`. -/
def onMouseUp (g : Game α) (x y : α) : Game α :=
  match g.drawingLine with
  | none => g
  | some li =>
    let clear (g1 : Game α) : Game α :=
      { g1 with drawingLine := none, selectedStation := none, draggedEndpoint := none }
    match g.lines[li]? with
    | none => clear g
    | some drawingLine =>
      match getStationAt g x y with
      | some station =>
        if some station ≠ g.selectedStation then
          if ¬ station ∈ drawingLine.stations then
            let stations :=
              if g.draggedEndpoint = some Endpoint.atEnd then drawingLine.stations ++ [station]
              else station :: drawingLine.stations
            let line := recalculateLineSegments g { drawingLine with stations := stations }
            let g1 : Game α := { g with lines := g.lines.set li line }
            if line.stations.length ≥ 2 ∧ line.trains.length = 0 then
              clear (addTrainToLine g1 li)
            else clear g1
          else clear g
        else if drawingLine.stations.length = 1 then
          clear { g with lines := g.lines.set li { drawingLine with stations := [], segments := [] } }
        else clear g
      | none =>
        if drawingLine.stations.length = 1 then
          clear { g with lines := g.lines.set li { drawingLine with stations := [], segments := [] } }
        else clear g

end Defs

/-- Stations 0 and 1 at `(100, 100)` and `(500, 100)` on a 1000 x 1000 canvas without
water, the three empty lines of `createInitialLines` and three available trains. -/
def twoStationGame : Game ℚ where
  canvasWidth := 1000
  canvasHeight := 1000
  Ro := 24
  water := none
  paused := false
  gameOver := false
  stations :=
    [{ id := 0, x := 100, y := 100, shape := Shape.circle },
     { id := 1, x := 500, y := 100, shape := Shape.square }]
  lines :=
    [{ id := 0, stations := [], segments := [], trains := [] },
     { id := 1, stations := [], segments := [], trains := [] },
     { id := 2, stations := [], segments := [], trains := [] }]
  trains := []
  availableTrains := 3
  drawingLine := none
  selectedStation := none
  draggedEndpoint := none

end GameFixed

end MiniMetro


/-! # Theorems -/

namespace MiniMetro

/-! ## Geometry -/

/-- Over the reals `sqrtTimesLt d2 w h` is the comparison `Math.sqrt(d2) * w < h`. -/
theorem sqrtTimesLt_iff (d2 w h : ℝ) (hd : 0 ≤ d2) :
    sqrtTimesLt d2 w h = true ↔ Real.sqrt d2 * w < h := by
  have hs : 0 ≤ Real.sqrt d2 := Real.sqrt_nonneg d2
  have hss : Real.sqrt d2 * Real.sqrt d2 = d2 := Real.mul_self_sqrt hd
  generalize Real.sqrt d2 = s at hs hss
  subst hss
  unfold sqrtTimesLt
  split_ifs with hw
  · simp only [decide_eq_true_eq]
    constructor
    · rintro ⟨h0, h1⟩
      by_contra hc
      push_neg at hc
      nlinarith [mul_nonneg hs hw]
    · intro h1
      have h2 : 0 ≤ s * w := mul_nonneg hs hw
      exact ⟨by linarith, by nlinarith⟩
  · simp only [decide_eq_true_eq]
    push_neg at hw
    have h2 : s * w ≤ 0 := mul_nonpos_of_nonneg_of_nonpos hs hw.le
    constructor
    · rintro (h0 | h1)
      · linarith
      · by_contra hc
        push_neg at hc
        by_cases hh : 0 < h
        · linarith
        · push_neg at hh
          nlinarith
    · intro h1
      by_cases hh : 0 < h
      · exact Or.inl hh
      · right
        push_neg at hh
        nlinarith

theorem distSqToLineSegment_nonneg {α : Type} [LinearOrderedField α]
    (px py x1 y1 x2 y2 : α) : 0 ≤ distSqToLineSegment px py x1 y1 x2 y2 := by
  unfold distSqToLineSegment
  exact add_nonneg (mul_self_nonneg _) (mul_self_nonneg _)

/-- The distance of the source is the root of `distSqToLineSegment`. -/
theorem distanceToLineSegment_eq_sqrt (px py x1 y1 x2 y2 : ℝ) :
    distanceToLineSegment px py x1 y1 x2 y2
      = Real.sqrt (distSqToLineSegment px py x1 y1 x2 y2) := by
  unfold distanceToLineSegment distSqToLineSegment closestOnSegment
  simp only

theorem distanceFromLineSegment_eq (px py x1 y1 x2 y2 : ℝ) :
    distanceFromLineSegment px py x1 y1 x2 y2 = distanceToLineSegment px py x1 y1 x2 y2 :=
  rfl

/-- The test `dist * canvas.width < h` of the source, over the reals. -/
theorem sqrtTimesLt_distSq_iff (px py x1 y1 x2 y2 w h : ℝ) :
    sqrtTimesLt (distSqToLineSegment px py x1 y1 x2 y2) w h = true
      ↔ distanceToLineSegment px py x1 y1 x2 y2 * w < h := by
  rw [distanceToLineSegment_eq_sqrt]
  exact sqrtTimesLt_iff _ _ _ (distSqToLineSegment_nonneg _ _ _ _ _ _)

theorem foot_lo (A B C D t : ℝ) (ht0 : 0 ≤ t) (hd : A * C + B * D ≤ 0) :
    A * A + B * B ≤ (A - t * C) ^ 2 + (B - t * D) ^ 2 := by
  nlinarith [mul_nonneg ht0 (neg_nonneg.mpr hd),
    mul_nonneg (mul_nonneg ht0 ht0) (add_nonneg (mul_self_nonneg C) (mul_self_nonneg D))]

theorem foot_hi (A B C D t : ℝ) (ht1 : t ≤ 1) (hd : C * C + D * D ≤ A * C + B * D) :
    (A - C) * (A - C) + (B - D) * (B - D) ≤ (A - t * C) ^ 2 + (B - t * D) ^ 2 := by
  have h1 : 0 ≤ 1 - t := sub_nonneg.mpr ht1
  nlinarith [mul_nonneg h1 (sub_nonneg.mpr hd),
    mul_nonneg (mul_nonneg h1 h1) (add_nonneg (mul_self_nonneg C) (mul_self_nonneg D))]

theorem foot_mid (A B C D p t : ℝ) (hp : p * (C * C + D * D) = A * C + B * D) :
    (A - p * C) * (A - p * C) + (B - p * D) * (B - p * D)
      ≤ (A - t * C) ^ 2 + (B - t * D) ^ 2 := by
  have key : (A - t * C) ^ 2 + (B - t * D) ^ 2
      - ((A - p * C) * (A - p * C) + (B - p * D) * (B - p * D))
      = (C * C + D * D) * (t - p) ^ 2 := by
    linear_combination (2 * (t - p)) * hp
  have : 0 ≤ (C * C + D * D) * (t - p) ^ 2 :=
    mul_nonneg (add_nonneg (mul_self_nonneg C) (mul_self_nonneg D)) (sq_nonneg _)
  linarith

/-- Some point of the closed segment realises `distSqToLineSegment`. -/
theorem distSq_attained (px py x1 y1 x2 y2 : ℝ) :
    ∃ t, 0 ≤ t ∧ t ≤ 1 ∧ distSqToLineSegment px py x1 y1 x2 y2
      = (px - (x1 + t * (x2 - x1))) ^ 2 + (py - (y1 + t * (y2 - y1))) ^ 2 := by
  unfold distSqToLineSegment closestOnSegment
  simp only
  split_ifs with h0 h1 h2 h3 h4
  · exact ⟨0, le_refl _, zero_le_one, by ring⟩
  · exact ⟨1, zero_le_one, le_refl _, by ring⟩
  · push_neg at h1 h2
    exact ⟨_, h1, h2, by ring⟩
  · exact ⟨0, le_refl _, zero_le_one, by ring⟩
  · exact ⟨1, zero_le_one, le_refl _, by ring⟩
  · exfalso; linarith

/-- No point of the closed segment is closer than `distSqToLineSegment`. -/
theorem distSq_le (px py x1 y1 x2 y2 t : ℝ) (ht0 : 0 ≤ t) (ht1 : t ≤ 1) :
    distSqToLineSegment px py x1 y1 x2 y2
      ≤ (px - (x1 + t * (x2 - x1))) ^ 2 + (py - (y1 + t * (y2 - y1))) ^ 2 := by
  have hLnn : 0 ≤ (x2 - x1) * (x2 - x1) + (y2 - y1) * (y2 - y1) :=
    add_nonneg (mul_self_nonneg _) (mul_self_nonneg _)
  unfold distSqToLineSegment closestOnSegment
  simp only
  split_ifs with h0 h1 h2 h3 h4
  · have hL := lt_of_le_of_ne hLnn (Ne.symm h0)
    have hd : (px - x1) * (x2 - x1) + (py - y1) * (y2 - y1) ≤ 0 := by
      by_contra hc
      push_neg at hc
      exact absurd h1 (not_lt.mpr (div_nonneg hc.le hL.le))
    have := foot_lo (px - x1) (py - y1) (x2 - x1) (y2 - y1) t ht0 hd
    linarith
  · have hL := lt_of_le_of_ne hLnn (Ne.symm h0)
    have hd : (x2 - x1) * (x2 - x1) + (y2 - y1) * (y2 - y1)
        ≤ (px - x1) * (x2 - x1) + (py - y1) * (y2 - y1) := by
      rw [gt_iff_lt, lt_div_iff₀ hL, one_mul] at h2
      exact h2.le
    have := foot_hi (px - x1) (py - y1) (x2 - x1) (y2 - y1) t ht1 hd
    linarith
  · have hL := lt_of_le_of_ne hLnn (Ne.symm h0)
    have := foot_mid (px - x1) (py - y1) (x2 - x1) (y2 - y1) _ t (div_mul_cancel₀ _ hL.ne')
    linarith
  · push_neg at h0
    obtain ⟨hx, hy⟩ := mul_self_add_mul_self_eq_zero.mp h0
    rw [hx, hy]
    apply le_of_eq
    ring
  · exfalso; linarith
  · exfalso; linarith

/-- **C8.** `distanceToLineSegment(px, py, x1, y1, x2, y2)` is the least of the Euclidean
distances from `(px, py)` to the points `(x1 + t (x2 - x1), y1 + t (y2 - y1))`,
`0 ≤ t ≤ 1`, of the closed segment, for all real arguments; for a degenerate segment it is
the distance to the endpoint; `distanceFromLineSegment` of game.js is the same function. -/
theorem distanceToLineSegment_isLeast (px py x1 y1 x2 y2 : ℝ) :
    IsLeast {r : ℝ | ∃ t, 0 ≤ t ∧ t ≤ 1 ∧
        r = Real.sqrt ((px - (x1 + t * (x2 - x1))) ^ 2 + (py - (y1 + t * (y2 - y1))) ^ 2)}
      (distanceToLineSegment px py x1 y1 x2 y2)
    ∧ (x1 = x2 → y1 = y2 →
        distanceToLineSegment px py x1 y1 x2 y2 = Real.sqrt ((px - x1) ^ 2 + (py - y1) ^ 2))
    ∧ distanceFromLineSegment px py x1 y1 x2 y2 = distanceToLineSegment px py x1 y1 x2 y2 := by
  refine ⟨⟨?_, ?_⟩, ?_, rfl⟩
  · obtain ⟨t, h0, h1, h⟩ := distSq_attained px py x1 y1 x2 y2
    exact ⟨t, h0, h1, by rw [distanceToLineSegment_eq_sqrt, h]⟩
  · rintro r ⟨t, h0, h1, rfl⟩
    rw [distanceToLineSegment_eq_sqrt]
    exact Real.sqrt_le_sqrt (distSq_le px py x1 y1 x2 y2 t h0 h1)
  · intro hx hy
    subst hx hy
    unfold distanceToLineSegment
    simp only [sub_self, mul_zero, add_zero, ne_eq, not_true_eq_false, if_false]
    norm_num
    congr 1
    ring

theorem mem_consecutivePairs {β : Type} (l : List β) (p : β × β) :
    p ∈ consecutivePairs l ↔ ∃ i, l[i]? = some p.1 ∧ l[i + 1]? = some p.2 := by
  unfold consecutivePairs
  rw [List.mem_iff_getElem?]
  simp only [List.getElem?_zip_eq_some, List.getElem?_tail]

/-! ## The double model -/

theorem log2Aux_spec (fuel n : Nat) (hn : 0 < n) (hf : n ≤ fuel) :
    2 ^ log2Aux fuel n ≤ n ∧ n < 2 ^ (log2Aux fuel n + 1) := by
  induction fuel generalizing n with
  | zero => omega
  | succ fuel ih =>
    unfold log2Aux
    split_ifs with h2
    · simp; omega
    · obtain ⟨h1, h3⟩ := ih (n / 2) (by omega) (by omega)
      rw [pow_succ, pow_succ]
      omega

theorem log2_spec (n : Nat) (hn : 0 < n) : 2 ^ log2 n ≤ n ∧ n < 2 ^ (log2 n + 1) :=
  log2Aux_spec n n hn le_rfl

/-- Natural numbers below `2 ^ 53` are doubles. -/
theorem roundToDouble_natCast (n : Nat) (h : n < 2 ^ 53) : roundToDouble (n : ℚ) = n := by
  rcases Nat.eq_zero_or_pos n with h0 | hpos
  · simp [h0, roundToDouble]
  · obtain ⟨h1, h2⟩ := log2_spec n hpos
    have hl : log2 n < 53 := by
      by_contra hc
      have : 2 ^ 53 ≤ 2 ^ log2 n := Nat.pow_le_pow_right (by norm_num) (by omega)
      omega
    have hlog1 : log2 1 = 0 := by decide
    have hfl : floorLog2 n 1 = (log2 n : Int) := by
      unfold floorLog2
      simp [hlog1, h1]
    have hq : (n : ℚ) ≠ 0 := by exact_mod_cast hpos.ne'
    have hq0 : (0 : ℚ) < n := by exact_mod_cast hpos
    unfold roundToDouble
    simp only [hq, if_false, Rat.num_natCast, Int.natAbs_ofNat, Rat.den_natCast, hfl, hq0, if_true]
    have hmax : max ((log2 n : Int) - 52) (-1074) = (log2 n : Int) - 52 := by
      apply max_eq_left; omega
    rw [hmax]
    by_cases he : (0 : Int) ≤ (log2 n : Int) - 52
    · have h52 : (log2 n : Int) - 52 = 0 := by omega
      simp [h52, roundHalfEven, scaleByPowerOfTwo, Nat.mod_one]
    · have hk : (-((log2 n : Int) - 52)).toNat = 52 - log2 n := by omega
      simp only [he, if_false, scaleByPowerOfTwo, hk]
      have hr : roundHalfEven (n * 2 ^ (52 - log2 n)) 1 = n * 2 ^ (52 - log2 n) := by
        simp [roundHalfEven, Nat.mod_one]
      rw [hr]
      push_cast
      field_simp

/-- The sum of natural numbers is exact in doubles while it stays below `2 ^ 53`. -/
theorem foldl_add_natCast (ns : List Nat) (a : Nat) (h : a + ns.sum < 2 ^ 53) :
    (ns.map (Nat.cast : Nat → ℚ)).foldl doubleArith.add (a : ℚ) = ((a + ns.sum : Nat) : ℚ) := by
  induction ns generalizing a with
  | nil => simp
  | cons n ns ih =>
    simp only [List.sum_cons] at h
    have h1 : doubleArith.add (a : ℚ) (n : ℚ) = ((a + n : Nat) : ℚ) := by
      show roundToDouble ((a : ℚ) + (n : ℚ)) = _
      rw [← Nat.cast_add]
      exact roundToDouble_natCast _ (by omega)
    simp only [List.map_cons, List.foldl_cons, h1, List.sum_cons]
    rw [ih (a + n) (by omega)]
    congr 1
    omega

namespace GameRealistic

/-! ## Water in doubles (game-realistic.js) -/

section WaterRounded

variable {α : Type} [LinearOrderedField α]

theorem rounded_riverHit_iff (F : JsArith α) (relX relY w : α) (river : River α) :
    Rounded.riverHit F relX relY w river = true ↔
      ∃ i p1 p2, river.points[i]? = some p1 ∧ river.points[i + 1]? = some p2 ∧
        F.mul (Rounded.distanceToLineSegment F relX relY p1.x p1.y p2.x p2.y) w
          < F.div river.width 2 := by
  unfold Rounded.riverHit
  rw [List.any_eq_true]
  constructor
  · rintro ⟨p, hp, h⟩
    obtain ⟨i, h1, h2⟩ := (mem_consecutivePairs _ _).mp hp
    exact ⟨i, p.1, p.2, h1, h2, of_decide_eq_true h⟩
  · rintro ⟨i, p1, p2, h1, h2, h⟩
    exact ⟨(p1, p2), (mem_consecutivePairs _ _).mpr ⟨i, h1, h2⟩, decide_eq_true h⟩

theorem rounded_bayHit_iff (F : JsArith α) (relX relY : α) (water : Water α) :
    Rounded.bayHit F relX relY water = true ↔
      water.type = WaterType.bay ∧ water.x ≤ relX ∧ relX ≤ F.add water.x water.width ∧
        water.y ≤ relY ∧ relY ≤ F.add water.y water.height := by
  unfold Rounded.bayHit
  simp

/-- The value of `isInWater` for a config with a rivers list: the island test has the
same result on both of its branches. -/
theorem rounded_isInWater_eq (F : JsArith α) (g : Game α) (cfg : CityConfig α)
    (rivers : List (River α)) (x y : α)
    (hc : g.cityConfig = some cfg) (hr : cfg.rivers = some rivers) :
    Rounded.isInWater F g x y =
      (rivers.any (Rounded.riverHit F (F.div x g.canvasWidth) (F.div y g.canvasHeight)
          g.canvasWidth) ||
        (match cfg.water with
          | some water => Rounded.bayHit F (F.div x g.canvasWidth) (F.div y g.canvasHeight) water
          | none => false)) := by
  unfold Rounded.isInWater
  simp only [hc, hr]
  cases cfg.water <;> simp only <;> split_ifs <;> simp_all

end WaterRounded

/-- **C6, counterexample.** The canvas point `(500, 460)` of a 1000 x 1000 canvas in
`riverCity` (one river of width 80 along `y = 0.5`, no bay, no islands). The distance from
`(0.5, 0.46)` to the river segment is `0.04`, and `0.04 * 1000 = 40 = 80 / 2` is not less
than `river.width / 2`: condition (a) fails and there is no bay, and in exact arithmetic
`isInWater` is false. In doubles `0.46 - 0.5` is `-0.03999999999999998`, the computed
`dist * canvas.width` is `39.99999999999998 < 40`, and `isInWater(500, 460)` is true. -/
theorem isInWater_true_at_half_width :
    riverCity.rivers = some [{ width := 80, points := [⟨0, 1/2⟩, ⟨1, 1/2⟩] }]
    ∧ riverCity.water = none ∧ riverCity.islands = none
    ∧ (riverGame 3).canvasWidth = 1000 ∧ (riverGame 3).canvasHeight = 1000
    ∧ ¬ (distanceToLineSegment (500 / 1000) (460 / 1000) 0 (1/2) 1 (1/2) * 1000 < 80 / 2)
    ∧ isInWater (riverGame 3) 500 460 = false
    ∧ doubleArith.sub (doubleArith.div 460 1000) (1/2) = -(720575940379279 / 18014398509481984)
    ∧ doubleArith.mul
        (Rounded.distanceToLineSegment doubleArith (doubleArith.div 500 1000)
          (doubleArith.div 460 1000) 0 (1/2) 1 (1/2)) 1000
        = 5629499534213117 / 140737488355328
    ∧ (5629499534213117 / 140737488355328 : ℚ) < doubleArith.div 80 2
    ∧ Rounded.isInWater doubleArith (riverGame 3) 500 460 = true := by
  refine ⟨rfl, rfl, rfl, rfl, rfl, ?_, by decide!, by decide!, by decide!, by decide!,
    by decide!⟩
  rw [← sqrtTimesLt_distSq_iff]
  norm_num [sqrtTimesLt, distSqToLineSegment, closestOnSegment]

/-- **C6, amended.** For a city config with a rivers list (whether or not it has islands:
the island test cannot change the result) and for every arithmetic `F` of the numbers,
that of doubles included, `isInWater(x, y)` is true exactly when (a) for some pair of
consecutive points of some river, the value that `distanceToLineSegment` computes for
`(x / canvas.width, y / canvas.height)` and their segment, times `canvas.width`, is less
than `river.width / 2`, each operation with the rounding of `F`, or (b) the normalised
point lies in the closed rectangle of a `'bay'` water entry, whose far edges are the
rounded sums `water.x + water.width` and `water.y + water.height`. -/
theorem isInWater_iff_computed {α : Type} [LinearOrderedField α] (F : JsArith α)
    (g : Game α) (cfg : CityConfig α) (rivers : List (River α)) (x y : α)
    (hc : g.cityConfig = some cfg) (hr : cfg.rivers = some rivers) :
    Rounded.isInWater F g x y = true ↔
      (∃ river ∈ rivers, ∃ i p1 p2,
          river.points[i]? = some p1 ∧ river.points[i + 1]? = some p2 ∧
          F.mul (Rounded.distanceToLineSegment F (F.div x g.canvasWidth)
              (F.div y g.canvasHeight) p1.x p1.y p2.x p2.y) g.canvasWidth
            < F.div river.width 2)
      ∨ (∃ water, cfg.water = some water ∧ water.type = WaterType.bay ∧
          water.x ≤ F.div x g.canvasWidth ∧
          F.div x g.canvasWidth ≤ F.add water.x water.width ∧
          water.y ≤ F.div y g.canvasHeight ∧
          F.div y g.canvasHeight ≤ F.add water.y water.height) := by
  rw [rounded_isInWater_eq F g cfg rivers x y hc hr, Bool.or_eq_true, List.any_eq_true]
  constructor
  · rintro (⟨river, hm, h⟩ | h)
    · exact Or.inl ⟨river, hm, (rounded_riverHit_iff _ _ _ _ _).mp h⟩
    · cases hw : cfg.water with
      | none => simp [hw] at h
      | some water =>
        simp only [hw] at h
        exact Or.inr ⟨water, rfl, (rounded_bayHit_iff _ _ _ _).mp h⟩
  · rintro (⟨river, hm, h⟩ | ⟨water, hw, h⟩)
    · exact Or.inl ⟨river, hm, (rounded_riverHit_iff _ _ _ _ _).mpr h⟩
    · simp only [hw]
      exact Or.inr ((rounded_bayHit_iff _ _ _ _).mpr h)

/-- Witness of `isInWater_iff_computed`: `riverCity` on a 1000 x 1000 canvas in doubles,
at the canvas point `(500, 470)`, which is in the water. -/
theorem isInWater_iff_computed_witness :
    Rounded.isInWater doubleArith (riverGame 3) 500 470 = true
    ∧ (Rounded.isInWater doubleArith (riverGame 3) 500 470 = true ↔
      (∃ river ∈ [({ width := 80, points := [⟨0, 1/2⟩, ⟨1, 1/2⟩] } : River ℚ)],
          ∃ i p1 p2, river.points[i]? = some p1 ∧ river.points[i + 1]? = some p2 ∧
          doubleArith.mul (Rounded.distanceToLineSegment doubleArith
              (doubleArith.div 500 (riverGame 3).canvasWidth)
              (doubleArith.div 470 (riverGame 3).canvasHeight) p1.x p1.y p2.x p2.y)
              (riverGame 3).canvasWidth
            < doubleArith.div river.width 2)
      ∨ (∃ water, riverCity.water = some water ∧ water.type = WaterType.bay ∧
          water.x ≤ doubleArith.div 500 (riverGame 3).canvasWidth ∧
          doubleArith.div 500 (riverGame 3).canvasWidth
            ≤ doubleArith.add water.x water.width ∧
          water.y ≤ doubleArith.div 470 (riverGame 3).canvasHeight ∧
          doubleArith.div 470 (riverGame 3).canvasHeight
            ≤ doubleArith.add water.y water.height)) :=
  ⟨by decide!,
    isInWater_iff_computed doubleArith (riverGame 3) riverCity _ 500 470 rfl rfl⟩

/-! ## Water (game-realistic.js) -/

theorem samplePoints_getElem? {α : Type} [LinearOrderedField α] (x1 y1 x2 y2 : α) (i : Nat)
    (hi : i ≤ 20) :
    (samplePoints x1 y1 x2 y2)[i]?
      = some (x1 + (x2 - x1) * i / 20, y1 + (y2 - y1) * i / 20) := by
  unfold samplePoints samplePoint
  rw [List.getElem?_map, List.getElem?_range (by omega)]
  simp [mul_div_assoc]

/-- **C7.** `crossesWater(x1, y1, x2, y2)` is true exactly when `isInWater` is true at one
of the points `(x1 + (x2 - x1) i / 20, y1 + (y2 - y1) i / 20)`, `i = 0 .. 20`; these are
the 21 (at least 10) samples, in order, the first is `(x1, y1)` and the last `(x2, y2)`. -/
theorem crossesWater_iff {α : Type} [LinearOrderedField α] (g : Game α) (x1 y1 x2 y2 : α) :
    (crossesWater g x1 y1 x2 y2 = true ↔
      ∃ i : Nat, i ≤ 20 ∧
        isInWater g (x1 + (x2 - x1) * i / 20) (y1 + (y2 - y1) * i / 20) = true)
    ∧ (samplePoints x1 y1 x2 y2).length = 21
    ∧ 10 ≤ (samplePoints x1 y1 x2 y2).length
    ∧ (∀ i : Nat, i ≤ 20 → (samplePoints x1 y1 x2 y2)[i]?
        = some (x1 + (x2 - x1) * i / 20, y1 + (y2 - y1) * i / 20))
    ∧ (samplePoints x1 y1 x2 y2)[0]? = some (x1, y1)
    ∧ (samplePoints x1 y1 x2 y2)[20]? = some (x2, y2) := by
  have hlen : (samplePoints x1 y1 x2 y2).length = 21 := by simp [samplePoints]
  refine ⟨?_, hlen, by omega, fun i hi => samplePoints_getElem? x1 y1 x2 y2 i hi, ?_, ?_⟩
  · unfold crossesWater
    rw [List.any_eq_true]
    constructor
    · rintro ⟨p, hp, h⟩
      obtain ⟨i, hi⟩ := List.mem_iff_getElem?.mp hp
      have hlt : i < 21 := by
        rcases Nat.lt_or_ge i 21 with h' | h'
        · exact h'
        · rw [List.getElem?_eq_none (by omega)] at hi
          cases hi
      rw [samplePoints_getElem? x1 y1 x2 y2 i (by omega)] at hi
      cases hi
      exact ⟨i, by omega, h⟩
    · rintro ⟨i, hi, h⟩
      exact ⟨_, List.mem_iff_getElem?.mpr ⟨i, samplePoints_getElem? x1 y1 x2 y2 i hi⟩, h⟩
  · rw [samplePoints_getElem? x1 y1 x2 y2 0 (by omega)]
    simp
  · rw [samplePoints_getElem? x1 y1 x2 y2 20 (by omega)]
    simp

/-- **C5.** Failing input: New York on a 1000 x 1000 canvas, the canvas point `(500, 100)`.
It lies inside the rectangle of the land island Manhattan (`islandHit` is true) and on the
Harlem River polyline; `isInWater` returns true there, because the river loop returns
before the island test is reached. -/
theorem isInWater_true_inside_land_island :
    newyork.islands = some [
        { x := 5/10, y := 5/10, width := 32/100, height := 85/100, isLand := true },
        { x := 72/100, y := 4/10, width := 2/100, height := 15/100, isLand := true }]
    ∧ islandHit (500 / newyorkGame.canvasWidth) (100 / newyorkGame.canvasHeight)
        newyorkGame.canvasWidth newyorkGame.canvasHeight
        { x := 5/10, y := 5/10, width := 32/100, height := 85/100, isLand := true } = true
    ∧ isInWater newyorkGame 500 100 = true := by
  decide!

/-! ## Line editing (game-realistic.js) -/

/-- **C2.** `onMouseUp` released on a station that is not on the drawn line, whose
connection from the line's last station crosses water, with `availableBridges = 0`: the
call returns and leaves every line (stations, segments, bridges, trains), the train list,
the bridge list and the resources as they were. The drag started at a station of the
line (`hsel`), as `onMouseDown` and `onTouchStart` arrange. -/
theorem onMouseUp_refused_without_bridge {α : Type} [LinearOrderedField α]
    (g : Game α) (x y : α) (li : Nat) (line : Line α) (station lastStation : Station α)
    (hd : g.drawingLine = some li) (hl : g.lines[li]? = some line)
    (hsel : ∀ s ∈ g.selectedStation, s ∈ line.stations)
    (hs : getStationAt g x y = some station)
    (hnot : ¬ station ∈ line.stations)
    (hlast : line.stations.getLast? = some lastStation)
    (hw : crossesWater g lastStation.x lastStation.y station.x station.y = true)
    (hb : g.availableBridges = 0) :
    ∃ g', onMouseUp g x y = some g' ∧
      g'.lines = g.lines ∧ g'.lines[li]? = some line ∧
      g'.availableBridges = g.availableBridges ∧ g'.availableTrains = g.availableTrains ∧
      g'.trains = g.trains ∧ g'.bridges = g.bridges ∧ g'.stations = g.stations := by
  have hne : some station ≠ g.selectedStation := by
    intro h
    exact hnot (hsel station (by simp [← h]))
  refine ⟨clearDrawing g, ?_, rfl, hl, rfl, rfl, rfl, rfl, rfl⟩
  unfold onMouseUp
  simp only [hd, hl, hs, hlast, hw, hb]
  simp [hne, hnot]

/-- Witness of `onMouseUp_refused_without_bridge`: the spec's scenario A. After a mouse
down on the station at `(100, 100)` with 0 bridges, the mouse is released on the station
at `(900, 900)` across the river. -/
theorem onMouseUp_refused_without_bridge_witness :
    ∃ g', onMouseUp (onMouseDown (riverGame 0) 0 100 100) 900 900 = some g' ∧
      g'.lines = (onMouseDown (riverGame 0) 0 100 100).lines ∧
      g'.lines[0]? = some
        { id := 0, stations := [stationA], segments := [], trains := [], bridges := [] } ∧
      g'.availableBridges = (onMouseDown (riverGame 0) 0 100 100).availableBridges ∧
      g'.availableTrains = (onMouseDown (riverGame 0) 0 100 100).availableTrains ∧
      g'.trains = (onMouseDown (riverGame 0) 0 100 100).trains ∧
      g'.bridges = (onMouseDown (riverGame 0) 0 100 100).bridges ∧
      g'.stations = (onMouseDown (riverGame 0) 0 100 100).stations :=
  onMouseUp_refused_without_bridge (onMouseDown (riverGame 0) 0 100 100) 900 900 0
    { id := 0, stations := [stationA], segments := [], trains := [], bridges := [] }
    stationB stationA (by decide!) (by decide!) (by decide!) (by decide!) (by decide!)
    (by decide!) (by decide!) (by decide!)

/-- **C1.** Failing input: a touch that starts on the station at `(100, 100)` of a fresh
game and ends on the station at `(900, 100)`. Before `onTouchEnd` every line is in sync;
after it line 0 has the stations 2 and 0 (two stations) and no segment, because `onTouchEnd` never calls
`recalculateLineSegments`. The same gesture with the mouse leaves every line in sync. -/
theorem onTouchEnd_leaves_segments_out_of_sync :
    (∀ line ∈ (onTouchStart (riverGame 3) 100 100).lines, segmentsInSync line)
    ∧ (onTouchEnd (onTouchStart (riverGame 3) 100 100) 1000 900 100).map
        (fun g => g.lines.map fun l => (l.stations.map (·.id), l.segments.length))
        = some [([2, 0], 0), ([], 0), ([], 0)]
    ∧ (onTouchEnd (onTouchStart (riverGame 3) 100 100) 1000 900 100).map
        (fun g => decide (∀ line ∈ g.lines, segmentsInSync line)) = some false
    ∧ (onMouseUp (onMouseDown (riverGame 3) 0 100 100) 900 100).map
        (fun g => decide (∀ line ∈ g.lines, segmentsInSync line)) = some true := by
  decide!

/-- **C3.** Failing input: a line joins station 0 at `(100, 100)` and station 1 at
`(900, 900)` across the river, with 2 bridges left; a touch starts on station 0 and ends
on station 1. `onTouchEnd` adds no station (station 1 is on the line), yet
`availableBridges` drops from 2 to 1 and a second bridge record is pushed: the bridge is
consumed before the test that the station is already on the line. The same gesture with
the mouse leaves `availableBridges` at 2. -/
theorem onTouchEnd_consumes_bridge_without_adding_station :
    (onTouchEnd (onTouchStart (riverGame 3) 100 100) 1000 900 900).map
        (fun g => (g.availableBridges, g.lines.map fun l =>
          (l.stations.map (·.id), l.bridges.length)))
        = some (2, [([1, 0], 1), ([], 0), ([], 0)])
    ∧ ((onTouchEnd (onTouchStart (riverGame 3) 100 100) 1000 900 900).bind fun g1 =>
          onTouchEnd (onTouchStart g1 100 100) 5000 900 900).map
        (fun g => (g.availableBridges, g.lines.map fun l =>
          (l.stations.map (·.id), l.bridges.length)))
        = some (1, [([1, 0], 2), ([], 0), ([], 0)])
    ∧ ((onTouchEnd (onTouchStart (riverGame 3) 100 100) 1000 900 900).bind fun g1 =>
          onMouseUp (onMouseDown g1 0 100 100) 900 900).map
        (fun g => (g.availableBridges, g.lines.map fun l =>
          (l.stations.map (·.id), l.bridges.length)))
        = some (2, [([1, 0], 1), ([], 0), ([], 0)]) := by
  decide!

/-- **C4.** Failing input: with the mouse, a line is drawn from station 0 at `(100, 100)`
to station 1 at `(900, 900)` across the river, then the line is right-clicked at
`(500, 500)`. After the extension the bridge record matches exactly one segment; after
`handleRightClick` line 0 has no station and no segment but still its bridge record,
because the handler clears `stations`, `segments` and `trains` and not `bridges`. -/
theorem handleRightClick_keeps_bridge_records :
    (onMouseUp (onMouseDown (riverGame 3) 0 100 100) 900 900).map
        (fun g => (g.lines.map fun l =>
            (l.stations.length, l.segments.length, l.bridges.length),
          decide (∀ line ∈ g.lines, bridgesMatchSegments line)))
        = some ([(2, 1, 1), (0, 0, 0), (0, 0, 0)], true)
    ∧ (onMouseUp (onMouseDown (riverGame 3) 0 100 100) 900 900).map
        (fun g => ((handleRightClick g 500 500).lines.map fun l =>
            (l.stations.length, l.segments.length, l.bridges.length),
          decide (∀ line ∈ (handleRightClick g 500 500).lines, bridgesMatchSegments line)))
        = some ([(0, 0, 1), (0, 0, 0), (0, 0, 0)], false) := by
  decide!

/-! ## Passenger conservation (game-realistic.js) -/

section Conservation

variable {α : Type} [LinearOrderedField α] [FloorRing α]

theorem boardLoop_length (onLine : Passenger α → Bool) (capacity onTrain : Nat)
    (queue boarding : List (Passenger α)) :
    (boardLoop onLine capacity onTrain queue boarding).1.length
        + (boardLoop onLine capacity onTrain queue boarding).2.length
      = queue.length + boarding.length := by
  induction queue generalizing boarding with
  | nil => simp [boardLoop]
  | cons p rest ih =>
    unfold boardLoop
    split_ifs
    · rw [ih]; simp; omega
    · simp only [List.length_cons]; have := ih boarding; omega

theorem sum_length_set {β : Type} (l : List (List β)) (k : Nat) (q : List β) (hk : k < l.length) :
    ((l.set k q).map fun q => q.length).sum + (l.getD k []).length
      = (l.map fun q => q.length).sum + q.length := by
  induction l generalizing k with
  | nil => simp at hk
  | cons a t ih =>
    cases k with
    | zero => simp; omega
    | succ k =>
      simp only [List.length_cons, Nat.add_lt_add_iff_right] at hk
      have := ih k hk
      simp only [List.set_cons_succ, List.map_cons, List.sum_cons, List.getD_cons_succ]
      omega

theorem sum_passengers_set (l : List (Train α)) (ti : Nat) (t t2 : Train α)
    (h : l[ti]? = some t) :
    ((l.set ti t2).map fun t => t.passengers.length).sum + t.passengers.length
      = (l.map fun t => t.passengers.length).sum + t2.passengers.length := by
  induction l generalizing ti with
  | nil => simp at h
  | cons a r ih =>
    cases ti with
    | zero =>
      simp only [List.getElem?_cons_zero, Option.some.injEq] at h
      subst h
      simp; omega
    | succ k =>
      simp only [List.getElem?_cons_succ] at h
      have := ih k h
      simp only [List.set_cons_succ, List.map_cons, List.sum_cons]
      omega

theorem filter_length_add {β : Type} (l : List β) (q1 q2 : β → Bool)
    (h : ∀ a, q1 a = !q2 a) :
    (l.filter q1).length + (l.filter q2).length = l.length := by
  induction l with
  | nil => simp
  | cons a t ih =>
    cases h2 : q2 a <;> simp [List.filter_cons, h, h2] <;> omega

theorem sum_filter_add {β : Type} (l : List β) (f : β → Nat) (q : β → Bool) :
    ((l.filter q).map f).sum + ((l.filter fun a => !q a).map f).sum = (l.map f).sum := by
  induction l with
  | nil => simp
  | cons a t ih =>
    cases h2 : q a <;> simp [List.filter_cons, h2] <;> omega

theorem accounted_update (g : Game α) (ti k d : Nat) (train t2 : Train α)
    (q : List (Passenger α)) (ht : g.trains[ti]? = some train)
    (hq : g.waiting.length ≤ k → q = [])
    (h : t2.passengers.length + d + q.length
      = train.passengers.length + (g.waiting.getD k []).length) :
    accounted { g with
      score := g.score + (d : Int)
      waiting := g.waiting.set k q
      trains := g.trains.set ti t2 } = accounted g := by
  have e1 := sum_passengers_set g.trains ti train t2 ht
  simp only [accounted, waitingCount, onBoardCount]
  by_cases hk : k < g.waiting.length
  · have e2 := sum_length_set g.waiting k q hk
    omega
  · have hq2 := hq (by omega)
    subst hq2
    have e3 : g.waiting.set k [] = g.waiting := List.set_eq_of_length_le (by omega)
    have e4 : g.waiting.getD k [] = [] := by
      simp [List.getD_eq_getElem?_getD, List.getElem?_eq_none (Nat.le_of_not_lt hk)]
    rw [e3]
    rw [e4] at h
    simp only [List.length_nil] at h
    omega

theorem accounted_update_score (g : Game α) (ti d : Nat) (train t2 : Train α)
    (ht : g.trains[ti]? = some train)
    (h : t2.passengers.length + d = train.passengers.length) :
    accounted { g with
      score := g.score + (d : Int)
      trains := g.trains.set ti t2 } = accounted g := by
  have e1 := sum_passengers_set g.trains ti train t2 ht
  simp only [accounted, waitingCount, onBoardCount]
  omega

/-- What one train step keeps: the station list, the passenger list, the number of
queues and the sum waiting + on board + score. -/
theorem updateTrain_accounted (deltaTime : α) (g : Game α) (ti : Nat) :
    accounted (updateTrain deltaTime g ti).1 = accounted g
    ∧ (updateTrain deltaTime g ti).1.passengers = g.passengers
    ∧ (updateTrain deltaTime g ti).1.stations = g.stations
    ∧ (updateTrain deltaTime g ti).1.waiting.length = g.waiting.length := by
  unfold updateTrain
  split
  · exact ⟨rfl, rfl, rfl, rfl⟩
  · rename_i train ht
    split
    · exact ⟨rfl, rfl, rfl, rfl⟩
    · rename_i line hl
      have same : ∀ t2 : Train α, t2.passengers.length = train.passengers.length →
          accounted { g with trains := g.trains.set ti t2 } = accounted g := by
        intro t2 h2
        have := accounted_update_score g ti 0 train t2 ht (by simp [h2])
        simpa using this
      dsimp only
      split_ifs <;> (try split) <;>
        first
        | (rename_i station hs
           have f := filter_length_add train.passengers
              (fun p => decide (¬ p.targetShape = station.shape))
              (fun p => decide (p.targetShape = station.shape)) (by simp)
           have b := boardLoop_length
              (fun p => line.stations.any fun s => decide (s.shape = p.targetShape))
              train.capacity
              (train.passengers.filter fun p => decide (¬ p.targetShape = station.shape)).length
              (g.waiting.getD (g.stations.indexOf station) []) []
           split
           · refine ⟨accounted_update g ti _ _ train _ _ ht ?_ ?_, rfl, rfl, by simp⟩
             · intro hk
               simp [List.getD_eq_getElem?_getD, List.getElem?_eq_none hk, boardLoop]
             · simp only [List.length_append, List.length_nil] at b ⊢
               omega
           · refine ⟨accounted_update_score g ti _ train _ ht ?_, rfl, rfl, rfl⟩
             simp only [List.length_append, List.length_nil] at b ⊢
             omega)
        | exact ⟨rfl, rfl, rfl, rfl⟩
        | exact ⟨same _ rfl, rfl, rfl, rfl⟩

theorem updateTrainsFrom_accounted (deltaTime : α) (l : List Nat) (g : Game α) :
    accounted (updateTrainsFrom deltaTime l g).1 = accounted g
    ∧ (updateTrainsFrom deltaTime l g).1.passengers = g.passengers
    ∧ (updateTrainsFrom deltaTime l g).1.stations = g.stations
    ∧ (updateTrainsFrom deltaTime l g).1.waiting.length = g.waiting.length := by
  induction l generalizing g with
  | nil => exact ⟨rfl, rfl, rfl, rfl⟩
  | cons ti rest ih =>
    have h1 := updateTrain_accounted deltaTime g ti
    unfold updateTrainsFrom
    dsimp only
    split_ifs
    · exact h1
    · have h2 := ih (updateTrain deltaTime g ti).1
      exact ⟨h2.1.trans h1.1, h2.2.1.trans h1.2.1, h2.2.2.1.trans h1.2.2.1,
        h2.2.2.2.trans h1.2.2.2⟩

theorem spawnPassenger_balance (g : Game α) (r1 r2 : α)
    (h : g.waiting.length = g.stations.length) :
    accounted (spawnPassenger g r1 r2) - spawned (spawnPassenger g r1 r2)
        = accounted g - spawned g
    ∧ (spawnPassenger g r1 r2).stations = g.stations
    ∧ (spawnPassenger g r1 r2).waiting.length = g.waiting.length := by
  unfold spawnPassenger
  split_ifs
  · exact ⟨rfl, rfl, rfl⟩
  · dsimp only
    split
    · exact ⟨rfl, rfl, rfl⟩
    · rename_i s hs
      have hk : ⌊r1 * (g.stations.length : α)⌋₊ < g.waiting.length := by
        rw [h]; exact (List.getElem?_eq_some_iff.mp hs).1
      split_ifs
      · split
        · exact ⟨rfl, rfl, rfl⟩
        · refine ⟨?_, rfl, by simp⟩
          have e := sum_length_set g.waiting ⌊r1 * (g.stations.length : α)⌋₊
            (g.waiting.getD ⌊r1 * (g.stations.length : α)⌋₊ [] ++
              [{ id := g.passengers.length, station := ⌊r1 * (g.stations.length : α)⌋₊,
                 targetShape := (by assumption), waitTime := (0 : α) }]) hk
          simp only [accounted, waitingCount, onBoardCount, spawned, List.length_append,
            List.length_singleton] at e ⊢
          omega
      · exact ⟨rfl, rfl, rfl⟩

theorem handleRightClick_balance (g : Game α) (x y : α) :
    accounted (handleRightClick g x y) = accounted g - lostOnBoard g (handleRightClick g x y)
    ∧ spawned (handleRightClick g x y) = spawned g
    ∧ (handleRightClick g x y).stations = g.stations
    ∧ (handleRightClick g x y).waiting.length = g.waiting.length := by
  unfold handleRightClick
  split
  · refine ⟨?_, rfl, rfl, rfl⟩
    have e : (g.trains.filter fun t => decide (t ∉ g.trains)) = [] := by
      simp
    simp only [lostOnBoard, e, List.map_nil, List.sum_nil, Nat.cast_zero, sub_zero]
  · split
    · refine ⟨?_, rfl, rfl, rfl⟩
      have e : (g.trains.filter fun t => decide (t ∉ g.trains)) = [] := by
        simp
      simp only [lostOnBoard, e, List.map_nil, List.sum_nil, Nat.cast_zero, sub_zero]
    · rename_i li _ _ line _
      refine ⟨?_, rfl, rfl, rfl⟩
      have e1 : (g.trains.filter fun t =>
            decide (t ∉ g.trains.filter fun t => decide (t.line ≠ li)))
          = g.trains.filter fun t => !decide (t.line ≠ li) := by
        apply List.filter_congr
        intro t ht
        simp [List.mem_filter, ht]
      have e2 := sum_filter_add g.trains (fun t => t.passengers.length)
        (fun t => decide (t.line ≠ li))
      simp only [accounted, waitingCount, onBoardCount, lostOnBoard, e1]
      omega

/-- **C16 (amended).** In a game with one queue per station, the balance
(waiting + on board + score) - (spawned) is unchanged by `spawnPassenger`, and
`updateTrains` changes neither the sum nor the number spawned (also when the call throws).
`handleRightClick` keeps the number spawned and lowers the sum by the number of passengers
on board the trains it removes. All three keep one queue per station. -/
theorem passenger_balance (g : Game α) (r1 r2 deltaTime x y : α)
    (h : g.waiting.length = g.stations.length) :
    (accounted (spawnPassenger g r1 r2) - spawned (spawnPassenger g r1 r2)
        = accounted g - spawned g)
    ∧ (accounted (updateTrains g deltaTime).1 = accounted g
        ∧ spawned (updateTrains g deltaTime).1 = spawned g)
    ∧ (accounted (handleRightClick g x y)
          = accounted g - lostOnBoard g (handleRightClick g x y)
        ∧ spawned (handleRightClick g x y) = spawned g)
    ∧ (spawnPassenger g r1 r2).waiting.length = (spawnPassenger g r1 r2).stations.length
    ∧ (updateTrains g deltaTime).1.waiting.length
        = (updateTrains g deltaTime).1.stations.length
    ∧ (handleRightClick g x y).waiting.length = (handleRightClick g x y).stations.length := by
  have hs := spawnPassenger_balance g r1 r2 h
  have hu := updateTrainsFrom_accounted deltaTime (List.range g.trains.length) g
  have hr := handleRightClick_balance g x y
  refine ⟨hs.1, ⟨hu.1, ?_⟩, ⟨hr.1, hr.2.1⟩, ?_, ?_, ?_⟩
  · simp only [spawned, updateTrains, hu.2.1]
  · rw [hs.2.1, hs.2.2, h]
  · simp only [updateTrains, hu.2.2.1, hu.2.2.2, h]
  · rw [hr.2.2.1, hr.2.2.2, h]

end Conservation

set_option maxRecDepth 100000 in
/-- **C16, counterexample.** On the line from station 0 to station 2 a passenger is spawned
at station 0 and boards the train in the next frame: 0 waiting, 1 on board, score 0,
1 spawned. A right click on the line at `(500, 100)` removes the train with the passenger
on board: 0 waiting, 0 on board, score 0, 1 spawned. -/
theorem handleRightClick_drops_passengers_on_board :
    lineAC.lines.map (fun l => l.stations.map fun s => s.id) = [[0, 2], [], []]
    ∧ (waitingCount (spawnPassenger lineAC 0 (1 / 2)),
        onBoardCount (spawnPassenger lineAC 0 (1 / 2)),
        (spawnPassenger lineAC 0 (1 / 2)).score,
        spawned (spawnPassenger lineAC 0 (1 / 2))) = (1, 0, 0, 1)
    ∧ (updateTrains (spawnPassenger lineAC 0 (1 / 2)) 16).2 = false
    ∧ (waitingCount boardedGame, onBoardCount boardedGame, boardedGame.score,
        spawned boardedGame) = (0, 1, 0, 1)
    ∧ (waitingCount (handleRightClick boardedGame 500 100),
        onBoardCount (handleRightClick boardedGame 500 100),
        (handleRightClick boardedGame 500 100).score,
        spawned (handleRightClick boardedGame 500 100)) = (0, 0, 0, 1)
    ∧ accounted (handleRightClick boardedGame 500 100)
        ≠ spawned (handleRightClick boardedGame 500 100) := by
  decide!

set_option maxRecDepth 100000 in
/-- The amended balance on the game of the counterexample: the right click lowers the sum
by the one passenger on board the removed train. -/
theorem passenger_balance_witness :
    boardedGame.waiting.length = boardedGame.stations.length
    ∧ ((accounted (spawnPassenger boardedGame 0 (1 / 2))
          - spawned (spawnPassenger boardedGame 0 (1 / 2))
        = accounted boardedGame - spawned boardedGame)
      ∧ (accounted (updateTrains boardedGame 16).1 = accounted boardedGame
          ∧ spawned (updateTrains boardedGame 16).1 = spawned boardedGame)
      ∧ (accounted (handleRightClick boardedGame 500 100)
            = accounted boardedGame
              - lostOnBoard boardedGame (handleRightClick boardedGame 500 100)
          ∧ spawned (handleRightClick boardedGame 500 100) = spawned boardedGame)
      ∧ (spawnPassenger boardedGame 0 (1 / 2)).waiting.length
          = (spawnPassenger boardedGame 0 (1 / 2)).stations.length
      ∧ (updateTrains boardedGame 16).1.waiting.length
          = (updateTrains boardedGame 16).1.stations.length
      ∧ (handleRightClick boardedGame 500 100).waiting.length
          = (handleRightClick boardedGame 500 100).stations.length)
    ∧ lostOnBoard boardedGame (handleRightClick boardedGame 500 100) = 1 :=
  ⟨by decide!, passenger_balance boardedGame 0 (1 / 2) 16 500 100 (by decide!), by decide!⟩

/-! ## Station generation (game-realistic.js) -/

section Generation2
variable {α : Type} [LinearOrderedField α] [FloorRing α]

theorem isInWater_congr (g1 g2 : Game α) (x y : α) (hc : g1.cityConfig = g2.cityConfig)
    (hw : g1.canvasWidth = g2.canvasWidth) (hh : g1.canvasHeight = g2.canvasHeight) :
    isInWater g1 x y = isInWater g2 x y := by
  unfold isInWater
  rw [hc, hw, hh]

theorem not_hypotLt (dx dy r : α) (hr : 0 < r) (h : hypotLt dx dy r = false) :
    r * r ≤ dx * dx + dy * dy := by
  unfold hypotLt sqrtTimesLt at h
  rw [if_pos zero_le_one] at h
  simp only [decide_eq_false_iff_not, not_and, not_lt, mul_one] at h
  exact h hr

theorem floor_index_lt (r : α) (n : Nat) (h0 : 0 ≤ r) (h1 : r < 1) (hn : 0 < n) :
    ⌊r * (n : α)⌋₊ < n := by
  rw [Nat.floor_lt (mul_nonneg h0 (Nat.cast_nonneg n))]
  have hn' : (0 : α) < (n : α) := Nat.cast_pos.mpr hn
  calc r * (n : α) < 1 * (n : α) := mul_lt_mul_of_pos_right h1 hn'
    _ = (n : α) := one_mul _

/-- The attempt loop of one slot: it returns, makes at most `remaining` attempts, and
either leaves the game as it is after exactly `remaining` failed attempts or appends one
station with the slot's id at a position that passed both tests. -/
theorem placeStation_spec (minDistance : α) (spawnZones : List (SpawnZone α)) (i : Nat)
    (rand : Nat → α) (hz : spawnZones ≠ []) (hr : ∀ k, 0 ≤ rand k ∧ rand k < 1)
    (remaining : Nat) (g : Game α) (attempts cursor : Nat) :
    ∃ g1 a1 c1, placeStation false minDistance spawnZones i rand remaining g attempts cursor
        = some (g1, a1, c1)
      ∧ a1 ≤ attempts + remaining
      ∧ g1.cityConfig = g.cityConfig ∧ g1.canvasWidth = g.canvasWidth
      ∧ g1.canvasHeight = g.canvasHeight
      ∧ ((g1.stations = g.stations ∧ a1 = attempts + remaining)
        ∨ ∃ x y shape, g1.stations = g.stations ++ [{ id := i, x := x, y := y, shape := shape }]
            ∧ isInWater g x y = false ∧ isValidStationPosition g x y minDistance = true) := by
  induction remaining generalizing attempts cursor with
  | zero => exact ⟨g, attempts, cursor, rfl, le_refl _, rfl, rfl, rfl, Or.inl ⟨rfl, rfl⟩⟩
  | succ remaining ih =>
    unfold placeStation
    have hlen : 0 < spawnZones.length := List.length_pos.mpr hz
    have hi := floor_index_lt (rand cursor) spawnZones.length (hr cursor).1 (hr cursor).2 hlen
    rw [List.getElem?_eq_getElem hi]
    dsimp only
    simp only [Bool.false_eq_true, if_false]
    have hpos : 0 < (if i < 3 then stationShapes else stationShapes ++ rareShapes).length := by
      split_ifs <;> simp [stationShapes, rareShapes]
    generalize (if i < 3 then stationShapes else stationShapes ++ rareShapes) = shapes at hpos ⊢
    split_ifs with hok
    · have hj := floor_index_lt (rand (cursor + 3)) _ (hr (cursor + 3)).1 (hr (cursor + 3)).2 hpos
      rw [List.getElem?_eq_getElem hj]
      simp only [Bool.and_eq_true, Bool.not_eq_true'] at hok
      exact ⟨_, _, _, rfl, by omega, rfl, rfl, rfl, Or.inr ⟨_, _, _, rfl, hok.1, hok.2⟩⟩
    · obtain ⟨g1, a1, c1, h1, h2, h3, h4, h5, h6⟩ := ih (attempts + 1) (cursor + 3)
      refine ⟨g1, a1, c1, h1, by omega, h3, h4, h5, ?_⟩
      rcases h6 with ⟨h6, h7⟩ | h6
      · exact Or.inl ⟨h6, by omega⟩
      · exact Or.inr h6

theorem WellPlaced.congr {g1 g2 : Game α} {minDistance : α} {stations : List (Station α)}
    (h : WellPlaced g1 minDistance stations) (hc : g2.cityConfig = g1.cityConfig)
    (hw : g2.canvasWidth = g1.canvasWidth) (hh : g2.canvasHeight = g1.canvasHeight) :
    WellPlaced g2 minDistance stations :=
  ⟨fun s hs => (isInWater_congr g2 g1 s.x s.y hc hw hh).trans (h.1 s hs), h.2⟩

theorem WellPlaced.append {g : Game α} {minDistance : α} (hmd : 0 < minDistance)
    (h : WellPlaced g minDistance g.stations) (i : Nat) (x y : α) (shape : Shape)
    (hw : isInWater g x y = false) (hv : isValidStationPosition g x y minDistance = true) :
    WellPlaced g minDistance (g.stations ++ [{ id := i, x := x, y := y, shape := shape }]) := by
  refine ⟨fun s hs => ?_, ?_⟩
  · rcases List.mem_append.mp hs with hs | hs
    · exact h.1 s hs
    · rw [List.mem_singleton] at hs
      subst hs
      exact hw
  · rw [List.pairwise_append]
    refine ⟨h.2, List.pairwise_singleton _ _, fun s hs t ht => ?_⟩
    rw [List.mem_singleton] at ht
    subst ht
    unfold isValidStationPosition at hv
    rw [List.all_eq_true] at hv
    have := hv s hs
    simp only [Bool.not_eq_true'] at this
    exact not_hypotLt _ _ _ hmd this

/-- The loop over the slots: it returns; the stations it appends are well placed, their
ids are slots in increasing position, every slot took at most 100 attempts, and a slot
without a station took exactly 100. -/
theorem placeStations_spec (minDistance : α) (hmd : 0 < minDistance)
    (spawnZones : List (SpawnZone α)) (rand : Nat → α) (hz : spawnZones ≠ [])
    (hr : ∀ k, 0 ≤ rand k ∧ rand k < 1) (slots : List Nat) (g : Game α) (cursor : Nat)
    (hg : WellPlaced g minDistance g.stations) :
    ∃ g1 attempts c1 new,
      placeStations false minDistance spawnZones rand slots g cursor = some (g1, attempts, c1)
      ∧ g1.stations = g.stations ++ new
      ∧ g1.cityConfig = g.cityConfig ∧ g1.canvasWidth = g.canvasWidth
      ∧ g1.canvasHeight = g.canvasHeight
      ∧ WellPlaced g1 minDistance g1.stations
      ∧ (new.map fun s => s.id).Sublist slots
      ∧ attempts.length = slots.length
      ∧ (∀ a ∈ attempts, a ≤ 100)
      ∧ (∀ (j i : Nat), slots[j]? = some i →
          (∃ s ∈ new, s.id = i) ∨ attempts[j]? = some 100) := by
  induction slots generalizing g cursor with
  | nil =>
    exact ⟨g, [], cursor, [], rfl, by simp, rfl, rfl, rfl, hg, by simp, rfl, by simp,
      by simp⟩
  | cons i rest ih =>
    obtain ⟨g1, a1, c1, h1, h2, h3, h4, h5, h6⟩ :=
      placeStation_spec minDistance spawnZones i rand hz hr 100 g 0 cursor
    have hg1 : WellPlaced g1 minDistance g1.stations := by
      rcases h6 with ⟨h6, _⟩ | ⟨x, y, shape, h6, hw, hv⟩
      · rw [h6]; exact hg.congr h3 h4 h5
      · rw [h6]; exact (hg.append hmd i x y shape hw hv).congr h3 h4 h5
    obtain ⟨g2, attempts, c2, new, k1, k2, k3, k4, k5, k6, k7, k8, k9, k10⟩ := ih g1 c1 hg1
    unfold placeStations
    rw [h1]
    dsimp only
    rw [k1]
    dsimp only
    rcases h6 with ⟨h6, h7⟩ | ⟨x, y, shape, h6, _, _⟩
    · refine ⟨g2, a1 :: attempts, c2, new, rfl, by rw [k2, h6], k3.trans h3, k4.trans h4,
        k5.trans h5, k6, k7.cons _, by simp [k8], ?_, ?_⟩
      · intro a ha
        rcases List.mem_cons.mp ha with ha | ha
        · omega
        · exact k9 a ha
      · intro j i' hj
        cases j with
        | zero => right; simp; omega
        | succ j =>
          simp only [List.getElem?_cons_succ] at hj ⊢
          exact k10 j i' hj
    · refine ⟨g2, a1 :: attempts, c2, { id := i, x := x, y := y, shape := shape } :: new, rfl,
        by rw [k2, h6]; simp, k3.trans h3, k4.trans h4, k5.trans h5, k6, ?_, by simp [k8], ?_, ?_⟩
      · simp only [List.map_cons]
        exact k7.cons₂ _
      · intro a ha
        rcases List.mem_cons.mp ha with ha | ha
        · omega
        · exact k9 a ha
      · intro j i' hj
        cases j with
        | zero =>
          left
          simp only [List.getElem?_cons_zero, Option.some.injEq] at hj
          exact ⟨_, List.mem_cons_self _ _, hj⟩
        | succ j =>
          simp only [List.getElem?_cons_succ] at hj ⊢
          rcases k10 j i' hj with ⟨s, hs, hid⟩ | h
          · exact Or.inl ⟨s, List.mem_cons_of_mem _ hs, hid⟩
          · exact Or.inr h

/-- **C21.** Desktop branch of `generateInitialStations`, for a city with at least one
spawn zone and every sequence of draws in `[0, 1)`: the call returns; it leaves at most 6
stations, none in water, every two at squared distance at least `120 * 120`; the ids of
the stations are slots of `0..5` in increasing order; every slot took at most 100
attempts, and a slot without a station took exactly 100. -/
theorem generateInitialStations_spec (g : Game α) (cfg : CityConfig α) (rand : Nat → α)
    (hc : g.cityConfig = some cfg) (hz : cfg.spawnZones ≠ some [])
    (hr : ∀ k, 0 ≤ rand k ∧ rand k < 1) :
    ∃ g1 attempts, generateInitialStations g false rand = some (g1, attempts)
      ∧ g1.stations.length ≤ 6
      ∧ (∀ s ∈ g1.stations, isInWater g1 s.x s.y = false)
      ∧ (g1.stations.Pairwise fun s t =>
          120 * 120 ≤ (s.x - t.x) * (s.x - t.x) + (s.y - t.y) * (s.y - t.y))
      ∧ (g1.stations.map fun s => s.id).Sublist (List.range 6)
      ∧ attempts.length = 6
      ∧ (∀ a ∈ attempts, a ≤ 100)
      ∧ (∀ i : Nat, i < 6 → (∃ s ∈ g1.stations, s.id = i) ∨ attempts[i]? = some 100) := by
  have key : ∀ (g0 : Game α) (zones : List (SpawnZone α)), g0.stations = [] → zones ≠ [] →
      ∃ g1 attempts,
        (placeStations false 120 zones rand (List.range 6) g0 0).map
            (fun r => (r.1, r.2.1)) = some (g1, attempts)
        ∧ g1.stations.length ≤ 6
        ∧ (∀ s ∈ g1.stations, isInWater g1 s.x s.y = false)
        ∧ (g1.stations.Pairwise fun s t =>
            120 * 120 ≤ (s.x - t.x) * (s.x - t.x) + (s.y - t.y) * (s.y - t.y))
        ∧ (g1.stations.map fun s => s.id).Sublist (List.range 6)
        ∧ attempts.length = 6
        ∧ (∀ a ∈ attempts, a ≤ 100)
        ∧ (∀ i : Nat, i < 6 → (∃ s ∈ g1.stations, s.id = i) ∨ attempts[i]? = some 100) := by
    intro g0 zones h0 hzones
    obtain ⟨g1, attempts, c1, new, k1, k2, _, _, _, k6, k7, k8, k9, k10⟩ :=
      placeStations_spec (120 : α) (by norm_num) zones rand hzones hr (List.range 6) g0 0
        ⟨fun s hs => by simp [h0] at hs, by rw [h0]; exact List.Pairwise.nil⟩
    rw [h0, List.nil_append] at k2
    refine ⟨g1, attempts, by rw [k1]; rfl, ?_, k6.1, k6.2, ?_, by simpa using k8, k9, ?_⟩
    · have := k7.length_le
      simp only [List.length_map, List.length_range] at this
      rw [k2]
      exact this
    · rw [k2]
      exact k7
    · intro i hi
      rcases k10 i i (by simp [List.getElem?_range hi]) with ⟨s, hs, hid⟩ | h
      · exact Or.inl ⟨s, by rw [k2]; exact hs, hid⟩
      · exact Or.inr h
  unfold generateInitialStations
  simp only [hc, Bool.false_eq_true, if_false]
  cases hsz : cfg.spawnZones with
  | none => exact key _ _ rfl (by simp)
  | some zones =>
    refine key _ zones rfl ?_
    intro h
    exact hz (by rw [hsz, h])

end Generation2

theorem sampleDraws_range (k : Nat) : 0 ≤ sampleDraws k ∧ sampleDraws k < 1 := by
  unfold sampleDraws
  constructor
  · positivity
  · rw [div_lt_one (by norm_num)]
    have : (k * 37 + 11) % 100 < 100 := Nat.mod_lt _ (by norm_num)
    exact_mod_cast this

set_option maxRecDepth 100000 in
/-- Witness of `generateInitialStations_spec`: New York with the draws `sampleDraws` gets
six stations, slot 2 at its third attempt; the river city with every draw `1/4` gets one
station at `(300, 300)` and skips the five other slots after 100 attempts each. -/
theorem generateInitialStations_spec_witness :
    ((generateInitialStations newyorkGame false sampleDraws).map fun r =>
        (r.1.stations.map (fun s => (s.id, s.x, s.y)), r.2))
      = some ([(0, 140, 745), (1, 960, 381), (2, 2724 / 5, 171), (3, 1996 / 5, 304 / 5),
          (4, 2668 / 5, 843), (5, 745, 479)], [1, 1, 3, 1, 1, 1])
    ∧ ((generateInitialStations (riverGame 3) false fun _ => 1 / 4).map fun r =>
        (r.1.stations.map (fun s => (s.id, s.x, s.y)), r.2))
      = some ([(0, 300, 300)], [1, 100, 100, 100, 100, 100])
    ∧ ∃ g1 attempts, generateInitialStations newyorkGame false sampleDraws = some (g1, attempts)
      ∧ g1.stations.length ≤ 6
      ∧ (∀ s ∈ g1.stations, isInWater g1 s.x s.y = false)
      ∧ (g1.stations.Pairwise fun s t =>
          120 * 120 ≤ (s.x - t.x) * (s.x - t.x) + (s.y - t.y) * (s.y - t.y))
      ∧ (g1.stations.map fun s => s.id).Sublist (List.range 6)
      ∧ attempts.length = 6
      ∧ (∀ a ∈ attempts, a ≤ 100)
      ∧ (∀ i : Nat, i < 6 → (∃ s ∈ g1.stations, s.id = i) ∨ attempts[i]? = some 100) :=
  ⟨by decide!, by decide!,
    generateInitialStations_spec newyorkGame newyork sampleDraws rfl (by simp [newyork])
      sampleDraws_range⟩

/-! ## Clock, spawn rate and frames (game-realistic.js) -/

section Rates
variable {α : Type} [LinearOrderedField α] [FloorRing α]

theorem spawnPassenger_availableBridges (g : Game α) (r1 r2 : α) :
    (spawnPassenger g r1 r2).availableBridges = g.availableBridges := by
  unfold spawnPassenger
  split_ifs
  · rfl
  · dsimp only
    split
    · rfl
    · split_ifs
      · split <;> rfl
      · rfl

/-- **C25 (amended).** Two states of the same week, one with derived hour 8
(`dayProgress / dayDuration = 1/8`) and one with derived hour 14 (`= 1/2`): up to week 16
the rate at hour 8 is strictly greater; from week 17 on both rates are the cap 2. -/
theorem calculateSpawnRate_rush_hour (g8 g14 : Game α) (hw : g8.week = g14.week)
    (h8 : g8.dayProgress / g8.dayDuration = 1 / 8)
    (h14 : g14.dayProgress / g14.dayDuration = 1 / 2) :
    (g8.week ≤ 16 → calculateSpawnRate g14 < calculateSpawnRate g8)
    ∧ (17 ≤ g8.week → calculateSpawnRate g8 = 2 ∧ calculateSpawnRate g14 = 2) := by
  have e8 : calculateSpawnRate g8 = min ((3 / 10 + (g8.week : α) * (1 / 10)) * (3 / 2)) 2 := by
    unfold calculateSpawnRate
    simp only [h8]
    rw [if_pos (by norm_num)]
  have e14 : calculateSpawnRate g14 = min (3 / 10 + (g8.week : α) * (1 / 10)) 2 := by
    unfold calculateSpawnRate
    simp only [h14, hw]
    rw [if_neg (by norm_num)]
  rw [e8, e14]
  have hw0 : (0 : α) ≤ (g8.week : α) := Nat.cast_nonneg _
  constructor
  · intro h
    have h16 : (g8.week : α) ≤ 16 := by exact_mod_cast h
    rw [lt_min_iff]
    constructor
    · exact lt_of_le_of_lt (min_le_left _ _) (by linarith)
    · exact lt_of_le_of_lt (min_le_left _ _) (by linarith)
  · intro h
    have h17 : (17 : α) ≤ (g8.week : α) := by exact_mod_cast h
    constructor
    · exact min_eq_right (by linarith)
    · exact min_eq_right (by linarith)

theorem updateGameTime_availableBridges (g : Game α) (cfg : CityConfig α)
    (deltaTime r0 r1 r2 : α) (hc : g.cityConfig = some cfg)
    (hf : ⌊(if cfg.bridgesPerWeek = 0 then 1 else cfg.bridgesPerWeek)⌋ = 0) :
    (updateGameTime g deltaTime r0 r1 r2).1.availableBridges = g.availableBridges := by
  unfold updateGameTime
  simp only [hc, hf, add_zero]
  split_ifs <;> first | rfl | exact spawnPassenger_availableBridges _ _ _

end Rates

/-- Witness of `calculateSpawnRate_rush_hour`: week 1, day progress 2500 and 10000 of
20000. -/
theorem calculateSpawnRate_rush_hour_witness :
    (riverGame 3).week = (riverGame 3).week
    ∧ ({ riverGame 3 with dayProgress := 2500 } : Game ℚ).dayProgress
        / ({ riverGame 3 with dayProgress := 2500 } : Game ℚ).dayDuration = 1 / 8
    ∧ ({ riverGame 3 with dayProgress := 10000 } : Game ℚ).dayProgress
        / ({ riverGame 3 with dayProgress := 10000 } : Game ℚ).dayDuration = 1 / 2
    ∧ ((1 ≤ 16 → calculateSpawnRate ({ riverGame 3 with dayProgress := 10000 } : Game ℚ)
          < calculateSpawnRate ({ riverGame 3 with dayProgress := 2500 } : Game ℚ))
      ∧ (17 ≤ 1 → calculateSpawnRate ({ riverGame 3 with dayProgress := 2500 } : Game ℚ) = 2
          ∧ calculateSpawnRate ({ riverGame 3 with dayProgress := 10000 } : Game ℚ) = 2)) :=
  ⟨rfl, by decide!, by decide!,
    calculateSpawnRate_rush_hour { riverGame 3 with dayProgress := 2500 }
      { riverGame 3 with dayProgress := 10000 } rfl (by decide!) (by decide!)⟩

/-- **C25, counterexample.** In week 17 the rate is 2 at hour 8 and at hour 14: the cap
`Math.min(rate, 2.0)` is reached without the rush-hour factor. -/
theorem calculateSpawnRate_capped_in_week_17 :
    calculateSpawnRate ({ riverGame 3 with week := 17, dayProgress := 2500 } : Game ℚ) = 2
    ∧ calculateSpawnRate ({ riverGame 3 with week := 17, dayProgress := 10000 } : Game ℚ) = 2
    ∧ ¬ calculateSpawnRate ({ riverGame 3 with week := 17, dayProgress := 10000 } : Game ℚ)
        < calculateSpawnRate ({ riverGame 3 with week := 17, dayProgress := 2500 } : Game ℚ) := by
  decide!

/-- **C26.** In Berlin (`bridgesPerWeek = 0.5`) no call of `updateGameTime` changes
`availableBridges`, whatever the state: the weekly grant adds `Math.floor(0.5) = 0`.
Failing input: Berlin on day 7 with 2 bridges, 10 ms before the end of the day, and a
frame of 16 ms: the week goes from 1 to 2 and the bridges stay 2; with `bridgesPerWeek = 1`
the same frame gives 3. -/
theorem weekly_grant_adds_no_bridge_in_berlin :
    (∀ (g : Game ℚ) (deltaTime r0 r1 r2 : ℚ),
      (updateGameTime { g with cityConfig := some berlin } deltaTime r0 r1 r2).1.availableBridges
        = g.availableBridges)
    ∧ ((berlinGame.week, berlinGame.day, berlinGame.availableBridges) = (1, 7, 2)
      ∧ ((updateGameTime berlinGame 16 (99 / 100) 0 0).1.week,
          (updateGameTime berlinGame 16 (99 / 100) 0 0).1.day,
          (updateGameTime berlinGame 16 (99 / 100) 0 0).1.availableBridges) = (2, 1, 2)
      ∧ ((updateGameTime { berlinGame with cityConfig := some riverCity } 16 (99 / 100) 0 0).1.week,
          (updateGameTime { berlinGame with cityConfig := some riverCity } 16 (99 / 100) 0 0).1.availableBridges)
          = (2, 3)) := by
  refine ⟨?_, by decide!⟩
  intro g deltaTime r0 r1 r2
  exact updateGameTime_availableBridges _ berlin deltaTime r0 r1 r2 rfl (by
    rw [if_neg (by decide!), Int.floor_eq_iff]
    simp only [berlin]
    norm_num)

/-- **C23.** Failing input: the line from station 0 to station 2 with its train, game
speed 0, not paused, one frame of 16 ms. Without a spawn (draw 0.99) the train moves from
position 0 to 1/125; with a spawn (draw 0) a passenger appears and boards the train. Only
the day progress stands still. -/
theorem gameLoop_runs_at_gameSpeed_zero :
    (stillGame.gameSpeed, stillGame.paused, stillGame.gameOver) = (0, false, false)
    ∧ (stillGame.trains.map fun t => (t.position, t.passengers.length)) = [(0, 0)]
    ∧ ((gameLoop stillGame 16 (99 / 100) 0 (1 / 2)).1.trains.map
        fun t => (t.position, t.passengers.length)) = [(1 / 125, 0)]
    ∧ ((gameLoop stillGame 16 0 0 (1 / 2)).1.trains.map
        fun t => (t.position, t.passengers.length)) = [(1 / 125, 1)]
    ∧ (gameLoop stillGame 16 0 0 (1 / 2)).1.passengers.length = 1
    ∧ (gameLoop stillGame 16 0 0 (1 / 2)).1.dayProgress = stillGame.dayProgress := by
  decide!

set_option maxRecDepth 1000000 in
/-- **C28.** Failing input: the line from station 0 to station 2 (2 stations) and frames of
15 ms, so the step is `speed * dt = 0.0075`. After 267 frames the train (empty, capacity 6)
is at position 1/400 with direction -1. In the next frame the position is -1/200, the
remainder test `% 1 < 0.05` holds for the negative number, `stationIndex` is
`Math.floor(-1/200) = -1`, `line.stations[-1]` is `undefined`, and `updateTrains` throws
when it reads `station.passengers`; `gameLoop` ends with it. -/
theorem updateTrains_reads_station_before_the_line :
    (frames (99 / 100) 0 0 (frameTimes 267 15) lineAC).2 = false
    ∧ (returningGame.trains.map fun t =>
        (t.position, t.direction, t.speed, t.passengers.length, t.capacity))
        = [(1 / 400, -1, 1 / 2000, 0, 6)]
    ∧ (returningGame.lines.map fun l => l.stations.length) = [2, 0, 0]
    ∧ ((updateTrains returningGame 15).1.trains.map fun t => t.position) = [-1 / 200]
    ∧ (mod1 ((-1 / 200 : ℚ) * (2 - 1)) < 5 / 100 ∧ ⌊(-1 / 200 : ℚ) * (2 - 1)⌋ = -1)
    ∧ (updateTrains returningGame 15).2 = true
    ∧ (gameLoop returningGame (268 * 15) (99 / 100) 0 0).2 = true := by
  decide!

end GameRealistic

namespace GameJs

/-! ## Overcrowding (game.js) -/

section Overcrowding

variable {α : Type} [LinearOrderedField α]

theorem updateStation_fst (deltaTime : α) (station : Station α) (gameOver : Bool) :
    (updateStation deltaTime station gameOver).1
      = (updateStation deltaTime station false).1 := by
  unfold updateStation
  simp only
  split_ifs <;> rfl

theorem updateStation_snd (deltaTime : α) (station : Station α) (gameOver : Bool) :
    (updateStation deltaTime station gameOver).2
      = (gameOver || reachesMax deltaTime station) := by
  unfold updateStation reachesMax
  cases gameOver <;> simp only <;> split_ifs <;> simp_all

theorem updateStation_overcrowding (deltaTime : α) (station : Station α) (gameOver : Bool) :
    (updateStation deltaTime station gameOver).1.overcrowding
      = if station.passengers.length > station.capacity
        then station.overcrowding + deltaTime
        else max 0 (station.overcrowding - deltaTime) := by
  unfold updateStation
  simp only
  split_ifs <;> rfl

theorem updateStation_frame (deltaTime : α) (station : Station α) (gameOver : Bool) :
    (updateStation deltaTime station gameOver).1.maxOvercrowding = station.maxOvercrowding
    ∧ (updateStation deltaTime station gameOver).1.capacity = station.capacity
    ∧ (updateStation deltaTime station gameOver).1.passengers.length
        = station.passengers.length := by
  unfold updateStation
  simp

theorem updatePassengersLoop_getElem? (deltaTime : α) (l : List (Station α)) (gameOver : Bool)
    (i : Nat) :
    (updatePassengersLoop deltaTime l gameOver).1[i]?
      = (l[i]?).map fun s => (updateStation deltaTime s false).1 := by
  induction l generalizing gameOver i with
  | nil => simp [updatePassengersLoop]
  | cons s rest ih =>
    cases i with
    | zero => simp [updatePassengersLoop, updateStation_fst deltaTime s gameOver]
    | succ j => simp [updatePassengersLoop, ih]

theorem updatePassengersLoop_snd (deltaTime : α) (l : List (Station α)) (gameOver : Bool) :
    (updatePassengersLoop deltaTime l gameOver).2
      = (gameOver || l.any (reachesMax deltaTime)) := by
  induction l generalizing gameOver with
  | nil => simp [updatePassengersLoop]
  | cons s rest ih =>
    simp [updatePassengersLoop, ih, updateStation_snd, Bool.or_assoc]

/-- One call of `updatePassengers` seen from the station at index `i`. -/
theorem updatePassengers_station (g : Game α) (deltaTime : α) (i : Nat) (s : Station α)
    (hs : g.stations[i]? = some s) :
    (updatePassengers g deltaTime).stations[i]? = some (updateStation deltaTime s false).1
    ∧ (reachesMax deltaTime s = true → (updatePassengers g deltaTime).gameOver = true)
    ∧ (g.gameOver = true → (updatePassengers g deltaTime).gameOver = true) := by
  unfold updatePassengers
  simp only [updatePassengersLoop_getElem?, updatePassengersLoop_snd, hs, Option.map_some',
    Bool.or_eq_true, List.any_eq_true, true_and]
  refine ⟨fun h => Or.inr ⟨s, List.mem_iff_getElem?.mpr ⟨i, hs⟩, h⟩, fun h => Or.inl h⟩

end Overcrowding

/-- **C9, counterexample.** A station of capacity 6 with 7 waiting passengers and
overcrowding 7990 (within `[0, 8000]`): after `updatePassengers(50)` its overcrowding is
8040, above `maxOvercrowding`. -/
theorem updatePassengers_exceeds_maxOvercrowding :
    (0 : ℚ) ≤ 50 ∧ (50 : ℚ) < 100
    ∧ (∀ s ∈ (crowdedGame 7990).stations,
        0 ≤ s.overcrowding ∧ s.overcrowding ≤ s.maxOvercrowding)
    ∧ (updatePassengers (crowdedGame 7990) 50).stations.map
        (fun s => (s.overcrowding, s.maxOvercrowding)) = [(8040, 8000)]
    ∧ ¬ (∀ s ∈ (updatePassengers (crowdedGame 7990) 50).stations,
        0 ≤ s.overcrowding ∧ s.overcrowding ≤ s.maxOvercrowding) := by
  decide!

/-- **C9, amended.** After `updatePassengers(dt)` with `0 ≤ dt < 100`, a station that had
`0 ≤ overcrowding ≤ maxOvercrowding` before the call has
`0 ≤ overcrowding ≤ maxOvercrowding + dt < maxOvercrowding + 100`, and if its overcrowding
is above `maxOvercrowding` then `gameOver` is true. -/
theorem updatePassengers_overcrowding_bounds {α : Type} [LinearOrderedField α]
    (g : Game α) (dt : α) (i : Nat) (s : Station α)
    (hdt0 : 0 ≤ dt) (hdt : dt < 100) (hs : g.stations[i]? = some s)
    (hlo : 0 ≤ s.overcrowding) (hhi : s.overcrowding ≤ s.maxOvercrowding) :
    ∃ s', (updatePassengers g dt).stations[i]? = some s' ∧
      s'.maxOvercrowding = s.maxOvercrowding ∧
      0 ≤ s'.overcrowding ∧
      s'.overcrowding ≤ s'.maxOvercrowding + dt ∧
      s'.overcrowding < s'.maxOvercrowding + 100 ∧
      (s'.maxOvercrowding < s'.overcrowding → (updatePassengers g dt).gameOver = true) := by
  obtain ⟨h1, h2, -⟩ := updatePassengers_station g dt i s hs
  refine ⟨_, h1, (updateStation_frame dt s false).1, ?_⟩
  rw [(updateStation_frame dt s false).1, updateStation_overcrowding]
  by_cases hq : s.passengers.length > s.capacity
  · simp only [hq, if_true]
    refine ⟨by linarith, by linarith, by linarith, fun h => h2 ?_⟩
    simp only [reachesMax, decide_eq_true_eq, ge_iff_le]
    exact ⟨hq, h.le⟩
  · simp only [hq, if_false]
    have hle : max 0 (s.overcrowding - dt) ≤ s.overcrowding :=
      max_le hlo (by linarith)
    refine ⟨le_max_left _ _, by linarith, by linarith, fun h => ?_⟩
    exact absurd (lt_of_lt_of_le h hle) (not_lt.mpr hhi)

/-- Witness of `updatePassengers_overcrowding_bounds`: the station of the counterexample,
ticked by 50 ms. -/
theorem updatePassengers_overcrowding_bounds_witness :
    ∃ s', (updatePassengers (crowdedGame 7990) 50).stations[0]? = some s' ∧
      s'.maxOvercrowding = (crowdedStation 7990).maxOvercrowding ∧
      0 ≤ s'.overcrowding ∧
      s'.overcrowding ≤ s'.maxOvercrowding + 50 ∧
      s'.overcrowding < s'.maxOvercrowding + 100 ∧
      (s'.maxOvercrowding < s'.overcrowding →
        (updatePassengers (crowdedGame 7990) 50).gameOver = true) :=
  updatePassengers_overcrowding_bounds (crowdedGame 7990) 50 0 (crowdedStation 7990)
    (by decide!) (by decide!) (by decide!) (by decide!) (by decide!)

/-! ## Overcrowding in doubles (game.js) -/

section OvercrowdingRounded

variable {α : Type} [LinearOrderedField α]

theorem rounded_updateStation_fst (F : JsArith α) (deltaTime : α) (station : Station α)
    (gameOver : Bool) :
    (Rounded.updateStation F deltaTime station gameOver).1
      = (Rounded.updateStation F deltaTime station false).1 := by
  unfold Rounded.updateStation
  simp only
  split_ifs <;> rfl

theorem rounded_updateStation_snd (F : JsArith α) (deltaTime : α) (station : Station α)
    (gameOver : Bool) :
    (Rounded.updateStation F deltaTime station gameOver).2
      = (gameOver || Rounded.reachesMax F deltaTime station) := by
  unfold Rounded.updateStation Rounded.reachesMax
  cases gameOver <;> simp only <;> split_ifs <;> simp_all

theorem rounded_updateStation_overcrowding (F : JsArith α) (deltaTime : α)
    (station : Station α) (gameOver : Bool) :
    (Rounded.updateStation F deltaTime station gameOver).1.overcrowding
      = if station.passengers.length > station.capacity
        then F.add station.overcrowding deltaTime
        else max 0 (F.sub station.overcrowding deltaTime) := by
  unfold Rounded.updateStation
  simp only
  split_ifs <;> rfl

theorem rounded_updateStation_frame (F : JsArith α) (deltaTime : α) (station : Station α)
    (gameOver : Bool) :
    (Rounded.updateStation F deltaTime station gameOver).1.maxOvercrowding
        = station.maxOvercrowding
    ∧ (Rounded.updateStation F deltaTime station gameOver).1.capacity = station.capacity
    ∧ (Rounded.updateStation F deltaTime station gameOver).1.passengers.length
        = station.passengers.length := by
  unfold Rounded.updateStation
  simp

theorem rounded_updatePassengersLoop_getElem? (F : JsArith α) (deltaTime : α)
    (l : List (Station α)) (gameOver : Bool) (i : Nat) :
    (Rounded.updatePassengersLoop F deltaTime l gameOver).1[i]?
      = (l[i]?).map fun s => (Rounded.updateStation F deltaTime s false).1 := by
  induction l generalizing gameOver i with
  | nil => simp [Rounded.updatePassengersLoop]
  | cons s rest ih =>
    cases i with
    | zero =>
      simp [Rounded.updatePassengersLoop, rounded_updateStation_fst F deltaTime s gameOver]
    | succ j => simp [Rounded.updatePassengersLoop, ih]

theorem rounded_updatePassengersLoop_snd (F : JsArith α) (deltaTime : α)
    (l : List (Station α)) (gameOver : Bool) :
    (Rounded.updatePassengersLoop F deltaTime l gameOver).2
      = (gameOver || l.any (Rounded.reachesMax F deltaTime)) := by
  induction l generalizing gameOver with
  | nil => simp [Rounded.updatePassengersLoop]
  | cons s rest ih =>
    simp [Rounded.updatePassengersLoop, ih, rounded_updateStation_snd, Bool.or_assoc]

/-- One call of `updatePassengers` seen from the station at index `i`. -/
theorem rounded_updatePassengers_station (F : JsArith α) (g : Game α) (deltaTime : α)
    (i : Nat) (s : Station α) (hs : g.stations[i]? = some s) :
    (Rounded.updatePassengers F g deltaTime).stations[i]?
      = some (Rounded.updateStation F deltaTime s false).1
    ∧ (Rounded.reachesMax F deltaTime s = true →
        (Rounded.updatePassengers F g deltaTime).gameOver = true)
    ∧ (g.gameOver = true → (Rounded.updatePassengers F g deltaTime).gameOver = true) := by
  unfold Rounded.updatePassengers
  simp only [rounded_updatePassengersLoop_getElem?, rounded_updatePassengersLoop_snd, hs,
    Option.map_some', Bool.or_eq_true, List.any_eq_true, true_and]
  refine ⟨fun h => Or.inr ⟨s, List.mem_iff_getElem?.mpr ⟨i, hs⟩, h⟩, fun h => Or.inl h⟩

/-- A run of `updatePassengers` calls seen from a station whose queue exceeds its
capacity: the overcrowding is the running sum of the `dt`, rounded at every call, and
after a non-empty run whose running sum reaches the maximum the game is over. -/
theorem rounded_run_crowded (F : JsArith α) (dts : List α) (g : Game α) (i : Nat)
    (s : Station α) (hs : g.stations[i]? = some s)
    (hq : s.passengers.length > s.capacity) :
    ∃ s', (dts.foldl (Rounded.updatePassengers F) g).stations[i]? = some s' ∧
      s'.overcrowding = dts.foldl F.add s.overcrowding ∧
      s'.maxOvercrowding = s.maxOvercrowding ∧ s'.capacity = s.capacity ∧
      s'.passengers.length = s.passengers.length ∧
      (dts ≠ [] → s.maxOvercrowding ≤ dts.foldl F.add s.overcrowding →
        (dts.foldl (Rounded.updatePassengers F) g).gameOver = true) := by
  induction dts using List.reverseRecOn with
  | nil => exact ⟨s, by simpa using hs, by simp, rfl, rfl, rfl, fun h => absurd rfl h⟩
  | append_singleton init d ih =>
    obtain ⟨s1, h1, hoc, hmax, hcap, hlen, -⟩ := ih
    have hq1 : s1.passengers.length > s1.capacity := by rw [hlen, hcap]; exact hq
    obtain ⟨h2, h3, -⟩ :=
      rounded_updatePassengers_station F (init.foldl (Rounded.updatePassengers F) g) d i s1 h1
    obtain ⟨f1, f2, f3⟩ := rounded_updateStation_frame F d s1 false
    have hoc2 : (Rounded.updateStation F d s1 false).1.overcrowding
        = (init ++ [d]).foldl F.add s.overcrowding := by
      rw [rounded_updateStation_overcrowding, if_pos hq1, hoc]
      simp [List.foldl_append]
    refine ⟨_, by simpa [List.foldl_append] using h2, hoc2, by rw [f1, hmax], by rw [f2, hcap],
      by rw [f3, hlen], fun _ hge => ?_⟩
    rw [List.foldl_append]
    apply h3
    simp only [Rounded.reachesMax, decide_eq_true_eq, ge_iff_le]
    refine ⟨hq1, ?_⟩
    rw [hmax, hoc]
    simpa [List.foldl_append] using hge

end OvercrowdingRounded

/-- In doubles, with every `dt` a whole number of milliseconds and a total below
`2 ^ 53`, the overcrowding of a station whose queue exceeds its capacity is the exact sum
of the `dt`, and the game is over after a run whose sum reaches `maxOvercrowding`. -/
theorem run_crowded_whole_milliseconds (ns : List Nat) (g : Game ℚ) (i : Nat)
    (s : Station ℚ) (hs : g.stations[i]? = some s) (hq : s.passengers.length > s.capacity)
    (h0 : s.overcrowding = 0) (hmax : 0 < s.maxOvercrowding) (hsum : ns.sum < 2 ^ 53) :
    ∃ s', ((ns.map (Nat.cast : Nat → ℚ)).foldl (Rounded.updatePassengers doubleArith) g).stations[i]?
        = some s' ∧
      s'.overcrowding = (ns.sum : ℚ) ∧
      (s.maxOvercrowding ≤ (ns.sum : ℚ) →
        ((ns.map (Nat.cast : Nat → ℚ)).foldl (Rounded.updatePassengers doubleArith) g).gameOver
          = true) := by
  obtain ⟨s', h1, hoc, -, -, -, hover⟩ :=
    rounded_run_crowded doubleArith (ns.map (Nat.cast : Nat → ℚ)) g i s hs hq
  have hf : (ns.map (Nat.cast : Nat → ℚ)).foldl doubleArith.add s.overcrowding = (ns.sum : ℚ) := by
    have := foldl_add_natCast ns 0 (by simpa using hsum)
    rw [h0]
    simpa using this
  rw [hf] at hoc hover
  refine ⟨s', h1, hoc, fun hge => hover ?_ hge⟩
  intro hnil
  have : ns = [] := by simpa using hnil
  rw [this] at hge
  simp at hge
  exact absurd hmax (not_lt.mpr hge)

/-- **C10, counterexample.** A station of capacity 6 with 7 waiting passengers, starting
from overcrowding 0, and 85 calls `updatePassengers(94.11764705882354)`: the 85 values of
`dt` sum to more than 8000, but the overcrowding that the calls accumulate in doubles is
`7999.999999999993`, below `maxOvercrowding`, and `gameOver` is still false after the 85th
call; it is set by the 86th. In exact arithmetic it would be set by the 85th. -/
theorem gameOver_late_by_rounding :
    roundToDouble frameTime = frameTime ∧ 0 ≤ frameTime
    ∧ (crowdedGame 0).stations.map
        (fun s => (s.capacity, s.passengers.length, s.overcrowding, s.maxOvercrowding))
        = [(6, 7, 0, 8000)]
    ∧ (8000 : ℚ) ≤ (List.replicate 85 frameTime).sum
    ∧ ((List.replicate 85 frameTime).foldl (Rounded.updatePassengers doubleArith)
        (crowdedGame 0)).stations.map
        (fun s => (s.capacity, s.passengers.length, s.overcrowding))
        = [(6, 7, 1099511627775999 / 137438953472)]
    ∧ (1099511627775999 / 137438953472 : ℚ) < 8000
    ∧ ((List.replicate 85 frameTime).foldl (Rounded.updatePassengers doubleArith)
        (crowdedGame 0)).gameOver = false
    ∧ ((List.replicate 86 frameTime).foldl (Rounded.updatePassengers doubleArith)
        (crowdedGame 0)).gameOver = true
    ∧ ((List.replicate 85 frameTime).foldl updatePassengers (crowdedGame 0)).gameOver
        = true := by
  decide!

/-- **C10, amended.** A station whose queue exceeds its capacity, starting from
overcrowding 0 (`maxOvercrowding > 0`; it is 8000 in the game), and every arithmetic `F`
of the numbers, that of doubles included: after the first `k` calls of a sequence of
`updatePassengers(dt)` calls its overcrowding is the running sum
`((0 + dt₁) + dt₂) + ... + dtₖ` with the rounding of `F` at every `+`, its queue still
exceeds its capacity, and if that running sum is at least `maxOvercrowding` then
`gameOver` is true after the `k`-th call. This holds for every `k`, so the flag is set on
the very call on which the accumulated overcrowding first reaches `maxOvercrowding`; the
sign of the `dt` plays no role. -/
theorem gameOver_once_accumulated_overcrowding_reaches_max {α : Type}
    [LinearOrderedField α] (F : JsArith α)
    (g : Game α) (dts : List α) (i : Nat) (s : Station α) (k : Nat)
    (hs : g.stations[i]? = some s) (hq : s.passengers.length > s.capacity)
    (h0 : s.overcrowding = 0) (hmax : 0 < s.maxOvercrowding) :
    ∃ s', ((dts.take k).foldl (Rounded.updatePassengers F) g).stations[i]? = some s' ∧
      s'.overcrowding = (dts.take k).foldl F.add 0 ∧
      s'.passengers.length > s'.capacity ∧
      (s.maxOvercrowding ≤ (dts.take k).foldl F.add 0 →
        ((dts.take k).foldl (Rounded.updatePassengers F) g).gameOver = true) := by
  obtain ⟨s', h1, hoc, -, hcap, hlen, hover⟩ := rounded_run_crowded F (dts.take k) g i s hs hq
  rw [h0] at hoc hover
  refine ⟨s', h1, hoc, by rw [hlen, hcap]; exact hq, fun hge => hover ?_ hge⟩
  intro hnil
  rw [hnil] at hge
  simp at hge
  exact absurd hmax (not_lt.mpr hge)

/-- Witness of `gameOver_once_accumulated_overcrowding_reaches_max`: the spec's scenario C
in doubles, a station of capacity 6 with 7 waiting passengers ticked 100 times by 80 ms;
the running sum is 8000 after the 100th call, and the game is over after the 100th call and
not after the 99th. -/
theorem gameOver_once_accumulated_overcrowding_reaches_max_witness :
    ((List.replicate 100 (80 : ℚ)).take 100).foldl doubleArith.add 0 = 8000
    ∧ (((List.replicate 100 (80 : ℚ)).take 99).foldl (Rounded.updatePassengers doubleArith)
        (crowdedGame 0)).gameOver = false
    ∧ (((List.replicate 100 (80 : ℚ)).take 100).foldl (Rounded.updatePassengers doubleArith)
        (crowdedGame 0)).gameOver = true
    ∧ ∃ s', (((List.replicate 100 (80 : ℚ)).take 100).foldl
        (Rounded.updatePassengers doubleArith) (crowdedGame 0)).stations[0]? = some s' ∧
      s'.overcrowding = ((List.replicate 100 (80 : ℚ)).take 100).foldl doubleArith.add 0 ∧
      s'.passengers.length > s'.capacity ∧
      ((crowdedStation 0).maxOvercrowding
          ≤ ((List.replicate 100 (80 : ℚ)).take 100).foldl doubleArith.add 0 →
        (((List.replicate 100 (80 : ℚ)).take 100).foldl
          (Rounded.updatePassengers doubleArith) (crowdedGame 0)).gameOver = true) :=
  ⟨by decide!, by decide!, by decide!,
    gameOver_once_accumulated_overcrowding_reaches_max doubleArith (crowdedGame 0)
      (List.replicate 100 80) 0 (crowdedStation 0) 100 (by decide!) (by decide!)
      (by decide!) (by decide!)⟩

/-! ## Trains, passengers and line editing (game.js) -/

section TrainFrame
variable {α : Type} [LinearOrderedField α]

theorem SameForTrain.refl (ti : Nat) (g : Game α) : SameForTrain ti g g :=
  ⟨rfl, rfl, fun _ => rfl⟩

theorem SameForTrain.trans {ti : Nat} {g g' g'' : Game α} (h1 : SameForTrain ti g g')
    (h2 : SameForTrain ti g' g'') : SameForTrain ti g g'' :=
  ⟨h2.train.trans h1.train, h2.lines.trans h1.lines,
    fun r => (h2.interchange r).trans (h1.interchange r)⟩

theorem unloadPassengers_same (g : Game α) (ti tj : Nat) (h : tj ≠ ti) :
    SameForTrain ti g (unloadPassengers g tj) := by
  unfold unloadPassengers
  split
  · exact SameForTrain.refl ti g
  · split
    · exact SameForTrain.refl ti g
    · split
      · exact SameForTrain.refl ti g
      · exact ⟨by simp [List.getElem?_set_ne h], rfl, fun _ => rfl⟩

theorem loadPassengers_same (g : Game α) (ti tj : Nat) (h : tj ≠ ti) :
    SameForTrain ti g (loadPassengers g tj) := by
  unfold loadPassengers
  split
  · exact SameForTrain.refl ti g
  · split
    · exact SameForTrain.refl ti g
    · split
      · exact SameForTrain.refl ti g
      · rename_i stationRef _
        split
        · exact SameForTrain.refl ti g
        · rename_i station hst
          refine ⟨by simp [List.getElem?_set_ne h], rfl, fun r => ?_⟩
          simp only [List.getElem?_set]
          split_ifs with h1 h2
          · subst h1
            simp [hst]
          · subst h1
            rw [List.getElem?_eq_none (by omega)]
          · rfl

theorem updateTrain_same (M : JsMath α) (deltaTime : α) (g : Game α) (ti tj : Nat)
    (h : tj ≠ ti) : SameForTrain ti g (updateTrain M deltaTime g tj) := by
  unfold updateTrain
  split
  · exact SameForTrain.refl ti g
  · split
    · dsimp only
      split_ifs
      · refine SameForTrain.trans (SameForTrain.trans ?_ (unloadPassengers_same _ ti tj h))
          (loadPassengers_same _ ti tj h)
        exact ⟨by simp [List.getElem?_set_ne h], rfl, fun _ => rfl⟩
      · exact ⟨by simp [List.getElem?_set_ne h], rfl, fun _ => rfl⟩
    · split
      · exact SameForTrain.refl ti g
      · split_ifs <;> (try exact SameForTrain.refl ti g) <;> split <;>
          (try exact SameForTrain.refl ti g) <;> dsimp only <;> split_ifs <;>
          exact ⟨by simp [List.getElem?_set_ne h], rfl, fun _ => rfl⟩

theorem foldl_updateTrain_same (M : JsMath α) (deltaTime : α) (ti : Nat) (l : List Nat)
    (h : ¬ ti ∈ l) (g : Game α) :
    SameForTrain ti g (l.foldl (updateTrain M deltaTime) g) := by
  induction l generalizing g with
  | nil => exact SameForTrain.refl ti g
  | cons tj l ih =>
    simp only [List.mem_cons, not_or] at h
    exact SameForTrain.trans (updateTrain_same M deltaTime g ti tj (Ne.symm h.1)) (ih h.2 _)

/-- The train `ti` after `updateTrains`: the loop body for `ti`, run in a state that agrees
with the initial one on the train, the lines and the interchange flags, followed by steps
that leave the train alone. -/
theorem updateTrains_train (M : JsMath α) (g : Game α) (deltaTime : α) (ti : Nat)
    (hti : ti < g.trains.length) :
    ∃ g1, SameForTrain ti g g1 ∧
      (updateTrains M g deltaTime).trains[ti]? = (updateTrain M deltaTime g1 ti).trains[ti]? := by
  unfold updateTrains
  obtain ⟨l1, l2, hl⟩ := List.append_of_mem (List.mem_range.mpr hti)
  have hnd : (l1 ++ ti :: l2).Nodup := hl ▸ List.nodup_range _
  rw [hl, List.foldl_append, List.foldl_cons]
  have h1 : ¬ ti ∈ l1 := fun hm => by
    have := (List.nodup_append.mp hnd).2.2
    exact this hm (List.mem_cons_self _ _)
  have h2 : ¬ ti ∈ l2 := by
    have := (List.nodup_append.mp hnd).2.1
    exact (List.nodup_cons.mp this).1
  refine ⟨l1.foldl (updateTrain M deltaTime) g, foldl_updateTrain_same M deltaTime ti l1 h1 g, ?_⟩
  exact (foldl_updateTrain_same M deltaTime ti l2 h2 _).train

/-- **C13.** A moving train with direction 1 on segment `s` whose end station
`line.stations[s + 1]` exists (as it does when the segments are in sync with the
stations), with positive segment length: after `updateTrains(dt)` the train has its
position increased by exactly `speed * dt / segmentLength` and is otherwise unchanged
(still moving) when that sum is below 1; when the sum is at least 1 it is stopped at
position 0 with `stationStopTime` 400 if that station is an interchange and 700 otherwise
(and `currentSegment` advanced, or the direction reversed at the last segment). -/
theorem updateTrains_moving_train (M : JsMath α) (g : Game α) (deltaTime : α) (ti : Nat)
    (train : Train α) (line : Line α) (segment : Segment α) (stationRef : Nat)
    (station : Station α)
    (ht : g.trains[ti]? = some train) (hstate : train.state = TrainState.moving)
    (hdir : train.direction = 1) (hl : g.lines[train.line]? = some line)
    (hseg : line.segments[train.currentSegment]? = some segment)
    (hst : line.stations[train.currentSegment + 1]? = some stationRef)
    (hs : g.stations[stationRef]? = some station)
    (hlen : 0 < M.hypot (segment.to_.x - segment.from_.x) (segment.to_.y - segment.from_.y)) :
    ∃ train', (updateTrains M g deltaTime).trains[ti]? = some train' ∧
      (train.position + train.speed * deltaTime
          / M.hypot (segment.to_.x - segment.from_.x) (segment.to_.y - segment.from_.y) < 1 →
        train' = { train with
          position := train.position + train.speed * deltaTime
            / M.hypot (segment.to_.x - segment.from_.x) (segment.to_.y - segment.from_.y) }) ∧
      (train.position + train.speed * deltaTime
          / M.hypot (segment.to_.x - segment.from_.x) (segment.to_.y - segment.from_.y) ≥ 1 →
        train' = { train with
          position := 0
          state := TrainState.stopped
          stationStopTime := if station.isInterchange then 400 else 700
          currentSegment :=
            if train.currentSegment + 1 ≥ line.segments.length then line.segments.length - 1
            else train.currentSegment + 1
          direction := if train.currentSegment + 1 ≥ line.segments.length then -1 else 1 }) := by
  have _ := hlen
  have hti : ti < g.trains.length := by
    rcases Nat.lt_or_ge ti g.trains.length with h | h
    · exact h
    · rw [List.getElem?_eq_none h] at ht
      cases ht
  obtain ⟨g1, hsame, hres⟩ := updateTrains_train M g deltaTime ti hti
  have ht1 : g1.trains[ti]? = some train := hsame.train.trans ht
  have hl1 : g1.lines[train.line]? = some line := by rw [hsame.lines]; exact hl
  obtain ⟨station1, hs1, hic⟩ : ∃ station1, g1.stations[stationRef]? = some station1 ∧
      station1.isInterchange = station.isInterchange := by
    have h := hsame.interchange stationRef
    rw [hs] at h
    cases h1 : g1.stations[stationRef]? with
    | none => rw [h1] at h; cases h
    | some station1 =>
      rw [h1] at h
      exact ⟨station1, rfl, by simpa using h⟩
  have hne : ¬ line.segments.length = 0 := by
    intro h0
    rw [List.getElem?_eq_none (by omega)] at hseg
    cases hseg
  have hti1 : ti < g1.trains.length := by
    rcases Nat.lt_or_ge ti g1.trains.length with h | h
    · exact h
    · rw [List.getElem?_eq_none h] at ht1
      cases ht1
  have key : (updateTrain M deltaTime g1 ti).trains[ti]? = some
      (if train.position + train.speed * deltaTime
          / M.hypot (segment.to_.x - segment.from_.x) (segment.to_.y - segment.from_.y) ≥ 1 then
        { train with
          position := 0
          state := TrainState.stopped
          stationStopTime := if station.isInterchange then 400 else 700
          currentSegment :=
            if train.currentSegment + 1 ≥ line.segments.length then line.segments.length - 1
            else train.currentSegment + 1
          direction := if train.currentSegment + 1 ≥ line.segments.length then -1 else 1 }
      else
        { train with
          position := train.position + train.speed * deltaTime
            / M.hypot (segment.to_.x - segment.from_.x) (segment.to_.y - segment.from_.y) }) := by
    unfold updateTrain
    simp only [ht1, hstate, hl1, hne, if_false, hseg, currentStationRef, hst, Option.bind_some,
      Option.some_bind, hs1, hic, hdir]
    split_ifs <;> simp [List.getElem?_set_self hti1]
  rw [hres, key]
  refine ⟨_, rfl, fun hlt => ?_, fun hge => ?_⟩
  · rw [if_neg (not_le.mpr hlt)]
  · rw [if_pos hge]

end TrainFrame

theorem withoutFirst_sublist {β : Type} (p : β → Bool) (n : Nat) (l : List β) :
    (withoutFirst p n l).Sublist l := by
  induction l generalizing n with
  | nil => cases n <;> simp [withoutFirst]
  | cons a l ih =>
    cases n with
    | zero => simp [withoutFirst]
    | succ n =>
      simp only [withoutFirst]
      split_ifs
      · exact (ih n).trans (List.sublist_cons_self a l)
      · exact (ih (n + 1)).cons₂ a

theorem withoutFirst_perm {β : Type} (p : β → Bool) (n : Nat) (l : List β) :
    List.Perm (withoutFirst p n l ++ (l.filter p).take n) l := by
  induction l generalizing n with
  | nil => cases n <;> simp [withoutFirst]
  | cons a l ih =>
    cases n with
    | zero => simp [withoutFirst]
    | succ n =>
      simp only [withoutFirst]
      by_cases h : p a = true
      · simp only [h, if_true, List.filter_cons_of_pos, List.take_succ_cons]
        exact (List.perm_middle).trans ((ih n).cons a)
      · simp only [h, if_false, List.cons_append]
        rw [List.filter_cons_of_neg h]
        exact (ih (n + 1)).cons a

section LoadUnload
variable {α : Type} [LinearOrderedField α]

theorem loadLoop_eq (canReach : Passenger α → Bool) (l kept boarded : List (Passenger α))
    (availableSpace : Int) :
    loadLoop canReach l (kept, boarded, availableSpace)
      = ((withoutFirst canReach availableSpace.toNat l).reverse ++ kept,
          boarded ++ ((l.filter canReach).take availableSpace.toNat).map
            fun passenger => { passenger with boardingAnimation := true }) := by
  induction l generalizing kept boarded availableSpace with
  | nil => cases h : availableSpace.toNat <;> simp [loadLoop, withoutFirst]
  | cons a l ih =>
    unfold loadLoop
    by_cases hs : availableSpace > 0
    · obtain ⟨n, hn⟩ : ∃ n, availableSpace.toNat = n + 1 := ⟨availableSpace.toNat - 1, by omega⟩
      have hn' : (availableSpace - 1).toNat = n := by omega
      simp only [hs, if_true, hn, withoutFirst]
      by_cases hc : canReach a = true
      · simp only [hc, if_true, ih, hn', List.filter_cons_of_pos, List.take_succ_cons,
          List.map_cons, List.append_assoc, List.singleton_append]
      · have hc' : canReach a = false := by simpa using hc
        simp [hc', ih, hn]
    · have h0 : availableSpace.toNat = 0 := by omega
      simp [hs, h0, withoutFirst]

theorem unloadLoop_eq (shape : Shape) (l kept : List (Passenger α)) (score : Int)
    (passengers : List Nat) :
    unloadLoop shape l (kept, score, passengers)
      = ((l.filter fun p => decide (¬ p.targetShape = shape)).reverse ++ kept,
          score + ((l.filter fun p => decide (p.targetShape = shape)).length : Int),
          (l.filter fun p => decide (p.targetShape = shape)).foldl
            (fun ps p => ps.erase p.ref) passengers) := by
  induction l generalizing kept score passengers with
  | nil => simp [unloadLoop]
  | cons a l ih =>
    unfold unloadLoop
    by_cases h : a.targetShape = shape
    · simp only [h, if_true, ih]
      simp [h, add_assoc, add_comm]
    · simp only [h, if_false, ih]
      simp [h]

end LoadUnload

theorem foldl_erase_sublist (ds l : List Nat) :
    (ds.foldl (fun ps r => ps.erase r) l).Sublist l := by
  induction ds generalizing l with
  | nil => exact List.Sublist.refl l
  | cons d ds ih => exact (ih (l.erase d)).trans (List.erase_sublist d l)

theorem mem_foldl_erase (ds l : List Nat) (hl : l.Nodup) (r : Nat) :
    r ∈ ds.foldl (fun ps r => ps.erase r) l ↔ r ∈ l ∧ ¬ r ∈ ds := by
  induction ds generalizing l with
  | nil => simp
  | cons d ds ih =>
    rw [List.foldl_cons, ih (l.erase d) (hl.erase d), hl.mem_erase_iff]
    simp only [List.mem_cons, not_or]
    tauto

section LoadUnload2
variable {α : Type} [LinearOrderedField α]

theorem canReachShape_iff (g : Game α) (line : Line α) (shape : Shape) :
    canReachShape g line shape = true ↔
      ∃ r ∈ line.stations, ∃ s, g.stations[r]? = some s ∧ s.shape = shape := by
  unfold canReachShape
  rw [List.any_eq_true]
  constructor
  · rintro ⟨r, hr, h⟩
    cases hs : g.stations[r]? with
    | none => simp [hs] at h
    | some s => exact ⟨r, hr, s, hs, by simpa [hs] using h⟩
  · rintro ⟨r, hr, s, hs, h⟩
    exact ⟨r, hr, by simp [hs, h]⟩

theorem getElem?_lt {β : Type} {l : List β} {i : Nat} {a : β} (h : l[i]? = some a) :
    i < l.length := by
  rcases Nat.lt_or_ge i l.length with h' | h'
  · exact h'
  · rw [List.getElem?_eq_none h'] at h
    cases h

/-- **C14.** `loadPassengers` for a train whose served station exists. With
`free = capacity + 4 * carriages - passengers.length` and a passenger eligible when some
station of the line has the passenger's target shape: the passengers boarded are the
first `free` (none if `free ≤ 0`) eligible passengers of the queue scanned from its back,
`min(max(free, 0), number of eligible)` of them; they are appended to the train in scan
order (with `boardingAnimation` set); the queue keeps the others in their order (it is a
sublist of the old queue, and together with the boarded ones a permutation of it); the
other stations are untouched; and a train within `capacity + 4 * carriages` stays within
it. -/
theorem loadPassengers_boards (g : Game α) (ti : Nat) (train : Train α) (line : Line α)
    (stationRef : Nat) (station : Station α)
    (ht : g.trains[ti]? = some train) (hl : g.lines[train.line]? = some line)
    (hr : servedStationRef line train = some stationRef)
    (hs : g.stations[stationRef]? = some station) :
    (∀ p : Passenger α, canReachShape g line p.targetShape = true ↔
        ∃ r ∈ line.stations, ∃ s, g.stations[r]? = some s ∧ s.shape = p.targetShape)
    ∧ ((station.passengers.reverse.filter fun p => canReachShape g line p.targetShape).take
          ((train.capacity : Int) + 4 * train.carriages - train.passengers.length).toNat).length
        = min (max ((train.capacity : Int) + 4 * train.carriages - train.passengers.length) 0).toNat
            (station.passengers.filter fun p => canReachShape g line p.targetShape).length
    ∧ (loadPassengers g ti).trains[ti]? = some
        { train with
          passengers := train.passengers ++
            ((station.passengers.reverse.filter fun p => canReachShape g line p.targetShape).take
              ((train.capacity : Int) + 4 * train.carriages - train.passengers.length).toNat).map
              fun p => { p with boardingAnimation := true } }
    ∧ (∃ station', (loadPassengers g ti).stations[stationRef]? = some station'
        ∧ station'.passengers.Sublist station.passengers
        ∧ List.Perm (station'.passengers ++
            (station.passengers.reverse.filter fun p => canReachShape g line p.targetShape).take
              ((train.capacity : Int) + 4 * train.carriages - train.passengers.length).toNat)
            station.passengers)
    ∧ (∀ r station1, r ≠ stationRef → g.stations[r]? = some station1 →
        (loadPassengers g ti).stations[r]? = some station1)
    ∧ ((train.passengers.length : Int) ≤ (train.capacity : Int) + 4 * train.carriages →
        ∃ train', (loadPassengers g ti).trains[ti]? = some train' ∧
          (train'.passengers.length : Int) ≤ (train'.capacity : Int) + 4 * train'.carriages) := by
  have hti := getElem?_lt ht
  have hsr := getElem?_lt hs
  have hval : loadPassengers g ti =
      { g with
        stations := g.stations.set stationRef
          { station with
            passengers := (withoutFirst (fun p => canReachShape g line p.targetShape)
              ((train.capacity : Int) + 4 * train.carriages - train.passengers.length).toNat
              station.passengers.reverse).reverse }
        trains := g.trains.set ti
          { train with
            passengers := train.passengers ++
              ((station.passengers.reverse.filter fun p => canReachShape g line p.targetShape).take
                ((train.capacity : Int) + 4 * train.carriages - train.passengers.length).toNat).map
                fun p => { p with boardingAnimation := true } } } := by
    unfold loadPassengers
    simp only [ht, hl, hr, hs, loadLoop_eq, List.append_nil, List.nil_append]
    simp [mul_comm]
  have hlen : ((station.passengers.reverse.filter fun p => canReachShape g line p.targetShape).take
          ((train.capacity : Int) + 4 * train.carriages - train.passengers.length).toNat).length
        = min (max ((train.capacity : Int) + 4 * train.carriages - train.passengers.length) 0).toNat
            (station.passengers.filter fun p => canReachShape g line p.targetShape).length := by
    rw [List.length_take, List.filter_reverse, List.length_reverse]
    congr 1
    omega
  refine ⟨fun p => canReachShape_iff g line p.targetShape, hlen, ?_, ?_, ?_, ?_⟩
  · rw [hval]
    exact List.getElem?_set_self hti
  · refine ⟨_, by rw [hval]; exact List.getElem?_set_self hsr, ?_, ?_⟩
    · have := (withoutFirst_sublist (fun p => canReachShape g line p.targetShape)
        ((train.capacity : Int) + 4 * train.carriages - train.passengers.length).toNat
        station.passengers.reverse).reverse
      simpa using this
    · have h1 := withoutFirst_perm (fun p => canReachShape g line p.targetShape)
        ((train.capacity : Int) + 4 * train.carriages - train.passengers.length).toNat
        station.passengers.reverse
      refine List.Perm.trans ?_ (h1.trans (List.reverse_perm _))
      exact List.Perm.append_right _ (List.reverse_perm _)
  · intro r station1 hne h1
    rw [hval]
    simp only [List.getElem?_set_ne (Ne.symm hne)]
    exact h1
  · intro hle
    refine ⟨_, by rw [hval]; exact List.getElem?_set_self hti, ?_⟩
    simp only [List.length_append, List.length_map, hlen]
    have := Nat.min_le_left
      (max ((train.capacity : Int) + 4 * train.carriages - train.passengers.length) 0).toNat
      (station.passengers.filter fun p => canReachShape g line p.targetShape).length
    push_cast
    omega

/-- **C15.** `unloadPassengers` for a train whose served station exists: the passengers
left on the train are those whose target shape differs from the station's shape, in their
order; the score grows by the number of the others; each of those is taken out of the
game-wide passenger list (last one first), which keeps the order of the rest; and the
stations are untouched. -/
theorem unloadPassengers_delivers (g : Game α) (ti : Nat) (train : Train α) (line : Line α)
    (stationRef : Nat) (station : Station α)
    (ht : g.trains[ti]? = some train) (hl : g.lines[train.line]? = some line)
    (hr : servedStationRef line train = some stationRef)
    (hs : g.stations[stationRef]? = some station) :
    (unloadPassengers g ti).trains[ti]? = some
        { train with
          passengers := train.passengers.filter fun p => decide (¬ p.targetShape = station.shape) }
    ∧ (unloadPassengers g ti).score
        = g.score + ((train.passengers.filter fun p =>
            decide (p.targetShape = station.shape)).length : Int)
    ∧ (unloadPassengers g ti).passengers
        = (((train.passengers.filter fun p => decide (p.targetShape = station.shape)).map
            fun p => p.ref).reverse).foldl (fun ps r => ps.erase r) g.passengers
    ∧ (unloadPassengers g ti).passengers.Sublist g.passengers
    ∧ (g.passengers.Nodup → ∀ r, r ∈ (unloadPassengers g ti).passengers ↔
        r ∈ g.passengers ∧ ¬ ∃ p ∈ train.passengers, p.targetShape = station.shape ∧ p.ref = r)
    ∧ (unloadPassengers g ti).stations = g.stations := by
  have hti := getElem?_lt ht
  have hval : unloadPassengers g ti =
      { g with
        trains := g.trains.set ti
          { train with
            passengers := train.passengers.filter fun p =>
              decide (¬ p.targetShape = station.shape) }
        score := g.score + ((train.passengers.filter fun p =>
            decide (p.targetShape = station.shape)).length : Int)
        passengers := (((train.passengers.filter fun p =>
            decide (p.targetShape = station.shape)).map fun p => p.ref).reverse).foldl
            (fun ps r => ps.erase r) g.passengers } := by
    unfold unloadPassengers
    simp only [ht, hl, hr, hs, Option.bind_some, Option.some_bind, unloadLoop_eq,
      List.append_nil, List.filter_reverse, List.reverse_reverse, List.length_reverse,
      ← List.map_reverse, List.foldl_map]
  rw [hval]
  refine ⟨List.getElem?_set_self hti, rfl, rfl, foldl_erase_sublist _ _, fun hnd r => ?_, rfl⟩
  simp only [mem_foldl_erase _ _ hnd, List.mem_reverse, List.mem_map, List.mem_filter,
    decide_eq_true_eq]
  constructor
  · rintro ⟨h1, h2⟩
    exact ⟨h1, fun ⟨p, hp, hsh, hrf⟩ => h2 ⟨p, ⟨hp, hsh⟩, hrf⟩⟩
  · rintro ⟨h1, h2⟩
    exact ⟨h1, fun ⟨p, ⟨hp, hsh⟩, hrf⟩ => h2 ⟨p, hp, hsh, hrf⟩⟩

end LoadUnload2

section Editing
variable {α : Type} [LinearOrderedField α]

theorem forall_mem_set {β : Type} {P : β → Prop} {l : List β} {i : Nat} {b : β}
    (h : ∀ a ∈ l, P a) (hb : P b) : ∀ a ∈ l.set i b, P a := by
  intro a ha
  rcases List.mem_or_eq_of_mem_set ha with h1 | h1
  · exact h a h1
  · exact h1 ▸ hb

theorem mem_of_getElem? {β : Type} {l : List β} {i : Nat} {a : β} (h : l[i]? = some a) :
    a ∈ l :=
  List.mem_iff_getElem?.mpr ⟨i, h⟩

theorem recalculateLineSegments_stations (M : JsMath α) (g : Game α) (line : Line α) :
    (recalculateLineSegments M g line).stations = line.stations := rfl

theorem recalculateLineSegments_trains (M : JsMath α) (g : Game α) (line : Line α) :
    (recalculateLineSegments M g line).trains = line.trains := rfl

theorem addTrainToLine_nodup (g : Game α) (li : Nat)
    (h : ∀ line ∈ g.lines, line.stations.Nodup) :
    ∀ line ∈ (addTrainToLine g li).lines, line.stations.Nodup := by
  unfold addTrainToLine
  split
  · exact h
  · rename_i line hl
    split_ifs
    · exact forall_mem_set h (h line (mem_of_getElem? hl))
    · exact h

theorem addTrainToLine_stations (g : Game α) (li lj : Nat) :
    ((addTrainToLine g li).lines[lj]?).map (fun l => l.stations)
      = (g.lines[lj]?).map (fun l => l.stations) := by
  unfold addTrainToLine
  split
  · rfl
  · rename_i line hl
    split_ifs
    · simp only [List.getElem?_set]
      split_ifs with h1 h2
      · subst h1; simp [hl]
      · subst h1; rw [List.getElem?_eq_none (by omega)]
      · rfl
    · rfl

theorem removeStationAt_sublist (stations : List Nat) (index : Nat) :
    (removeStationAt stations index).Sublist stations := by
  unfold removeStationAt
  split_ifs
  · exact List.tail_sublist _
  · exact List.dropLast_sublist _
  · exact List.take_sublist _ _

theorem removeStationAt_eq (stations : List Nat) (index : Nat) :
    removeStationAt stations index
      = if index = 0 then stations.tail else stations.take index := by
  unfold removeStationAt
  split_ifs with h0 h1
  · rfl
  · rw [List.dropLast_eq_take, h1]
  · rfl

theorem removeStation_nodup (M : JsMath α) (g : Game α) (station : Nat)
    (h : ∀ line ∈ g.lines, line.stations.Nodup) :
    ∀ line ∈ (removeStation M g station).lines, line.stations.Nodup := by
  unfold removeStation
  split
  · exact h
  · split
    · exact h
    · rename_i line hl
      exact forall_mem_set h
        ((h line (mem_of_getElem? hl)).sublist (removeStationAt_sublist _ _))

theorem startDrawingLine_nodup (g : Game α) (li station : Nat)
    (h : ∀ line ∈ g.lines, line.stations.Nodup) :
    ∀ line ∈ (startDrawingLine g li station).lines, line.stations.Nodup := by
  unfold startDrawingLine
  split
  · exact h
  · exact forall_mem_set h (List.nodup_singleton station)

theorem onMouseDown_nodup (M : JsMath α) (g : Game α) (button : Nat) (x y : α)
    (h : ∀ line ∈ g.lines, line.stations.Nodup) :
    ∀ line ∈ (onMouseDown M g button x y).lines, line.stations.Nodup := by
  unfold onMouseDown
  dsimp only
  split_ifs
  · exact h
  · split
    · split
      · split <;> exact h
      · exact startDrawingLine_nodup g _ _ h
    · split <;> exact h
  · split
    · exact removeStation_nodup M g _ h
    · exact h
  · exact h

/-- The stations of the dragged line after `onMouseUp`. -/
theorem onMouseUp_stations (M : JsMath α) (g : Game α) (x y : α) (handle : Handle)
    (line : Line α) (hd : g.draggedHandle = some handle)
    (hl : g.lines[handle.line]? = some line) :
    ((onMouseUp M g x y).lines[handle.line]?).map (fun l => l.stations) = some
      (match getStationAt g x y with
        | some station =>
          if station ∈ line.stations then
            (if line.stations.length < 2 then [] else line.stations)
          else if handle.isStart then station :: line.stations
          else line.stations ++ [station]
        | none => if line.stations.length < 2 then [] else line.stations)
    ∧ ∀ lj, lj ≠ handle.line →
        ((onMouseUp M g x y).lines[lj]?).map (fun l => l.stations)
          = (g.lines[lj]?).map (fun l => l.stations) := by
  have hlt : handle.line < g.lines.length := by
    rcases Nat.lt_or_ge handle.line g.lines.length with h' | h'
    · exact h'
    · rw [List.getElem?_eq_none h'] at hl
      cases hl
  unfold onMouseUp
  simp only [hd, hl]
  constructor
  · cases hst : getStationAt g x y with
    | none =>
      simp only
      split_ifs <;> simp [List.getElem?_set_self hlt, hl]
    | some station =>
      simp only
      by_cases hmem : station ∈ line.stations
      · simp only [hmem, not_true_eq_false, if_false, if_true]
        split_ifs <;> simp [List.getElem?_set_self hlt, hl]
      · simp only [hmem, not_false_eq_true, if_true, if_false]
        split_ifs <;>
          simp [addTrainToLine_stations, List.getElem?_set_self hlt,
            recalculateLineSegments_stations]
  · intro lj hne
    cases hst : getStationAt g x y with
    | none =>
      simp only
      split_ifs <;> simp [List.getElem?_set_ne (Ne.symm hne)]
    | some station =>
      simp only
      split_ifs <;>
        simp [addTrainToLine_stations, List.getElem?_set_ne (Ne.symm hne)]

end Editing

section Editing2
variable {α : Type} [LinearOrderedField α]

theorem onMouseUp_nodup (M : JsMath α) (g : Game α) (x y : α)
    (h : ∀ line ∈ g.lines, line.stations.Nodup) :
    ∀ line ∈ (onMouseUp M g x y).lines, line.stations.Nodup := by
  cases hd : g.draggedHandle with
  | none =>
    have : onMouseUp M g x y = g := by unfold onMouseUp; simp only [hd]
    rw [this]; exact h
  | some handle =>
    cases hl : g.lines[handle.line]? with
    | none =>
      have : (onMouseUp M g x y).lines = g.lines := by unfold onMouseUp; simp only [hd, hl]
      rw [this]; exact h
    | some line =>
      obtain ⟨h1, h2⟩ := onMouseUp_stations M g x y handle line hd hl
      have hline : line.stations.Nodup := h line (mem_of_getElem? hl)
      intro line' hmem
      obtain ⟨lj, hlj⟩ := List.mem_iff_getElem?.mp hmem
      by_cases hj : lj = handle.line
      · subst hj
        rw [hlj] at h1
        simp only [Option.map_some', Option.some.injEq] at h1
        rw [h1]
        cases hst : getStationAt g x y with
        | none => simp only; split_ifs <;> simp [hline]
        | some station =>
          simp only
          split_ifs with hm
          · exact List.nodup_nil
          · exact hline
          · exact List.nodup_cons.mpr ⟨hm, hline⟩
          · rw [List.nodup_append]
            refine ⟨hline, List.nodup_singleton _, ?_⟩
            intro a ha hb
            rw [List.mem_singleton] at hb
            exact hm (hb ▸ ha)
      · have h3 := h2 lj hj
        rw [hlj] at h3
        cases hg : g.lines[lj]? with
        | none => rw [hg] at h3; cases h3
        | some l0 =>
          rw [hg] at h3
          simp only [Option.map_some', Option.some.injEq] at h3
          rw [h3]
          exact h l0 (mem_of_getElem? hg)

/-- **C17.** If no line has a station twice, the same holds after `onMouseDown` and after
`onMouseUp`. For `onMouseUp` released on a station: a station that is not on the dragged
line is added in front (`[station] ++ old`) when the handle is the start and at the end
(`old ++ [station]`) otherwise; a station that is on the line is not added (the line is
kept, or emptied when it has fewer than 2 stations). -/
theorem mouse_handlers_keep_stations_distinct (M : JsMath α) (g : Game α) (button : Nat)
    (x y : α) (h : ∀ line ∈ g.lines, line.stations.Nodup) :
    (∀ line ∈ (onMouseDown M g button x y).lines, line.stations.Nodup)
    ∧ (∀ line ∈ (onMouseUp M g x y).lines, line.stations.Nodup)
    ∧ (∀ (handle : Handle) (line : Line α) (station : Nat),
        g.draggedHandle = some handle → g.lines[handle.line]? = some line →
        getStationAt g x y = some station →
        ((onMouseUp M g x y).lines[handle.line]?).map (fun l => l.stations) = some
          (if station ∈ line.stations then
            (if line.stations.length < 2 then [] else line.stations)
          else if handle.isStart then [station] ++ line.stations
          else line.stations ++ [station])) := by
  refine ⟨onMouseDown_nodup M g button x y h, onMouseUp_nodup M g x y h, ?_⟩
  intro handle line station hd hl hst
  have := (onMouseUp_stations M g x y handle line hd hl).1
  rw [hst] at this
  simpa using this

/-- **C18, amended.** A right click on a station (game running) that sits at index `k` of
the first line that has it: that line keeps its first `k` stations when `k > 0`, and loses
only its first station when `k = 0`; its segments are recomputed from the new stations;
nothing else changes. -/
theorem onMouseDown_right_click (M : JsMath α) (g : Game α) (x y : α) (station li : Nat)
    (line : Line α) (k : Nat)
    (hp : g.paused = false) (hgo : g.gameOver = false)
    (hst : getStationAt g x y = some station)
    (hli : g.lines[li]? = some line)
    (hfirst : ∀ j l, j < li → g.lines[j]? = some l → ¬ station ∈ l.stations)
    (hk : line.stations.indexOf station = k) (hkn : k < line.stations.length) :
    onMouseDown M g 2 x y =
      { g with
        lines := g.lines.set li
          (recalculateLineSegments M g
            { line with
              stations := if k = 0 then line.stations.tail else line.stations.take k }) } := by
  have hlt : li < g.lines.length := by
    rcases Nat.lt_or_ge li g.lines.length with h' | h'
    · exact h'
    · rw [List.getElem?_eq_none h'] at hli
      cases hli
  have hget : g.lines[li] = line := by
    have := List.getElem?_eq_getElem hlt
    rw [hli] at this
    exact (Option.some.inj this).symm
  have hmem : station ∈ line.stations := List.indexOf_lt_length.mp (hk ▸ hkn)
  have hfind : g.lines.findIdx? (fun line => line.stations.contains station) = some li := by
    rw [List.findIdx?_eq_some_iff_getElem]
    refine ⟨hlt, ?_, ?_⟩
    · rw [hget]; simpa using hmem
    · intro j hji
      have := hfirst j g.lines[j] hji (List.getElem?_eq_getElem (Nat.lt_trans hji hlt))
      simpa using this
  unfold onMouseDown
  simp only [hp, hgo, Bool.or_self, Bool.false_eq_true, if_false, hst]
  simp only [show ¬ (2 = 0) by decide, if_false, if_true]
  unfold removeStation
  simp only [hfind, hli, hk, removeStationAt_eq _ _]
  simp only [hp, hgo]

end Editing2

section Spawn2
variable {α : Type} [LinearOrderedField α] [FloorRing α]

theorem floor_mul_lt (r : α) (n : Nat) (h0 : 0 ≤ r) (h1 : r < 1) (hn : 0 < n) :
    ⌊r * (n : α)⌋₊ < n := by
  rw [Nat.floor_lt (mul_nonneg h0 (Nat.cast_nonneg n))]
  have : (0 : α) < n := Nat.cast_pos.mpr hn
  nlinarith

/-- **C20.** `spawnPassenger` with draws `r1`, `r2` in `[0, 1)`: with fewer than 2
stations nothing changes; with at least 2, one station's queue gets one passenger appended
at its end, with `waitTime` 0 and the shape of some other station as target, every other
queue is unchanged, and the passenger joins the game-wide list. -/
theorem spawnPassenger_spec (g : Game α) (r1 r2 : α)
    (h1 : 0 ≤ r1) (h1' : r1 < 1) (h2 : 0 ≤ r2) (h2' : r2 < 1) :
    (g.stations.length < 2 → spawnPassenger g r1 r2 = g)
    ∧ (2 ≤ g.stations.length →
        ∃ (i : Nat) (station : Station α) (targetShape : Shape),
          g.stations[i]? = some station
          ∧ (∃ (j : Nat) (other : Station α),
              j ≠ i ∧ g.stations[j]? = some other ∧ other.shape = targetShape)
          ∧ (spawnPassenger g r1 r2).stations[i]? = some
              { station with
                passengers := station.passengers ++
                  [{ id := g.passengers.length, station := i, targetShape := targetShape,
                     waitTime := 0, ref := g.nextRef, boardingAnimation := false }] }
          ∧ (∀ j, j ≠ i → (spawnPassenger g r1 r2).stations[j]? = g.stations[j]?)
          ∧ (spawnPassenger g r1 r2).stations.length = g.stations.length
          ∧ (spawnPassenger g r1 r2).passengers = g.passengers ++ [g.nextRef]) := by
  constructor
  · intro h
    unfold spawnPassenger
    simp only [h, if_true]
  · intro hn
    have hi : ⌊r1 * (g.stations.length : α)⌋₊ < g.stations.length :=
      floor_mul_lt r1 _ h1 h1' (by omega)
    have hlen : ((g.stations.eraseIdx ⌊r1 * (g.stations.length : α)⌋₊).map
        fun s => s.shape).length = g.stations.length - 1 := by
      rw [List.length_map, List.length_eraseIdx_of_lt hi]
    have hk : ⌊r2 * ((g.stations.length - 1 : Nat) : α)⌋₊ < g.stations.length - 1 :=
      floor_mul_lt r2 _ h2 h2' (by omega)
    obtain ⟨station, hs⟩ : ∃ station, g.stations[⌊r1 * (g.stations.length : α)⌋₊]? = some station :=
      ⟨_, List.getElem?_eq_getElem hi⟩
    -- the station whose shape is drawn
    obtain ⟨j, other, hj, hother, hshape⟩ : ∃ (j : Nat) (other : Station α),
        j ≠ ⌊r1 * (g.stations.length : α)⌋₊ ∧ g.stations[j]? = some other ∧
        ((g.stations.eraseIdx ⌊r1 * (g.stations.length : α)⌋₊).map
          fun s => s.shape)[⌊r2 * ((g.stations.length - 1 : Nat) : α)⌋₊]? = some other.shape := by
      rw [List.getElem?_map, List.getElem?_eraseIdx]
      split_ifs with hlt
      · have hb : ⌊r2 * ((g.stations.length - 1 : Nat) : α)⌋₊ < g.stations.length := by omega
        exact ⟨⌊r2 * ((g.stations.length - 1 : Nat) : α)⌋₊, g.stations[⌊r2 * ((g.stations.length - 1 : Nat) : α)⌋₊],
          by omega, List.getElem?_eq_getElem hb, by rw [List.getElem?_eq_getElem hb]; rfl⟩
      · have hb : ⌊r2 * ((g.stations.length - 1 : Nat) : α)⌋₊ + 1 < g.stations.length := by
          omega
        exact ⟨⌊r2 * ((g.stations.length - 1 : Nat) : α)⌋₊ + 1,
          g.stations[⌊r2 * ((g.stations.length - 1 : Nat) : α)⌋₊ + 1],
          by omega, List.getElem?_eq_getElem hb, by rw [List.getElem?_eq_getElem hb]; rfl⟩
    refine ⟨_, station, other.shape, hs, ⟨j, other, hj, hother, rfl⟩, ?_⟩
    have hval : spawnPassenger g r1 r2 =
        { g with
          stations := g.stations.set ⌊r1 * (g.stations.length : α)⌋₊
            { station with
              passengers := station.passengers ++
                [{ id := g.passengers.length, station := ⌊r1 * (g.stations.length : α)⌋₊,
                   targetShape := other.shape, waitTime := 0, ref := g.nextRef,
                   boardingAnimation := false }] }
          passengers := g.passengers ++ [g.nextRef]
          nextRef := g.nextRef + 1 } := by
      unfold spawnPassenger
      have hn' : ¬ g.stations.length < 2 := by omega
      simp only [hn', if_false, hs, hlen]
      rw [if_pos (by omega)]
      simp only [hshape]
    rw [hval]
    refine ⟨List.getElem?_set_self hi, fun j hj => ?_, by simp, rfl⟩
    simp only [List.getElem?_set_ne (Ne.symm hj)]

end Spawn2

/-! ### Evaluations on the line A-B-C -/

/-- Witness of `updateTrains_moving_train`: the line A-B-C with segments of length 1000 and
a train of speed 0.5; after nineteen 100 ms steps the train is at position 19/20 of
segment 0, and the twentieth step stops it for 400 ms (B is an interchange). -/
theorem updateTrains_moving_train_witness :
    ((ticks 20 lineGame).trains.map fun t => (t.state, t.stationStopTime, t.currentSegment))
        = [(TrainState.stopped, 400, 1)]
    ∧ ∃ train', (updateTrains flatMath (ticks 19 lineGame) 100).trains[0]? = some train' ∧
      ((19 / 20 : ℚ) + 1 / 2 * 100 / flatMath.hypot (1100 - 100) (300 - 300) < 1 →
        train' = { trainOnABC (19 / 20) 0 1 TrainState.moving 0 [] with
          position := (19 / 20 : ℚ) + 1 / 2 * 100 / flatMath.hypot (1100 - 100) (300 - 300) }) ∧
      ((19 / 20 : ℚ) + 1 / 2 * 100 / flatMath.hypot (1100 - 100) (300 - 300) ≥ 1 →
        train' = { trainOnABC (19 / 20) 0 1 TrainState.moving 0 [] with
          position := 0
          state := TrainState.stopped
          stationStopTime := if true then 400 else 700
          currentSegment := if 0 + 1 ≥ 2 then 2 - 1 else 0 + 1
          direction := if 0 + 1 ≥ 2 then -1 else 1 }) :=
  ⟨by decide!,
    updateTrains_moving_train flatMath (ticks 19 lineGame) 100 0
      (trainOnABC (19 / 20) 0 1 TrainState.moving 0 []) lineABC
      { from_ := { x := 100, y := 300 }, to_ := { x := 1100, y := 300 }, angle := 0 } 1
      (stationOnRow 1 1100 Shape.triangle
        [{ id := 0, station := 1, targetShape := Shape.square, waitTime := 0, ref := 0,
           boardingAnimation := false }] true)
      (by decide!) (by decide!) (by decide!) (by decide!) (by decide!) (by decide!)
      (by decide!) (by decide!)⟩

/-- **C11.** Failing input: the line A-B-C with one train (segment 0, direction 1), B the
only interchange, one passenger waiting at B and one at C, ticked by 100 ms. The 20th call
stops the train at `currentStation` B (reference 1), for the 400 ms of an interchange.
When the dwell ends on the 24th call, `unloadPassengers` and `loadPassengers` serve
station C (reference 2): the passenger of C boards and the queue of B is untouched. The
station index is read after `currentSegment` was advanced on arrival. -/
theorem load_and_unload_serve_another_station :
    stopsWithin flatMath 100 0 20 lineGame = [some 1]
    ∧ ((ticks 20 lineGame).trains.map fun t => (t.state, t.stationStopTime))
        = [(TrainState.stopped, 400)]
    ∧ servedWithin flatMath 100 0 24 lineGame = [some 2]
    ∧ ((ticks 23 lineGame).stations.map fun s => s.passengers.map fun p => p.ref)
        = [[], [0], [1]]
    ∧ ((ticks 24 lineGame).stations.map fun s => s.passengers.map fun p => p.ref)
        = [[], [0], []]
    ∧ ((ticks 24 lineGame).trains.map fun t => (t.state, t.passengers.map fun p => p.ref))
        = [(TrainState.moving, [1])] := by
  decide!

/-- **C12.** Failing input: the train of the line A-B-C (stations 0, 1, 2), started on
segment 0 with direction 1 and ticked by 100 ms 140 times. Its five stops are at the
stations 1, 2, 2, 1, 1 (the `currentStation` whose interchange flag sets the dwell time),
not at 1, 2, 1, 0, 1: `currentStation` is `line.stations[currentSegment + 1]` whatever the
direction, so the train never stops at station 0. The stations served by
`unloadPassengers` and `loadPassengers` at these stops are 2, 1, 0, 1, 2. -/
theorem train_stops_are_not_a_ping_pong :
    stopsWithin flatMath 100 0 140 lineGame = [some 1, some 2, some 2, some 1, some 1]
    ∧ stopsWithin flatMath 100 0 140 lineGame ≠ [some 1, some 2, some 1, some 0, some 1]
    ∧ servedWithin flatMath 100 0 140 lineGame = [some 2, some 1, some 0, some 1, some 2] := by
  decide!

/-- Witness of `loadPassengers_boards`: the train of the line A-B-C after its first
arrival (20 ticks); the served station is C, whose passenger (for a circle) boards. -/
theorem loadPassengers_boards_witness :
    ((loadPassengers (ticks 20 lineGame) 0).trains.map fun t => t.passengers) = [[riderFromC]]
    ∧ (loadPassengers (ticks 20 lineGame) 0).trains[0]? = some
        { trainOnABC 0 1 1 TrainState.stopped 400 [] with
          passengers := [] ++
            (([({ id := 1, station := 2, targetShape := Shape.circle, waitTime := 0, ref := 1,
                  boardingAnimation := false } : Passenger ℚ)].reverse.filter
                fun p => canReachShape (ticks 20 lineGame) lineABC p.targetShape).take
              (((6 : Nat) : Int) + 4 * (0 : Nat) - ([] : List (Passenger ℚ)).length).toNat).map
              fun p => { p with boardingAnimation := true } } :=
  ⟨by decide!,
    (loadPassengers_boards (ticks 20 lineGame) 0 (trainOnABC 0 1 1 TrainState.stopped 400 [])
      lineABC 2
      (stationOnRow 2 2100 Shape.square
        [{ id := 1, station := 2, targetShape := Shape.circle, waitTime := 0, ref := 1,
           boardingAnimation := false }] false)
      (by decide!) (by decide!) (by decide!) (by decide!)).2.2.1⟩

/-- Witness of `unloadPassengers_delivers`: the train of the line A-B-C after 77 ticks,
stopped with both passengers on board; the served station is A (a circle), so the
passenger for a circle is delivered. -/
theorem unloadPassengers_delivers_witness :
    ((unloadPassengers (ticks 77 lineGame) 0).trains.map fun t => t.passengers) = [[riderFromB]]
    ∧ (unloadPassengers (ticks 77 lineGame) 0).passengers = [0]
    ∧ (unloadPassengers (ticks 77 lineGame) 0).score
        = (ticks 77 lineGame).score +
          (([riderFromC, riderFromB].filter fun p =>
            decide (p.targetShape = (stationOnRow 0 100 Shape.circle [] false).shape)).length
            : Int) :=
  ⟨by decide!, by decide!,
    (unloadPassengers_delivers (ticks 77 lineGame) 0
      (trainOnABC 0 0 (-1) TrainState.stopped 100 [riderFromC, riderFromB]) lineABC 0
      (stationOnRow 0 100 Shape.circle [] false)
      (by decide!) (by decide!) (by decide!) (by decide!)).2.1⟩

/-- Witness of `mouse_handlers_keep_stations_distinct`: a line is started on station A and
the mouse is released on station B. -/
theorem mouse_handlers_keep_stations_distinct_witness :
    ((onMouseUp flatMath (onMouseDown flatMath startGame 0 100 300) 1100 300).lines.map
        fun l => l.stations) = [[0, 1], [], []]
    ∧ ∀ line ∈ (onMouseUp flatMath (onMouseDown flatMath startGame 0 100 300) 1100 300).lines,
        line.stations.Nodup :=
  ⟨by decide!,
    (mouse_handlers_keep_stations_distinct flatMath (onMouseDown flatMath startGame 0 100 300) 0
      1100 300 (by decide!)).2.1⟩

/-- **C18, counterexample.** On the line A-B-C (stations 0, 1, 2) a right click on
station 0, at index 0: the line keeps the stations 1 and 2, not the first 0 stations. -/
theorem onMouseDown_right_click_on_first_station :
    getStationAt lineGame 100 300 = some 0
    ∧ (lineGame.lines.map fun l => l.stations) = [[0, 1, 2]]
    ∧ ((onMouseDown flatMath lineGame 2 100 300).lines.map fun l => l.stations) = [[1, 2]]
    ∧ ((onMouseDown flatMath lineGame 2 100 300).lines.map fun l => l.stations)
        ≠ [List.take 0 [0, 1, 2]] := by
  decide!

/-- Witness of `onMouseDown_right_click`: on the line A-B-C a right click on station B, at
index 1, leaves the line with station A only. -/
theorem onMouseDown_right_click_witness :
    ((onMouseDown flatMath lineGame 2 1100 300).lines.map fun l => l.stations) = [[0]]
    ∧ onMouseDown flatMath lineGame 2 1100 300 =
      { lineGame with
        lines := lineGame.lines.set 0
          (recalculateLineSegments flatMath lineGame
            { lineABC with
              stations := if 1 = 0 then lineABC.stations.tail else lineABC.stations.take 1 }) } :=
  ⟨by decide!,
    onMouseDown_right_click flatMath lineGame 1100 300 1 0 lineABC 1 (by decide!) (by decide!)
      (by decide!) (by decide!) (fun j _ hj => absurd hj (Nat.not_lt_zero j)) (by decide!)
      (by decide!)⟩

/-- Witness of `spawnPassenger_spec`: three stations and the draws 1/2 and 3/4; the
passenger appears at station B with the shape of C as target. -/
theorem spawnPassenger_spec_witness :
    ((spawnPassenger rowGame (1 / 2) (3 / 4)).stations.map fun s =>
        s.passengers.map fun p => (p.ref, p.targetShape, p.waitTime))
      = [[], [(0, Shape.square, 0), (2, Shape.square, 0)], [(1, Shape.circle, 0)]]
    ∧ (3 < 2 → spawnPassenger rowGame (1 / 2) (3 / 4) = rowGame) :=
  ⟨by decide!,
    (spawnPassenger_spec rowGame (1 / 2) (3 / 4) (by norm_num) (by norm_num) (by norm_num)
      (by norm_num)).1⟩

/-! ## Frames and game time (game.js) -/

section Loop2
variable {α : Type} [LinearOrderedField α] [FloorRing α]

/-- **C22.** When the game is paused or over, or the frame delta is at least 100 ms,
`gameLoop` only stores the frame time: every other field of the state (stations with
their queues and overcrowding, lines, trains, passengers, score, day, week, day progress,
time of day, resources) is as before. -/
theorem gameLoop_guard (M : JsMath α) (g : Game α) (currentTime r0 r1 r2 : α)
    (h : g.paused = true ∨ g.gameOver = true ∨ currentTime - g.lastFrameTime ≥ 100) :
    gameLoop M g currentTime r0 r1 r2 = { g with lastFrameTime := currentTime } := by
  unfold gameLoop
  dsimp only
  rw [if_neg]
  simp only [Bool.and_eq_true, Bool.not_eq_true', decide_eq_true_eq, not_and, not_lt]
  rintro ⟨h1, h2⟩
  rcases h with h | h | h
  · rw [h] at h1; cases h1
  · rw [h] at h2; cases h2
  · exact h

theorem spawnPassenger_clock (g : Game α) (r1 r2 : α) :
    (spawnPassenger g r1 r2).day = g.day ∧ (spawnPassenger g r1 r2).week = g.week
    ∧ (spawnPassenger g r1 r2).dayProgress = g.dayProgress
    ∧ (spawnPassenger g r1 r2).dayDuration = g.dayDuration
    ∧ (spawnPassenger g r1 r2).gameSpeed = g.gameSpeed
    ∧ (spawnPassenger g r1 r2).paused = g.paused
    ∧ (spawnPassenger g r1 r2).gameOver = g.gameOver := by
  unfold spawnPassenger
  split_ifs
  · exact ⟨rfl, rfl, rfl, rfl, rfl, rfl, rfl⟩
  · dsimp only
    split
    · exact ⟨rfl, rfl, rfl, rfl, rfl, rfl, rfl⟩
    · split_ifs
      · split <;> exact ⟨rfl, rfl, rfl, rfl, rfl, rfl, rfl⟩
      · exact ⟨rfl, rfl, rfl, rfl, rfl, rfl, rfl⟩

theorem calendar_step (g : Game α) (deltaTime r0 r1 r2 : α)
    (hp : g.paused = false) (hs : g.gameSpeed = 1 ∨ g.gameSpeed = 2) (hdt : 0 ≤ deltaTime)
    (hday : 1 ≤ g.day ∧ g.day ≤ 7)
    (hprog : 0 ≤ g.dayProgress ∧ g.dayProgress < g.dayDuration) :
    (1 ≤ (updateGameTime g deltaTime r0 r1 r2).day
      ∧ (updateGameTime g deltaTime r0 r1 r2).day ≤ 7)
    ∧ (0 ≤ (updateGameTime g deltaTime r0 r1 r2).dayProgress
      ∧ (updateGameTime g deltaTime r0 r1 r2).dayProgress
          < (updateGameTime g deltaTime r0 r1 r2).dayDuration)
    ∧ (g.gameOver = true →
        (updateGameTime g deltaTime r0 r1 r2).dayProgress = g.dayProgress
        ∧ (updateGameTime g deltaTime r0 r1 r2).day = g.day
        ∧ (updateGameTime g deltaTime r0 r1 r2).week = g.week)
    ∧ (g.gameOver = false → g.dayProgress + deltaTime * g.gameSpeed < g.dayDuration →
        (updateGameTime g deltaTime r0 r1 r2).dayProgress
            = g.dayProgress + deltaTime * g.gameSpeed
        ∧ (updateGameTime g deltaTime r0 r1 r2).day = g.day
        ∧ (updateGameTime g deltaTime r0 r1 r2).week = g.week)
    ∧ (g.gameOver = false → g.dayProgress + deltaTime * g.gameSpeed ≥ g.dayDuration →
        (updateGameTime g deltaTime r0 r1 r2).dayProgress = 0
        ∧ (updateGameTime g deltaTime r0 r1 r2).day = (if g.day = 7 then 1 else g.day + 1)
        ∧ (updateGameTime g deltaTime r0 r1 r2).week
            = (if g.day = 7 then g.week + 1 else g.week)) := by
  have hspeed : 0 ≤ deltaTime * g.gameSpeed := by
    rcases hs with hs | hs <;> rw [hs] <;> nlinarith
  have hne : ¬ g.gameSpeed = 0 := by
    rcases hs with hs | hs <;> rw [hs] <;> norm_num
  have hdur : 0 < g.dayDuration := lt_of_le_of_lt hprog.1 hprog.2
  cases hgo : g.gameOver with
  | true =>
    have e : updateGameTime g deltaTime r0 r1 r2 = g := by
      unfold updateGameTime; rw [if_pos hgo]
    rw [e]
    exact ⟨hday, hprog, fun _ => ⟨rfl, rfl, rfl⟩, fun h => (by cases h), fun h => (by cases h)⟩
  | false =>
    by_cases hroll : g.dayProgress + deltaTime * g.gameSpeed ≥ g.dayDuration
    · have e : (updateGameTime g deltaTime r0 r1 r2).dayProgress = 0
          ∧ (updateGameTime g deltaTime r0 r1 r2).day = (if g.day = 7 then 1 else g.day + 1)
          ∧ (updateGameTime g deltaTime r0 r1 r2).week
              = (if g.day = 7 then g.week + 1 else g.week)
          ∧ (updateGameTime g deltaTime r0 r1 r2).dayDuration = g.dayDuration := by
        unfold updateGameTime
        simp only [hgo, hp, hne, Bool.false_eq_true, if_false, Bool.or_self, decide_False,
          hroll, if_true]
        by_cases h7 : g.day = 7
        · have h8 : g.day + 1 > 7 := by omega
          simp only [h8, if_true]
          split_ifs <;> simp [spawnPassenger_clock, h7]
        · have h8 : ¬ g.day + 1 > 7 := by omega
          simp only [h8, if_false]
          split_ifs <;> simp [spawnPassenger_clock, h7]
      refine ⟨?_, ?_, fun h => (by cases h), fun _ h => absurd hroll (not_le.mpr h),
        fun _ _ => ⟨e.1, e.2.1, e.2.2.1⟩⟩
      · rw [e.2.1]; split_ifs <;> omega
      · rw [e.1, e.2.2.2]; exact ⟨le_refl _, hdur⟩
    · have e : (updateGameTime g deltaTime r0 r1 r2).dayProgress
            = g.dayProgress + deltaTime * g.gameSpeed
          ∧ (updateGameTime g deltaTime r0 r1 r2).day = g.day
          ∧ (updateGameTime g deltaTime r0 r1 r2).week = g.week
          ∧ (updateGameTime g deltaTime r0 r1 r2).dayDuration = g.dayDuration := by
        unfold updateGameTime
        simp only [hgo, hp, hne, Bool.false_eq_true, if_false, Bool.or_self, decide_False,
          hroll]
        split_ifs <;> simp [spawnPassenger_clock]
      refine ⟨by rw [e.2.1]; exact hday, ?_, fun h => (by cases h),
        fun _ _ => ⟨e.1, e.2.1, e.2.2.1⟩, fun _ h => absurd h hroll⟩
      rw [e.1, e.2.2.2]
      exact ⟨by linarith [hprog.1], not_le.mp hroll⟩

theorem updateGameTime_frame (g : Game α) (deltaTime r0 r1 r2 : α) :
    (updateGameTime g deltaTime r0 r1 r2).dayDuration = g.dayDuration
    ∧ (updateGameTime g deltaTime r0 r1 r2).gameSpeed = g.gameSpeed
    ∧ (updateGameTime g deltaTime r0 r1 r2).gameOver = g.gameOver
    ∧ ((updateGameTime g deltaTime r0 r1 r2).week = g.week →
        (updateGameTime g deltaTime r0 r1 r2).paused = g.paused) := by
  unfold updateGameTime
  dsimp only
  split_ifs <;> simp [spawnPassenger_clock]

theorem clockRun_append (deltaTime : α) (l : List (α × α × α)) (r : α × α × α) (g : Game α) :
    clockRun deltaTime (l ++ [r]) g
      = updateGameTime (clockRun deltaTime l g) deltaTime r.1 r.2.1 r.2.2 := by
  unfold clockRun
  rw [List.foldl_append]
  rfl

/-- The clock after `N * q + r` calls with `deltaTime = 20000 / N` at speed 1, from the
start of a day 1: day `1 + q`, progress `r * deltaTime`, the same week (`q ≤ 6`). -/
theorem clockRun_within_week (g : Game α) (N : Nat) (hN : 0 < N)
    (h0 : g.day = 1 ∧ g.dayProgress = 0 ∧ g.dayDuration = 20000 ∧ g.gameSpeed = 1
      ∧ g.paused = false ∧ g.gameOver = false)
    (draws : List (α × α × α)) (q r : Nat) (hr : r < N) (hq : q < 7)
    (hlen : draws.length = N * q + r) :
    (clockRun (20000 / (N : α)) draws g).day = 1 + q
    ∧ (clockRun (20000 / (N : α)) draws g).dayProgress = (r : α) * (20000 / (N : α))
    ∧ (clockRun (20000 / (N : α)) draws g).week = g.week
    ∧ (clockRun (20000 / (N : α)) draws g).dayDuration = 20000
    ∧ (clockRun (20000 / (N : α)) draws g).gameSpeed = 1
    ∧ (clockRun (20000 / (N : α)) draws g).paused = false
    ∧ (clockRun (20000 / (N : α)) draws g).gameOver = false := by
  have hNpos : (0 : α) < (N : α) := Nat.cast_pos.mpr hN
  have hdt : (0 : α) ≤ 20000 / (N : α) := by positivity
  have hfull : (N : α) * (20000 / (N : α)) = 20000 := by field_simp
  induction draws using List.reverseRecOn generalizing q r with
  | nil =>
    simp only [List.length_nil] at hlen
    have hr0 : r = 0 := by
      rcases Nat.eq_zero_or_pos r with h | h
      · exact h
      · have : 0 < N * q + r := by omega
        omega
    have hq0 : q = 0 := by
      subst hr0
      rcases Nat.eq_zero_or_pos q with h | h
      · exact h
      · have : 0 < N * q := Nat.mul_pos hN h
        omega
    subst hr0 hq0
    simp [clockRun, h0.1, h0.2.1, h0.2.2.1, h0.2.2.2.1, h0.2.2.2.2.1, h0.2.2.2.2.2]
  | append_singleton l x ih =>
    rw [clockRun_append]
    simp only [List.length_append, List.length_singleton] at hlen
    rcases Nat.eq_zero_or_pos r with hr0 | hrpos
    · subst hr0
      have hqpos : 0 < q := by
        rcases Nat.eq_zero_or_pos q with h | h
        · subst h; simp at hlen
        · exact h
      obtain ⟨q', rfl⟩ : ∃ q', q = q' + 1 := ⟨q - 1, by omega⟩
      have hl : l.length = N * q' + (N - 1) := by
        have : N * (q' + 1) = N * q' + N := by ring
        omega
      obtain ⟨i1, i2, i3, i4, i5, i6, i7⟩ := ih q' (N - 1) (by omega) (by omega) hl
      have hcast : ((N - 1 : Nat) : α) = (N : α) - 1 := by
        rw [Nat.cast_sub hN, Nat.cast_one]
      have hprog : (clockRun (20000 / (N : α)) l g).dayProgress
          + 20000 / (N : α) * (clockRun (20000 / (N : α)) l g).gameSpeed = 20000 := by
        rw [i2, i5, hcast, mul_one]
        have : ((N : α) - 1) * (20000 / (N : α)) + 20000 / (N : α)
            = (N : α) * (20000 / (N : α)) := by ring
        rw [this, hfull]
      have hlt : (clockRun (20000 / (N : α)) l g).dayProgress
          < (clockRun (20000 / (N : α)) l g).dayDuration := by
        rw [i2, i4, hcast]
        have : ((N : α) - 1) * (20000 / (N : α)) = 20000 - 20000 / (N : α) := by
          rw [sub_mul, hfull, one_mul]
        rw [this]
        have : (0 : α) < 20000 / (N : α) := by positivity
        linarith
      have step := calendar_step (clockRun (20000 / (N : α)) l g)
        (20000 / (N : α)) x.1 x.2.1 x.2.2 i6 (Or.inl i5) hdt (by omega)
        ⟨by rw [i2]; positivity, hlt⟩
      have fr := updateGameTime_frame (clockRun (20000 / (N : α)) l g)
        (20000 / (N : α)) x.1 x.2.1 x.2.2
      obtain ⟨s1, s2, s3⟩ := step.2.2.2.2 i7 (by rw [hprog, i4])
      have hd7 : ¬ (clockRun (20000 / (N : α)) l g).day = 7 := by omega
      rw [if_neg hd7] at s2 s3
      refine ⟨by rw [s2, i1]; ring, by rw [s1]; simp, by rw [s3, i3], by rw [fr.1, i4],
        by rw [fr.2.1, i5], ?_, by rw [fr.2.2.1, i7]⟩
      rw [fr.2.2.2 s3, i6]
    · obtain ⟨r', rfl⟩ : ∃ r', r = r' + 1 := ⟨r - 1, by omega⟩
      have hl : l.length = N * q + r' := by omega
      obtain ⟨i1, i2, i3, i4, i5, i6, i7⟩ := ih q r' (by omega) hq hl
      have hr1 : ((r' + 1 : Nat) : α) < (N : α) := by exact_mod_cast hr
      have hsum : (clockRun (20000 / (N : α)) l g).dayProgress
          + 20000 / (N : α) * (clockRun (20000 / (N : α)) l g).gameSpeed
          = ((r' + 1 : Nat) : α) * (20000 / (N : α)) := by
        rw [i2, i5, mul_one]
        push_cast
        ring
      have hpos : (0 : α) < 20000 / (N : α) := by positivity
      have hnoroll : (clockRun (20000 / (N : α)) l g).dayProgress
          + 20000 / (N : α) * (clockRun (20000 / (N : α)) l g).gameSpeed
          < (clockRun (20000 / (N : α)) l g).dayDuration := by
        rw [hsum, i4]
        calc ((r' + 1 : Nat) : α) * (20000 / (N : α)) < (N : α) * (20000 / (N : α)) :=
              mul_lt_mul_of_pos_right hr1 hpos
          _ = 20000 := hfull
      have hlt : (clockRun (20000 / (N : α)) l g).dayProgress
          < (clockRun (20000 / (N : α)) l g).dayDuration := by
        have : (0 : α) ≤ 20000 / (N : α) * (clockRun (20000 / (N : α)) l g).gameSpeed := by
          rw [i5, mul_one]; exact hdt
        linarith
      have step := calendar_step (clockRun (20000 / (N : α)) l g)
        (20000 / (N : α)) x.1 x.2.1 x.2.2 i6 (Or.inl i5) hdt (by omega)
        ⟨by rw [i2]; positivity, hlt⟩
      have fr := updateGameTime_frame (clockRun (20000 / (N : α)) l g)
        (20000 / (N : α)) x.1 x.2.1 x.2.2
      obtain ⟨s1, s2, s3⟩ := step.2.2.2.1 i7 hnoroll
      refine ⟨by rw [s2, i1], by rw [s1, hsum], by rw [s3, i3], by rw [fr.1, i4],
        by rw [fr.2.1, i5], ?_, by rw [fr.2.2.1, i7]⟩
      rw [fr.2.2.2 s3, i6]

/-- **C24.** One call of `updateGameTime` in a game that is not paused, at speed 1 or 2,
with `deltaTime ≥ 0`, day in `1..7` and day progress in `[0, dayDuration)`: the day stays
in `1..7` and the day progress in `[0, dayDuration)`; nothing moves when the game is over;
otherwise the day rolls over exactly when the progress plus the speed-adjusted time
reaches `dayDuration` (progress back to 0), and the week grows by one exactly on the
rollover of day 7. A run from the start of day 1 with `dayDuration = 20000`, speed 1 and
`deltaTime = 20000 / N`: the week is unchanged after fewer than `7 * N` calls and is one
more after exactly `7 * N` calls, that is after 140000 ms. -/
theorem updateGameTime_calendar (g : Game α) (deltaTime r0 r1 r2 : α)
    (hp : g.paused = false) (hs : g.gameSpeed = 1 ∨ g.gameSpeed = 2) (hdt : 0 ≤ deltaTime)
    (hday : 1 ≤ g.day ∧ g.day ≤ 7)
    (hprog : 0 ≤ g.dayProgress ∧ g.dayProgress < g.dayDuration)
    (g0 : Game α) (N : Nat) (hN : 0 < N)
    (h0 : g0.day = 1 ∧ g0.dayProgress = 0 ∧ g0.dayDuration = 20000 ∧ g0.gameSpeed = 1
      ∧ g0.paused = false ∧ g0.gameOver = false) :
    ((1 ≤ (updateGameTime g deltaTime r0 r1 r2).day
        ∧ (updateGameTime g deltaTime r0 r1 r2).day ≤ 7)
      ∧ (0 ≤ (updateGameTime g deltaTime r0 r1 r2).dayProgress
        ∧ (updateGameTime g deltaTime r0 r1 r2).dayProgress
            < (updateGameTime g deltaTime r0 r1 r2).dayDuration)
      ∧ (g.gameOver = true →
          (updateGameTime g deltaTime r0 r1 r2).dayProgress = g.dayProgress
          ∧ (updateGameTime g deltaTime r0 r1 r2).day = g.day
          ∧ (updateGameTime g deltaTime r0 r1 r2).week = g.week)
      ∧ (g.gameOver = false → g.dayProgress + deltaTime * g.gameSpeed < g.dayDuration →
          (updateGameTime g deltaTime r0 r1 r2).dayProgress
              = g.dayProgress + deltaTime * g.gameSpeed
          ∧ (updateGameTime g deltaTime r0 r1 r2).day = g.day
          ∧ (updateGameTime g deltaTime r0 r1 r2).week = g.week)
      ∧ (g.gameOver = false → g.dayProgress + deltaTime * g.gameSpeed ≥ g.dayDuration →
          (updateGameTime g deltaTime r0 r1 r2).dayProgress = 0
          ∧ (updateGameTime g deltaTime r0 r1 r2).day = (if g.day = 7 then 1 else g.day + 1)
          ∧ (updateGameTime g deltaTime r0 r1 r2).week
              = (if g.day = 7 then g.week + 1 else g.week)))
    ∧ (∀ draws : List (α × α × α), draws.length < 7 * N →
        (clockRun (20000 / (N : α)) draws g0).week = g0.week)
    ∧ (∀ draws : List (α × α × α), draws.length = 7 * N →
        (clockRun (20000 / (N : α)) draws g0).week = g0.week + 1
        ∧ (clockRun (20000 / (N : α)) draws g0).day = 1
        ∧ (clockRun (20000 / (N : α)) draws g0).dayProgress = 0)
    ∧ ((7 * N : Nat) : α) * (20000 / (N : α)) = 140000 := by
  refine ⟨calendar_step g deltaTime r0 r1 r2 hp hs hdt hday hprog, ?_, ?_, ?_⟩
  · intro draws hlen
    have hq : draws.length / N < 7 := Nat.div_lt_of_lt_mul (by rw [Nat.mul_comm]; exact hlen)
    exact (clockRun_within_week g0 N hN h0 draws (draws.length / N) (draws.length % N)
      (Nat.mod_lt _ hN) hq (Nat.div_add_mod _ _).symm).2.2.1
  · intro draws hlen
    have hne : draws ≠ [] := by
      intro h
      rw [h] at hlen
      simp only [List.length_nil] at hlen
      omega
    obtain ⟨l, x, rfl⟩ : ∃ l x, draws = l ++ [x] :=
      ⟨draws.dropLast, draws.getLast hne, (List.dropLast_append_getLast hne).symm⟩
    simp only [List.length_append, List.length_singleton] at hlen
    obtain ⟨i1, i2, i3, i4, i5, i6, i7⟩ :=
      clockRun_within_week g0 N hN h0 l 6 (N - 1) (by omega) (by omega) (by omega)
    have hNpos : (0 : α) < (N : α) := Nat.cast_pos.mpr hN
    have hfull : (N : α) * (20000 / (N : α)) = 20000 := by field_simp
    have hcast : ((N - 1 : Nat) : α) = (N : α) - 1 := by
      rw [Nat.cast_sub hN, Nat.cast_one]
    have hpos : (0 : α) < 20000 / (N : α) := by positivity
    have hprog1 : (clockRun (20000 / (N : α)) l g0).dayProgress
        + 20000 / (N : α) * (clockRun (20000 / (N : α)) l g0).gameSpeed = 20000 := by
      rw [i2, i5, hcast, mul_one]
      have : ((N : α) - 1) * (20000 / (N : α)) + 20000 / (N : α)
          = (N : α) * (20000 / (N : α)) := by ring
      rw [this, hfull]
    have hlt : (clockRun (20000 / (N : α)) l g0).dayProgress
        < (clockRun (20000 / (N : α)) l g0).dayDuration := by
      rw [i2, i4, hcast]
      have : ((N : α) - 1) * (20000 / (N : α)) = 20000 - 20000 / (N : α) := by
        rw [sub_mul, hfull, one_mul]
      rw [this]
      linarith
    have step := calendar_step (clockRun (20000 / (N : α)) l g0)
      (20000 / (N : α)) x.1 x.2.1 x.2.2 i6 (Or.inl i5) (le_of_lt hpos) (by omega)
      ⟨by rw [i2]; positivity, hlt⟩
    obtain ⟨s1, s2, s3⟩ := step.2.2.2.2 i7 (by rw [hprog1, i4])
    have hd7 : (clockRun (20000 / (N : α)) l g0).day = 7 := by omega
    rw [if_pos hd7] at s2 s3
    rw [clockRun_append]
    exact ⟨by rw [s3, i3], s2, s1⟩
  · have hNpos : (0 : α) < (N : α) := Nat.cast_pos.mpr hN
    push_cast
    field_simp
    ring

end Loop2

/-- Witness of `gameLoop_guard`: a paused game and a frame at 16 ms. -/
theorem gameLoop_guard_witness :
    ((({ rowGame with paused := true } : Game ℚ).paused = true)
      ∨ ({ rowGame with paused := true } : Game ℚ).gameOver = true
      ∨ (16 : ℚ) - ({ rowGame with paused := true } : Game ℚ).lastFrameTime ≥ 100)
    ∧ gameLoop flatMath { rowGame with paused := true } 16 0 0 (1 / 2)
        = { ({ rowGame with paused := true } : Game ℚ) with lastFrameTime := 16 } :=
  ⟨Or.inl rfl, gameLoop_guard flatMath { rowGame with paused := true } 16 0 0 (1 / 2)
    (Or.inl rfl)⟩

set_option maxRecDepth 100000 in
/-- Witness of `updateGameTime_calendar`: with `deltaTime = 5000` (`N = 4`) the week is 1
after 27 calls and 2 after 28 calls; a frame of 16 ms that ends day 7 starts the next
week. -/
theorem updateGameTime_calendar_witness :
    (clockRun 5000 (List.replicate 27 (99 / 100, 0, 0)) rowGame).week = 1
    ∧ (clockRun 5000 (List.replicate 28 (99 / 100, 0, 0)) rowGame).week = 2
    ∧ (((7 * 4 : Nat) : ℚ) * (20000 / ((4 : Nat) : ℚ)) = 140000)
    ∧ (updateGameTime { rowGame with day := 7, dayProgress := 19990 } 16 (99 / 100) 0 0).week
        = (if ({ rowGame with day := 7, dayProgress := 19990 } : Game ℚ).day = 7 then
            ({ rowGame with day := 7, dayProgress := 19990 } : Game ℚ).week + 1
          else ({ rowGame with day := 7, dayProgress := 19990 } : Game ℚ).week) :=
  ⟨by decide!, by decide!,
    (updateGameTime_calendar { rowGame with day := 7, dayProgress := 19990 } 16 (99 / 100) 0 0
      rfl (Or.inl rfl) (by norm_num) (by decide) (by decide!) rowGame 4 (by decide)
      ⟨rfl, rfl, rfl, rfl, rfl, rfl⟩).2.2.2,
    ((updateGameTime_calendar { rowGame with day := 7, dayProgress := 19990 } 16 (99 / 100) 0 0
      rfl (Or.inl rfl) (by norm_num) (by decide) (by decide!) rowGame 4 (by decide)
      ⟨rfl, rfl, rfl, rfl, rfl, rfl⟩).1.2.2.2.2 rfl (by decide!)).2.2⟩

/-! ## Segments (game.js, game-realistic.js) -/

/-- **C27.** `recalculateLineSegments` is idempotent in game.js and in game-realistic.js:
a second call on the result gives the same line, segment for segment. The segments depend
on the stations only (the list is emptied first), the realistic ones are one fewer than
the stations, and the stations are not touched. -/
theorem recalculateLineSegments_idempotent {α : Type} [LinearOrderedField α]
    (M : JsMath α) (g : Game α) (line : Line α) (gr : GameRealistic.Game α)
    (lr : GameRealistic.Line α) :
    recalculateLineSegments M g (recalculateLineSegments M g line)
        = recalculateLineSegments M g line
    ∧ GameRealistic.recalculateLineSegments gr (GameRealistic.recalculateLineSegments gr lr)
        = GameRealistic.recalculateLineSegments gr lr
    ∧ (∀ segments, recalculateLineSegments M g { line with segments := segments }
        = recalculateLineSegments M g line)
    ∧ (∀ segments,
        GameRealistic.recalculateLineSegments gr { lr with segments := segments }
          = GameRealistic.recalculateLineSegments gr lr)
    ∧ (GameRealistic.recalculateLineSegments gr lr).segments.length = lr.stations.length - 1
    ∧ (recalculateLineSegments M g line).stations = line.stations
    ∧ (GameRealistic.recalculateLineSegments gr lr).stations = lr.stations :=
  ⟨rfl, rfl, fun _ => rfl, fun _ => rfl,
    by simp [GameRealistic.recalculateLineSegments, consecutivePairs], rfl, rfl⟩

/-! ## The order of the stops (game.js) -/

theorem succ_mod_eq (j P : Nat) (hP : 0 < P) :
    (j + 1) % P = if j % P + 1 = P then 0 else j % P + 1 := by
  have h := Nat.div_add_mod j P
  have hlt := Nat.mod_lt j hP
  split_ifs with hc
  · have : j + 1 = P * (j / P + 1) := by rw [Nat.mul_add, Nat.mul_one]; omega
    rw [this, Nat.mul_mod_right]
  · have : j + 1 = P * (j / P) + (j % P + 1) := by omega
    rw [this, Nat.mul_add_mod, Nat.mod_eq_of_lt (by omega)]

theorem legAfter_zero (m : Nat) (hm : 0 < m) : legAfter m 0 = (0, 1) := by
  simp [legAfter, hm]

theorem legAfter_fst_lt (m j : Nat) (hm : 0 < m) : (legAfter m j).1 < m := by
  unfold legAfter
  have := Nat.mod_lt j (show 0 < 2 * m by omega)
  split_ifs with h
  · exact h
  · simp only
    omega

theorem legAfter_snd (m j : Nat) : (legAfter m j).2 = 1 ∨ (legAfter m j).2 = -1 := by
  unfold legAfter
  split_ifs <;> simp

theorem succ_mod_cases (j P : Nat) (hP : 0 < P) :
    (j % P + 1 = P ∧ (j + 1) % P = 0) ∨ (j % P + 1 < P ∧ (j + 1) % P = j % P + 1) := by
  have hs := succ_mod_eq j P hP
  have hlt := Nat.mod_lt j hP
  by_cases h : j % P + 1 = P
  · rw [if_pos h] at hs; exact Or.inl ⟨h, hs⟩
  · rw [if_neg h] at hs; exact Or.inr ⟨by omega, hs⟩

/-- The arrival branch of `updateTrains` takes the leg after `j` arrivals to the leg after
`j + 1` arrivals. -/
theorem legAfter_succ (m j : Nat) (hm : 0 < m) :
    (if (legAfter m j).2 = 1 then
        if (legAfter m j).1 + 1 ≥ m then ((m - 1 : Nat), (-1 : Int))
        else ((legAfter m j).1 + 1, (legAfter m j).2)
      else if (legAfter m j).1 = 0 then (0, 1)
      else ((legAfter m j).1 - 1, (legAfter m j).2)) = legAfter m (j + 1) := by
  have key : ∀ r r' : Nat, ((r + 1 = 2 * m ∧ r' = 0) ∨ (r + 1 < 2 * m ∧ r' = r + 1)) →
      (if (if r < m then (r, (1 : Int)) else (2 * m - 1 - r, -1)).2 = 1 then
        if (if r < m then (r, (1 : Int)) else (2 * m - 1 - r, -1)).1 + 1 ≥ m then
          ((m - 1 : Nat), (-1 : Int))
        else ((if r < m then (r, (1 : Int)) else (2 * m - 1 - r, -1)).1 + 1,
          (if r < m then (r, (1 : Int)) else (2 * m - 1 - r, -1)).2)
      else if (if r < m then (r, (1 : Int)) else (2 * m - 1 - r, -1)).1 = 0 then (0, 1)
      else ((if r < m then (r, (1 : Int)) else (2 * m - 1 - r, -1)).1 - 1,
        (if r < m then (r, (1 : Int)) else (2 * m - 1 - r, -1)).2))
      = (if r' < m then (r', (1 : Int)) else (2 * m - 1 - r', -1)) := by
    intro r r' h
    by_cases h1 : r < m
    · simp only [h1, if_true]
      rcases h with ⟨h, _⟩ | ⟨h, rfl⟩
      · omega
      · by_cases h2 : r + 1 ≥ m
        · rw [if_pos h2, if_neg (by omega)]
          have : 2 * m - 1 - (r + 1) = m - 1 := by omega
          rw [this]
        · rw [if_neg h2, if_pos (by omega)]
    · simp only [h1, if_false]
      rw [if_neg (by decide)]
      rcases h with ⟨h, rfl⟩ | ⟨h, rfl⟩
      · rw [if_pos (by omega), if_pos hm]
      · rw [if_neg (by omega), if_neg (by omega)]
        have : 2 * m - 1 - (r + 1) = 2 * m - 1 - r - 1 := by omega
        rw [this]
  exact key _ _ (succ_mod_cases j (2 * m) (by omega))

/-- The station index of `loadPassengers` and `unloadPassengers` on the leg after `j`
arrivals is the ping-pong position `j + 1`. -/
theorem served_index_legAfter (m j : Nat) (hm : 0 < m) :
    (if (legAfter m j).2 = 1 then (legAfter m j).1 + 1 else (legAfter m j).1)
      = pingPong (m + 1) (j + 1) := by
  have key : ∀ r r' : Nat, ((r + 1 = 2 * m ∧ r' = 0) ∨ (r + 1 < 2 * m ∧ r' = r + 1)) →
      (if (if r < m then (r, (1 : Int)) else (2 * m - 1 - r, -1)).2 = 1 then
        (if r < m then (r, (1 : Int)) else (2 * m - 1 - r, -1)).1 + 1
      else (if r < m then (r, (1 : Int)) else (2 * m - 1 - r, -1)).1)
      = (if r' < m + 1 then r' else 2 * m - r') := by
    intro r r' h
    by_cases h1 : r < m
    · simp only [h1, if_true]
      rcases h with ⟨h, _⟩ | ⟨h, rfl⟩
      · omega
      · rw [if_pos (by omega)]
    · simp only [h1, if_false]
      rw [if_neg (by decide)]
      rcases h with ⟨h, rfl⟩ | ⟨h, rfl⟩
      · rw [if_pos (by omega)]; omega
      · rw [if_neg (by omega)]; omega
  have := key _ _ (succ_mod_cases j (2 * m) (by omega))
  unfold legAfter pingPong
  simp only [Nat.add_sub_cancel]
  exact this

/-- Every station index of a line with `n ≥ 2` stations is the ping-pong position `k + 1`
of one of the first `2 * (n - 1)` stops. -/
theorem pingPong_covers (n i : Nat) (hn : 2 ≤ n) (hi : i < n) :
    ∃ k, 1 ≤ k ∧ k ≤ 2 * (n - 1) ∧ pingPong n (k + 1) = i := by
  by_cases h1 : 2 ≤ i
  · refine ⟨i - 1, by omega, by omega, ?_⟩
    unfold pingPong
    have : i - 1 + 1 = i := by omega
    rw [this, Nat.mod_eq_of_lt (by omega), if_pos hi]
  · by_cases h0 : i = 0
    · refine ⟨2 * (n - 1) - 1, by omega, by omega, ?_⟩
      unfold pingPong
      have : 2 * (n - 1) - 1 + 1 = 2 * (n - 1) := by omega
      rw [this, Nat.mod_self, if_pos (by omega), h0]
    · refine ⟨2 * (n - 1), by omega, by omega, ?_⟩
      unfold pingPong
      by_cases hn2 : n = 2
      · subst hn2
        have : i = 1 := by omega
        subst this
        decide
      · have hmod : (2 * (n - 1) + 1) % (2 * (n - 1)) = 1 := by
          rw [Nat.add_mod, Nat.mod_self, Nat.zero_add, Nat.mod_mod, Nat.mod_eq_of_lt (by omega)]
        rw [hmod, if_pos (by omega)]
        omega


section Ride
variable {α : Type} [LinearOrderedField α]

theorem SameForTrain.station {ti : Nat} {g g1 : Game α} (h : SameForTrain ti g g1) (r : Nat) :
    (∃ station, g.stations[r]? = some station) → ∃ station, g1.stations[r]? = some station := by
  rintro ⟨station, hs⟩
  have := h.interchange r
  rw [hs] at this
  cases h1 : g1.stations[r]? with
  | none => rw [h1] at this; cases this
  | some station1 => exact ⟨station1, rfl⟩

theorem unloadPassengers_own (g : Game α) (ti : Nat) (train : Train α)
    (ht : g.trains[ti]? = some train) :
    ∃ passengers, (unloadPassengers g ti).trains[ti]?
      = some { train with passengers := passengers } := by
  have hti := getElem?_lt ht
  unfold unloadPassengers
  rw [ht]
  dsimp only
  split
  · exact ⟨train.passengers, ht⟩
  · split
    · exact ⟨train.passengers, ht⟩
    · exact ⟨_, List.getElem?_set_self hti⟩

theorem loadPassengers_own (g : Game α) (ti : Nat) (train : Train α)
    (ht : g.trains[ti]? = some train) :
    ∃ passengers, (loadPassengers g ti).trains[ti]?
      = some { train with passengers := passengers } := by
  have hti := getElem?_lt ht
  unfold loadPassengers
  rw [ht]
  dsimp only
  split
  · exact ⟨train.passengers, ht⟩
  · split
    · exact ⟨train.passengers, ht⟩
    · split
      · exact ⟨train.passengers, ht⟩
      · exact ⟨_, List.getElem?_set_self hti⟩

/-- The world as a train sees it (lines and interchange flags) is the same after the loop
body of any train. -/
theorem updateTrain_world (M : JsMath α) (deltaTime : α) (g : Game α) (tj : Nat) :
    SameForTrain (tj + 1) g (updateTrain M deltaTime g tj) :=
  updateTrain_same M deltaTime g (tj + 1) tj (by omega)

theorem updateTrains_world (M : JsMath α) (g : Game α) (deltaTime : α) :
    (updateTrains M g deltaTime).lines = g.lines
    ∧ ∀ r : Nat, (∃ station, g.stations[r]? = some station) →
        ∃ station, (updateTrains M g deltaTime).stations[r]? = some station := by
  unfold updateTrains
  generalize List.range g.trains.length = l
  induction l generalizing g with
  | nil => exact ⟨rfl, fun _ h => h⟩
  | cons tj l ih =>
    rw [List.foldl_cons]
    have h1 := updateTrain_world M deltaTime g tj
    have h2 := ih (updateTrain M deltaTime g tj)
    exact ⟨h2.1.trans h1.lines, fun r hr => h2.2 r (h1.station r hr)⟩

theorem updateTrain_own_stopped (M : JsMath α) (deltaTime : α) (g : Game α) (ti : Nat)
    (train : Train α) (ht : g.trains[ti]? = some train)
    (hstate : train.state = TrainState.stopped) :
    (train.stationStopTime - deltaTime ≤ 0 →
      ∃ passengers, (updateTrain M deltaTime g ti).trains[ti]? = some
        { train with
          stationStopTime := train.stationStopTime - deltaTime
          state := TrainState.moving
          passengers := passengers })
    ∧ (¬ train.stationStopTime - deltaTime ≤ 0 →
      (updateTrain M deltaTime g ti).trains[ti]? = some
        { train with stationStopTime := train.stationStopTime - deltaTime }) := by
  have hti := getElem?_lt ht
  constructor
  · intro hle
    unfold updateTrain
    simp only [ht, hstate, hle, if_true]
    obtain ⟨p1, h1⟩ := unloadPassengers_own
      { g with
        trains := g.trains.set ti
          { train with
            stationStopTime := train.stationStopTime - deltaTime, state := TrainState.moving } }
      ti _ (List.getElem?_set_self hti)
    obtain ⟨p2, h2⟩ := loadPassengers_own _ ti _ h1
    exact ⟨p2, h2⟩
  · intro hgt
    unfold updateTrain
    simp only [ht, hstate, hgt, if_false]
    exact List.getElem?_set_self hti

theorem updateTrain_own_moving (M : JsMath α) (deltaTime : α) (g : Game α) (ti : Nat)
    (train : Train α) (line : Line α) (stationRef : Nat) (station : Station α)
    (ht : g.trains[ti]? = some train) (hstate : train.state = TrainState.moving)
    (hl : g.lines[train.line]? = some line)
    (hseg : train.currentSegment < line.segments.length)
    (hst : line.stations[train.currentSegment + 1]? = some stationRef)
    (hs : g.stations[stationRef]? = some station) :
    (updateTrain M deltaTime g ti).trains[ti]? = some
      (if train.position + train.speed * deltaTime
          / segmentLength M line train.currentSegment ≥ 1 then
        { train with
          position := 0
          state := TrainState.stopped
          stationStopTime := if station.isInterchange then 400 else 700
          currentSegment :=
            (if train.direction = 1 then
              if train.currentSegment + 1 ≥ line.segments.length then
                ((line.segments.length - 1 : Nat), (-1 : Int))
              else (train.currentSegment + 1, train.direction)
            else if train.currentSegment = 0 then (0, 1)
            else (train.currentSegment - 1, train.direction)).1
          direction :=
            (if train.direction = 1 then
              if train.currentSegment + 1 ≥ line.segments.length then
                ((line.segments.length - 1 : Nat), (-1 : Int))
              else (train.currentSegment + 1, train.direction)
            else if train.currentSegment = 0 then (0, 1)
            else (train.currentSegment - 1, train.direction)).2 }
      else
        { train with
          position := train.position + train.speed * deltaTime
            / segmentLength M line train.currentSegment }) := by
  have hti := getElem?_lt ht
  have hne : ¬ line.segments.length = 0 := by omega
  have hsegm : line.segments[train.currentSegment]?
      = some (line.segments[train.currentSegment]) := List.getElem?_eq_getElem hseg
  unfold updateTrain segmentLength
  simp only [ht, hstate, hl, hne, if_false, hsegm, currentStationRef, hst, Option.bind_some,
    Option.some_bind, hs]
  split_ifs <;> simp [List.getElem?_set_self hti]

/-- One call of `updateTrains` for a train that rides a line: the four ways it can go. -/
theorem Rides.step (M : JsMath α) (deltaTime : α) {g : Game α} {ti li : Nat} {line : Line α}
    {train : Train α} {j : Nat} (h : Rides g ti li line train j)
    (hsync : line.segments.length + 1 = line.stations.length)
    (hm : 0 < line.segments.length) :
    ∃ train1, train1.speed = train.speed ∧
      ((train.state = TrainState.stopped ∧ train.stationStopTime - deltaTime ≤ 0
          ∧ train1.state = TrainState.moving
          ∧ Rides (updateTrains M g deltaTime) ti li line train1 j)
      ∨ (train.state = TrainState.stopped ∧ ¬ train.stationStopTime - deltaTime ≤ 0
          ∧ train1.state = TrainState.stopped
          ∧ train1.stationStopTime = train.stationStopTime - deltaTime
          ∧ Rides (updateTrains M g deltaTime) ti li line train1 j)
      ∨ (train.state = TrainState.moving
          ∧ train.position + train.speed * deltaTime
              / segmentLength M line train.currentSegment ≥ 1
          ∧ train1.state = TrainState.stopped
          ∧ Rides (updateTrains M g deltaTime) ti li line train1 (j + 1))
      ∨ (train.state = TrainState.moving
          ∧ train.position + train.speed * deltaTime
              / segmentLength M line train.currentSegment < 1
          ∧ train1.state = TrainState.moving
          ∧ train1.position = train.position + train.speed * deltaTime
              / segmentLength M line train.currentSegment
          ∧ train1.currentSegment = train.currentSegment
          ∧ Rides (updateTrains M g deltaTime) ti li line train1 j)) := by
  have hti := getElem?_lt h.train_eq
  obtain ⟨g0, hsame, hres⟩ := updateTrains_train M g deltaTime ti hti
  have hworld := updateTrains_world M g deltaTime
  have ht0 : g0.trains[ti]? = some train := hsame.train.trans h.train_eq
  have hl0 : g0.lines[train.line]? = some line := by
    rw [hsame.lines, h.line_eq]; exact h.lines
  have hlines1 : (updateTrains M g deltaTime).lines[li]? = some line := by
    rw [hworld.1]; exact h.lines
  have hrefs1 : ∀ r ∈ line.stations,
      ∃ station, (updateTrains M g deltaTime).stations[r]? = some station :=
    fun r hr => hworld.2 r (h.refs r hr)
  have hcs : train.currentSegment = (legAfter line.segments.length j).1 :=
    congrArg Prod.fst h.leg
  have hdir : train.direction = (legAfter line.segments.length j).2 :=
    congrArg Prod.snd h.leg
  have hseg : train.currentSegment < line.segments.length := by
    rw [hcs]; exact legAfter_fst_lt _ _ hm
  cases hstate : train.state with
  | stopped =>
    have own := updateTrain_own_stopped M deltaTime g0 ti train ht0 hstate
    by_cases hle : train.stationStopTime - deltaTime ≤ 0
    · obtain ⟨passengers, hp⟩ := own.1 hle
      refine ⟨_, ?_, Or.inl ⟨rfl, hle, ?_, ⟨hres.trans hp, h.line_eq, hlines1, hrefs1, h.leg⟩⟩⟩
      · rfl
      · rfl
    · have hp := own.2 hle
      refine ⟨_, ?_, Or.inr (Or.inl
        ⟨rfl, hle, ?_, ?_, ⟨hres.trans hp, h.line_eq, hlines1, hrefs1, h.leg⟩⟩)⟩
      · rfl
      · exact hstate
      · rfl
  | moving =>
    have hidx : train.currentSegment + 1 < line.stations.length := by omega
    have hst : line.stations[train.currentSegment + 1]?
        = some (line.stations[train.currentSegment + 1]) := List.getElem?_eq_getElem hidx
    obtain ⟨station, hs⟩ := hsame.station _
      (h.refs _ (List.getElem_mem hidx))
    have own := updateTrain_own_moving M deltaTime g0 ti train line _ station ht0 hstate hl0
      hseg hst hs
    by_cases hge : train.position + train.speed * deltaTime
        / segmentLength M line train.currentSegment ≥ 1
    · rw [if_pos hge] at own
      refine ⟨_, ?_, Or.inr (Or.inr (Or.inl
        ⟨rfl, hge, ?_, ⟨hres.trans own, h.line_eq, hlines1, hrefs1, ?_⟩⟩))⟩
      · rfl
      · rfl
      · have := legAfter_succ line.segments.length j hm
        rw [← hcs, ← hdir] at this
        rw [← this]
    · rw [if_neg hge] at own
      refine ⟨_, ?_, Or.inr (Or.inr (Or.inr
        ⟨rfl, not_le.mp hge, ?_, ?_, ?_, ⟨hres.trans own, h.line_eq, hlines1, hrefs1, h.leg⟩⟩))⟩
      · rfl
      · exact hstate
      · rfl
      · rfl

theorem servedDuring_cons (M : JsMath α) (ti : Nat) (deltaTime : α) (rest : List α)
    (g : Game α) (train train1 : Train α) (ht : g.trains[ti]? = some train)
    (ht1 : (updateTrains M g deltaTime).trains[ti]? = some train1) :
    servedDuring M ti (deltaTime :: rest) g =
      if train.state = TrainState.stopped ∧ train1.state = TrainState.moving then
        (((updateTrains M g deltaTime).lines[train1.line]?).bind
            fun line => servedStationRef line train1)
          :: servedDuring M ti rest (updateTrains M g deltaTime)
      else servedDuring M ti rest (updateTrains M g deltaTime) := by
  rw [servedDuring]
  simp only [ht, ht1]

theorem Rides.served {g : Game α} {ti li : Nat} {line : Line α} {train : Train α} {j : Nat}
    (h : Rides g ti li line train j)
    (hsync : line.segments.length + 1 = line.stations.length)
    (hm : 0 < line.segments.length) :
    ((g.lines[train.line]?).bind fun line => servedStationRef line train)
      = line.stations[pingPong line.stations.length (j + 1)]? := by
  have hcs : train.currentSegment = (legAfter line.segments.length j).1 :=
    congrArg Prod.fst h.leg
  have hdir : train.direction = (legAfter line.segments.length j).2 :=
    congrArg Prod.snd h.leg
  rw [h.line_eq, h.lines, Option.some_bind, servedStationRef, ← hsync,
    ← served_index_legAfter _ _ hm, hcs, hdir]

/-- The stations served during a run are a prefix of the ping-pong sequence: the train has
made `j` arrivals, so its next stop is stop number `j` when it is stopped and `j + 1` when
it is moving, and stop number `k` serves the ping-pong position `k + 1`. -/
theorem Rides.served_in_order (M : JsMath α) (deltaTimes : List α) {g : Game α}
    {ti li : Nat} {line : Line α} {train : Train α} {j : Nat}
    (h : Rides g ti li line train j)
    (hsync : line.segments.length + 1 = line.stations.length)
    (hm : 0 < line.segments.length) :
    ∃ K, servedDuring M ti deltaTimes g = (List.range K).map fun k =>
      line.stations[pingPong line.stations.length
        ((if train.state = TrainState.stopped then j else j + 1) + k + 1)]? := by
  induction deltaTimes generalizing g train j with
  | nil => exact ⟨0, rfl⟩
  | cons deltaTime rest ih =>
    obtain ⟨train1, _, hc⟩ := h.step M deltaTime hsync hm
    rcases hc with ⟨hs, _, hs1, hr⟩ | ⟨hs, _, hs1, _, hr⟩ | ⟨hs, _, hs1, hr⟩ | ⟨hs, _, hs1, _, _, hr⟩
    · obtain ⟨K, hK⟩ := ih hr
      refine ⟨K + 1, ?_⟩
      rw [servedDuring_cons M ti deltaTime rest g train train1 h.train_eq hr.train_eq,
        if_pos ⟨hs, hs1⟩, hr.served hsync hm, hK, List.range_succ_eq_map, List.map_cons,
        List.map_map]
      simp only [hs, hs1, if_true, Nat.add_zero]
      rw [if_neg (by decide)]
      congr 1
      apply List.map_congr_left
      intro k _
      simp only [Function.comp]
      congr 2
      omega
    · obtain ⟨K, hK⟩ := ih hr
      refine ⟨K, ?_⟩
      rw [servedDuring_cons M ti deltaTime rest g train train1 h.train_eq hr.train_eq,
        if_neg (by rw [hs1]; simp), hK]
      simp only [hs, hs1]
    · obtain ⟨K, hK⟩ := ih hr
      refine ⟨K, ?_⟩
      rw [servedDuring_cons M ti deltaTime rest g train train1 h.train_eq hr.train_eq,
        if_neg (by rw [hs]; simp), hK]
      simp only [hs, hs1, if_true]
      rw [if_neg (by decide)]
    · obtain ⟨K, hK⟩ := ih hr
      refine ⟨K, ?_⟩
      rw [servedDuring_cons M ti deltaTime rest g train train1 h.train_eq hr.train_eq,
        if_neg (by rw [hs]; simp), hK]
      simp only [hs, hs1]

theorem servedDuring_length_cons (M : JsMath α) (ti : Nat) (deltaTime : α) (rest : List α)
    (g : Game α) :
    (servedDuring M ti rest (updateTrains M g deltaTime)).length
      ≤ (servedDuring M ti (deltaTime :: rest) g).length := by
  rw [servedDuring]
  split
  · split_ifs
    · simp
    · exact le_refl _
  · exact le_refl _

theorem servedDuring_append (M : JsMath α) (ti : Nat) (l1 l2 : List α) (g : Game α) :
    servedDuring M ti (l1 ++ l2) g
      = servedDuring M ti l1 g ++ servedDuring M ti l2 (trainRun M l1 g) := by
  induction l1 generalizing g with
  | nil => rfl
  | cons deltaTime rest ih =>
    rw [List.cons_append, servedDuring, servedDuring]
    have e : trainRun M (deltaTime :: rest) g = trainRun M rest (updateTrains M g deltaTime) := rfl
    rw [e]
    split
    · split_ifs
      · rw [ih, List.cons_append]
      · exact ih _
    · exact ih _

theorem Rides.trainRun (M : JsMath α) (deltaTimes : List α) {g : Game α} {ti li : Nat}
    {line : Line α} {train : Train α} {j : Nat} (h : Rides g ti li line train j)
    (hsync : line.segments.length + 1 = line.stations.length)
    (hm : 0 < line.segments.length) :
    ∃ train1 j1, Rides (GameJs.trainRun M deltaTimes g) ti li line train1 j1
      ∧ train1.speed = train.speed := by
  induction deltaTimes generalizing g train j with
  | nil => exact ⟨train, j, h, rfl⟩
  | cons deltaTime rest ih =>
    obtain ⟨train1, hsp, hc⟩ := h.step M deltaTime hsync hm
    have e : GameJs.trainRun M (deltaTime :: rest) g
        = GameJs.trainRun M rest (updateTrains M g deltaTime) := rfl
    rw [e]
    rcases hc with ⟨_, _, _, hr⟩ | ⟨_, _, _, _, hr⟩ | ⟨_, _, _, hr⟩ | ⟨_, _, _, _, _, hr⟩ <;>
    · obtain ⟨train2, j2, h2, hsp2⟩ := ih hr
      exact ⟨train2, j2, h2, hsp2.trans hsp⟩

/-- A stopped train is served after finitely many frames. -/
theorem Rides.served_after_dwell (M : JsMath α) (deltaTime : α) (n : Nat) {g : Game α}
    {ti li : Nat} {line : Line α} {train : Train α} {j : Nat}
    (h : Rides g ti li line train j)
    (hsync : line.segments.length + 1 = line.stations.length)
    (hm : 0 < line.segments.length)
    (hstate : train.state = TrainState.stopped)
    (hn : train.stationStopTime ≤ (n : α) * deltaTime) (hdt : 0 < deltaTime) :
    ∃ N, 1 ≤ (servedDuring M ti (List.replicate N deltaTime) g).length := by
  induction n generalizing g train j with
  | zero =>
    obtain ⟨train1, _, hc⟩ := h.step M deltaTime hsync hm
    simp only [Nat.cast_zero, zero_mul] at hn
    rcases hc with ⟨hs, _, hs1, hr⟩ | ⟨_, hgt, _⟩ | ⟨hs, _⟩ | ⟨hs, _⟩
    · refine ⟨1, ?_⟩
      rw [List.replicate_one,
        servedDuring_cons M ti deltaTime [] g train train1 h.train_eq hr.train_eq,
        if_pos ⟨hs, hs1⟩]
      simp
    · exact absurd (by linarith) hgt
    · rw [hstate] at hs; cases hs
    · rw [hstate] at hs; cases hs
  | succ n ih =>
    obtain ⟨train1, _, hc⟩ := h.step M deltaTime hsync hm
    rcases hc with ⟨hs, _, hs1, hr⟩ | ⟨_, _, hs1, ht1, hr⟩ | ⟨hs, _⟩ | ⟨hs, _⟩
    · refine ⟨1, ?_⟩
      rw [List.replicate_one,
        servedDuring_cons M ti deltaTime [] g train train1 h.train_eq hr.train_eq,
        if_pos ⟨hs, hs1⟩]
      simp
    · obtain ⟨N, hN⟩ := ih hr hs1 (by
        rw [ht1]
        push_cast at hn
        linarith)
      exact ⟨N + 1, le_trans hN (by
        rw [List.replicate_succ]
        exact servedDuring_length_cons M ti deltaTime _ g)⟩
    · rw [hstate] at hs; cases hs
    · rw [hstate] at hs; cases hs

/-- A moving train reaches the end of its segment, stops and is served after finitely many
frames. -/
theorem Rides.served_after_move [Archimedean α] (M : JsMath α) (deltaTime : α) (n : Nat)
    {g : Game α} {ti li : Nat} {line : Line α} {train : Train α} {j : Nat}
    (h : Rides g ti li line train j)
    (hsync : line.segments.length + 1 = line.stations.length)
    (hm : 0 < line.segments.length)
    (hstate : train.state = TrainState.moving)
    (hstep : 0 < train.speed * deltaTime / segmentLength M line train.currentSegment)
    (hn : 1 - train.position
      ≤ (n : α) * (train.speed * deltaTime / segmentLength M line train.currentSegment))
    (hdt : 0 < deltaTime) :
    ∃ N, 1 ≤ (servedDuring M ti (List.replicate N deltaTime) g).length := by
  have arrive : ∀ {g : Game α} {train1 : Train α} {j : Nat},
      train1.state = TrainState.stopped →
      Rides (updateTrains M g deltaTime) ti li line train1 j →
      ∃ N, 1 ≤ (servedDuring M ti (List.replicate N deltaTime) g).length := by
    intro g train1 j hs1 hr
    obtain ⟨n1, hn1⟩ := exists_nat_ge (train1.stationStopTime / deltaTime)
    obtain ⟨N, hN⟩ := hr.served_after_dwell M deltaTime n1 hsync hm hs1
      ((div_le_iff₀ hdt).mp hn1) hdt
    exact ⟨N + 1, le_trans hN (by
      rw [List.replicate_succ]
      exact servedDuring_length_cons M ti deltaTime _ g)⟩
  induction n generalizing g train j with
  | zero =>
    obtain ⟨train1, _, hc⟩ := h.step M deltaTime hsync hm
    simp only [Nat.cast_zero, zero_mul] at hn
    rcases hc with ⟨hs, _⟩ | ⟨hs, _⟩ | ⟨_, _, hs1, hr⟩ | ⟨_, hlt, _⟩
    · rw [hstate] at hs; cases hs
    · rw [hstate] at hs; cases hs
    · exact arrive hs1 hr
    · exfalso; linarith
  | succ n ih =>
    obtain ⟨train1, hsp, hc⟩ := h.step M deltaTime hsync hm
    rcases hc with ⟨hs, _⟩ | ⟨hs, _⟩ | ⟨_, _, hs1, hr⟩ | ⟨_, _, hs1, hp1, hc1, hr⟩
    · rw [hstate] at hs; cases hs
    · rw [hstate] at hs; cases hs
    · exact arrive hs1 hr
    · obtain ⟨N, hN⟩ := ih hr hs1 (by rw [hsp, hc1]; exact hstep) (by
        rw [hsp, hc1, hp1]
        push_cast at hn
        linarith)
      exact ⟨N + 1, le_trans hN (by
        rw [List.replicate_succ]
        exact servedDuring_length_cons M ti deltaTime _ g)⟩

/-- A train that rides a line whose segments have positive length keeps being served: for
every `K` some number of frames of `deltaTime > 0` contains at least `K` stops. -/
theorem Rides.served_eventually [Archimedean α] (M : JsMath α) (deltaTime : α) (K : Nat)
    {g : Game α} {ti li : Nat} {line : Line α} {train : Train α} {j : Nat}
    (h : Rides g ti li line train j)
    (hsync : line.segments.length + 1 = line.stations.length)
    (hm : 0 < line.segments.length)
    (hspeed : 0 < train.speed)
    (hlen : ∀ s, s < line.segments.length → 0 < segmentLength M line s)
    (hdt : 0 < deltaTime) :
    ∃ N, K ≤ (servedDuring M ti (List.replicate N deltaTime) g).length := by
  have once : ∀ {g : Game α} {train : Train α} {j : Nat}, Rides g ti li line train j →
      0 < train.speed → ∃ N, 1 ≤ (servedDuring M ti (List.replicate N deltaTime) g).length := by
    intro g train j h hspeed
    cases hstate : train.state with
    | stopped =>
      obtain ⟨n, hn⟩ := exists_nat_ge (train.stationStopTime / deltaTime)
      exact h.served_after_dwell M deltaTime n hsync hm hstate ((div_le_iff₀ hdt).mp hn) hdt
    | moving =>
      have hcs : train.currentSegment = (legAfter line.segments.length j).1 :=
        congrArg Prod.fst h.leg
      have hseg : train.currentSegment < line.segments.length := by
        rw [hcs]; exact legAfter_fst_lt _ _ hm
      have hstep : 0 < train.speed * deltaTime / segmentLength M line train.currentSegment :=
        div_pos (mul_pos hspeed hdt) (hlen _ hseg)
      obtain ⟨n, hn⟩ := exists_nat_ge ((1 - train.position)
        / (train.speed * deltaTime / segmentLength M line train.currentSegment))
      exact h.served_after_move M deltaTime n hsync hm hstate hstep
        ((div_le_iff₀ hstep).mp hn) hdt
  induction K with
  | zero => exact ⟨0, Nat.zero_le _⟩
  | succ K ih =>
    obtain ⟨N1, h1⟩ := ih
    obtain ⟨train1, j1, hr, hsp⟩ := h.trainRun M (List.replicate N1 deltaTime) hsync hm
    obtain ⟨N2, h2⟩ := once hr (by rw [hsp]; exact hspeed)
    refine ⟨N1 + N2, ?_⟩
    rw [List.replicate_add, servedDuring_append, List.length_append]
    omega

/-- **C29.** A train as `addTrainToLine` creates it (segment 0, direction 1, moving) on a
line with `n ≥ 2` stations, all of which exist, whose segments are in sync with the
stations. For every list of frame times the stations that `unloadPassengers` and
`loadPassengers` serve are, in order, the stations at the ping-pong positions 2, 3, ...:
stop number `k` serves position `k + 1`. If the speed and the segment lengths are positive,
then for every frame time `deltaTime > 0` and every `K` some number of frames contains at
least `K` stops; and every station index, 0 included, is the position `k + 1` of one of
the first `2 * (n - 1)` stops. -/
theorem served_stations_ping_pong [Archimedean α] (M : JsMath α) (g : Game α) (ti : Nat)
    (train : Train α) (line : Line α)
    (ht : g.trains[ti]? = some train) (hl : g.lines[train.line]? = some line)
    (hstart : train.currentSegment = 0 ∧ train.direction = 1
      ∧ train.state = TrainState.moving)
    (hsync : line.segments.length + 1 = line.stations.length)
    (hn : 2 ≤ line.stations.length)
    (hrefs : ∀ r ∈ line.stations, r < g.stations.length)
    (hspeed : 0 < train.speed)
    (hlen : ∀ s, s < line.segments.length → 0 < segmentLength M line s) :
    (∀ deltaTimes : List α, ∃ K, servedDuring M ti deltaTimes g = (List.range K).map fun k =>
      line.stations[pingPong line.stations.length (k + 2)]?)
    ∧ (∀ (deltaTime : α) (K : Nat), 0 < deltaTime →
        ∃ N, K ≤ (servedDuring M ti (List.replicate N deltaTime) g).length)
    ∧ (∀ i, i < line.stations.length →
        ∃ k, 1 ≤ k ∧ k ≤ 2 * (line.stations.length - 1)
          ∧ pingPong line.stations.length (k + 1) = i) := by
  have hm : 0 < line.segments.length := by omega
  have hr : Rides g ti train.line line train 0 :=
    ⟨ht, rfl, hl, fun r hr => ⟨_, List.getElem?_eq_getElem (hrefs r hr)⟩, by
      rw [legAfter_zero _ hm, hstart.1, hstart.2.1]⟩
  refine ⟨fun deltaTimes => ?_, fun deltaTime K hdt =>
    hr.served_eventually M deltaTime K hsync hm hspeed hlen hdt,
    fun i hi => pingPong_covers _ i hn hi⟩
  obtain ⟨K, hK⟩ := hr.served_in_order M deltaTimes hsync hm
  refine ⟨K, ?_⟩
  rw [hK]
  apply List.map_congr_left
  intro k _
  rw [hstart.2.2, if_neg (by decide)]
  congr 2
  omega

end Ride

set_option maxRecDepth 100000 in
/-- Witness of `served_stations_ping_pong`: the train of the line A-B-C; 140 frames of
100 ms contain five stops, which serve C, B, A, B, C. -/
theorem served_stations_ping_pong_witness :
    servedDuring flatMath 0 (List.replicate 140 100) lineGame
        = [some 2, some 1, some 0, some 1, some 2]
    ∧ ((List.range 5).map fun k => lineABC.stations[pingPong lineABC.stations.length (k + 2)]?)
        = [some 2, some 1, some 0, some 1, some 2]
    ∧ ((∀ deltaTimes : List ℚ, ∃ K, servedDuring flatMath 0 deltaTimes lineGame
          = (List.range K).map fun k =>
            lineABC.stations[pingPong lineABC.stations.length (k + 2)]?)
      ∧ (∀ (deltaTime : ℚ) (K : Nat), 0 < deltaTime →
          ∃ N, K ≤ (servedDuring flatMath 0 (List.replicate N deltaTime) lineGame).length)
      ∧ (∀ i, i < lineABC.stations.length →
          ∃ k, 1 ≤ k ∧ k ≤ 2 * (lineABC.stations.length - 1)
            ∧ pingPong lineABC.stations.length (k + 1) = i)) :=
  ⟨by decide!, by decide,
    served_stations_ping_pong flatMath lineGame 0 (trainOnABC 0 0 1 TrainState.moving 0 [])
      lineABC (by decide!) (by decide!) ⟨rfl, rfl, rfl⟩ (by decide) (by decide) (by decide!)
      (by decide!) (by decide!)⟩

set_option maxRecDepth 100000 in
/-- **C30.** Failing input: the line A-B-C with its train; after 20 frames of 100 ms the
train has arrived at B and is on segment 1 of 2. A right click on station C leaves the
line with the stations A, B and one segment, and the train still on segment 1: it has no
current segment, so `updateTrains` skips it (after the dwell it is `'moving'` at position 0
for ever). -/
theorem right_click_leaves_train_without_segment :
    ((ticks 20 lineGame).lines.map (fun l => (l.stations, l.segments.length)),
        (ticks 20 lineGame).trains.map (fun t => (t.currentSegment, t.state)))
      = ([([0, 1, 2], 2)], [(1, TrainState.stopped)])
    ∧ (cutGame.lines.map (fun l => (l.stations, l.segments.length)),
        cutGame.trains.map (fun t => (t.currentSegment, t.state)))
      = ([([0, 1], 1)], [(1, TrainState.stopped)])
    ∧ ((ticks 4 cutGame).trains.map fun t => (t.currentSegment, t.state, t.position))
      = [(1, TrainState.moving, 0)]
    ∧ ((ticks 200 cutGame).trains.map fun t => (t.currentSegment, t.state, t.position))
      = [(1, TrainState.moving, 0)] := by
  decide!

end GameJs

namespace GameFixed

/-! ## Line editing (game-fixed.js) -/

/-- **C19.** Failing input: with the mouse, line 0 is drawn from station 0 at `(100, 100)`
to station 1 at `(500, 100)`, which puts train 0 on it; then station 1 is right-clicked.
Line 0 is left with one station and its own `trains` list is emptied, but the game's
`trains` still holds train 0 of line 0. Drawing the line again adds train 1, so two trains
of line 0 are in the game's list while the line lists one. -/
theorem right_click_keeps_train_in_game_list :
    ((onMouseUp (onMouseDown twoStationGame 0 100 100) 500 100).lines.map
          (fun l => (l.stations.map fun s => s.id, l.trains)),
        (onMouseUp (onMouseDown twoStationGame 0 100 100) 500 100).trains.map
          (fun t => (t.id, t.line)))
      = ([([0, 1], [0]), ([], []), ([], [])], [(0, 0)])
    ∧ ((onMouseDown (onMouseUp (onMouseDown twoStationGame 0 100 100) 500 100)
            2 500 100).lines.map
          (fun l => (l.stations.map fun s => s.id, l.trains)),
        (onMouseDown (onMouseUp (onMouseDown twoStationGame 0 100 100) 500 100)
            2 500 100).trains.map
          (fun t => (t.id, t.line)))
      = ([([0], []), ([], []), ([], [])], [(0, 0)])
    ∧ ((onMouseUp (onMouseDown (onMouseDown
            (onMouseUp (onMouseDown twoStationGame 0 100 100) 500 100)
            2 500 100) 0 100 100) 500 100).lines.map
          (fun l => (l.stations.map fun s => s.id, l.trains)),
        (onMouseUp (onMouseDown (onMouseDown
            (onMouseUp (onMouseDown twoStationGame 0 100 100) 500 100)
            2 500 100) 0 100 100) 500 100).trains.map
          (fun t => (t.id, t.line)))
      = ([([0, 1], [1]), ([], []), ([], [])], [(0, 0), (1, 0)]) := by
  decide!

end GameFixed

end MiniMetro
